import Mathlib

/-!
# gobkm-nk: a verification development of `main.go`

The client keeps a tree of folders and bookmarks fetched from a GoBKM server
(`getRemoteBookmarks`), asks the server to create folders (`createFolder`) and
renders the tree with an immediate-mode toolkit (`buildTree`).

Conventions of the embedding

* Go `int` is `Int`; the 64-bit range is checked where the code checks it
  (decoding a JSON number).
* A Go pointer `*T` is `Option T` (`none` is `nil`). The only pointers of the
  program are created by `json.Unmarshal`, which allocates a fresh object for
  each, so no two pointers alias and a tree is faithfully a value.
* A Go slice `[]T` is `Option (List T)`: `none` is the nil slice, `some []` an
  empty non-nil slice. Capacity beyond the length is not represented.
* The globals of `main.go` are the fields of `State`; the network and the
  library calls whose result the program cannot control are fields of `World`.
* `encoding/json`, `encoding/base64` and `fmt.Sprintf` are library code; the
  fragments the program uses are written out here after the Go standard
  library, on JSON values (`JVal`) for `encoding/json`.
* A frame walks the tree through pointers. As long as the tree is not fetched
  in the frame, the folders are the values read at its start. After a fetch in
  the middle of a frame, what the pointers still held point at is a parameter
  of the frame (`Memory`).
-/

namespace Gobkm

/-! ## Data model (`main.go` lines 47-72) -/

/-- Tag: `type Tag struct { Id int; Name string }`. -/
structure Tag where
  Id : Int
  Name : String
  deriving DecidableEq, Repr

mutual
/-- Folder: `type Folder struct`, fields in declaration order. -/
inductive Folder where
  | mk (Id : Int) (Title : String) (Parent : Option Folder)
      (Folders : Option (List (Option Folder)))
      (Bookmarks : Option (List (Option Bookmark)))
      (NbChildrenFolders : Int) : Folder
/-- Bookmark: `type Bookmark struct`, fields in declaration order. -/
inductive Bookmark where
  | mk (Id : Int) (Title : String) (URL : String) (Favicon : String) (Starred : Bool)
      (Folder : Option Folder) (Tags : Option (List (Option Tag))) : Bookmark
end

namespace Folder

def Id : Folder → Int
  | mk i _ _ _ _ _ => i

def Title : Folder → String
  | mk _ t _ _ _ _ => t

def Parent : Folder → Option Folder
  | mk _ _ p _ _ _ => p

def Folders : Folder → Option (List (Option Folder))
  | mk _ _ _ fs _ _ => fs

def Bookmarks : Folder → Option (List (Option Bookmark))
  | mk _ _ _ _ bs _ => bs

def NbChildrenFolders : Folder → Int
  | mk _ _ _ _ _ n => n

/-- The zero value of `Folder`, the initial value of the global `tree`. -/
def zero : Folder := mk 0 "" none none none 0

end Folder

namespace Bookmark

def Id : Bookmark → Int
  | mk i _ _ _ _ _ _ => i

def Title : Bookmark → String
  | mk _ t _ _ _ _ _ => t

def URL : Bookmark → String
  | mk _ _ u _ _ _ _ => u

def Favicon : Bookmark → String
  | mk _ _ _ f _ _ _ => f

def Starred : Bookmark → Bool
  | mk _ _ _ _ s _ _ => s

def Folder : Bookmark → Option Gobkm.Folder
  | mk _ _ _ _ _ f _ => f

def Tags : Bookmark → Option (List (Option Tag))
  | mk _ _ _ _ _ _ t => t

/-- The zero value of `Bookmark`. -/
def zero : Bookmark := mk 0 "" "" "" false none none

end Bookmark

/-- The zero value of `Tag`. -/
def Tag.zero : Tag := ⟨0, ""⟩

/-! ## JSON values -/

/-- A JSON document after the syntax check. `num n` is a number literal written
without fraction and exponent, of value `n`; `frac lit` is a number literal with
a fraction or an exponent part, kept as its text. Object members keep the order
and the duplicates of the text, which `json.Unmarshal` processes one by one. -/
inductive JVal where
  | null : JVal
  | bool (b : Bool) : JVal
  | num (n : Int) : JVal
  | frac (lit : String) : JVal
  | str (s : String) : JVal
  | arr (xs : List JVal) : JVal
  | obj (kvs : List (String × JVal)) : JVal

/-- The error `json.Unmarshal` reports for a value of the wrong JSON type:
`Value` describes the JSON value, `Typ` (Go's `Type`) names the Go type it could not be
stored in. -/
structure UnmarshalTypeError where
  Value : String
  Typ : String
  deriving DecidableEq, Repr

/-- `(*UnmarshalTypeError).Error`, in the form it has when the error names no
struct field; the struct and the field, which the message names when the value
was meant for a field, are not recorded. -/
def UnmarshalTypeError.Error (e : UnmarshalTypeError) : String :=
  "json: cannot unmarshal " ++ e.Value ++ " into Go value of type " ++ e.Typ

/-- `(*decodeState).saveError`: only the first error of a decode is kept. -/
def saveError (saved : Option UnmarshalTypeError) (err : UnmarshalTypeError) :
    Option UnmarshalTypeError :=
  match saved with
  | none => some err
  | some e => some e

/-- The description `json.Unmarshal` puts in `UnmarshalTypeError.Value` for a
JSON value that is not `null`. -/
def JVal.describe : JVal → String
  | .null => "null"
  | .bool _ => "bool"
  | .num _ => "number"
  | .frac _ => "number"
  | .str _ => "string"
  | .arr _ => "array"
  | .obj _ => "object"

/-- Case folding of a member name's character as `encoding/json` does it when it
looks up a struct field: upper-case ASCII letters fold to lower case, and so do
the Kelvin sign (to `k`) and the long s (to `s`). -/
def foldRune (c : Char) : Char :=
  if 'A' ≤ c ∧ c ≤ 'Z' then Char.ofNat (c.toNat + 32)
  else if c = Char.ofNat 0x212A then 'k'
  else if c = Char.ofNat 0x17F then 's'
  else c

/-- Folded form of a member name. -/
def foldName (key : String) : List Char := key.toList.map foldRune

/-- Whether the member name `key` selects the struct field tagged `name`
(`name` is lower-case ASCII, as all the tags of `main.go` are): an exact match,
or else a match under case folding. No two tags of one struct of `main.go` are
equal under folding, so the order of the fields does not matter. -/
def keyIs (key name : String) : Bool := foldName key == name.toList

/-! ## `json.Unmarshal` on the types of `main.go` -/

/-- Lower and upper bound of Go's `int` on a 64-bit platform. -/
def fitsInt (n : Int) : Bool := -9223372036854775808 ≤ n && n ≤ 9223372036854775807

/-- Store a JSON value in an `int` field (`literalStore`, `array`, `object` of
`encoding/json/decode.go`). `null` leaves the field alone; a number literal must
be accepted by `strconv.ParseInt` and fit. -/
def decInt (v : JVal) (old : Int) (e : Option UnmarshalTypeError) :
    Int × Option UnmarshalTypeError :=
  match v with
  | .null => (old, e)
  | .num n =>
    if fitsInt n then (n, e) else (old, saveError e ⟨"number " ++ toString n, "int"⟩)
  | .frac lit => (old, saveError e ⟨"number " ++ lit, "int"⟩)
  | w => (old, saveError e ⟨w.describe, "int"⟩)

/-- Store a JSON value in a `string` field. -/
def decString (v : JVal) (old : String) (e : Option UnmarshalTypeError) :
    String × Option UnmarshalTypeError :=
  match v with
  | .null => (old, e)
  | .str s => (s, e)
  | w => (old, saveError e ⟨w.describe, "string"⟩)

/-- Store a JSON value in a `bool` field. -/
def decBool (v : JVal) (old : Bool) (e : Option UnmarshalTypeError) :
    Bool × Option UnmarshalTypeError :=
  match v with
  | .null => (old, e)
  | .bool b => (b, e)
  | w => (old, saveError e ⟨w.describe, "bool"⟩)

/-- Store the members of a JSON object in a `Tag`, one after the other. -/
def decTagFields (kvs : List (String × JVal)) (t : Tag) (e : Option UnmarshalTypeError) :
    Tag × Option UnmarshalTypeError :=
  match kvs with
  | [] => (t, e)
  | (k, v) :: rest =>
    if keyIs k "id" then
      let r := decInt v t.Id e
      decTagFields rest { t with Id := r.1 } r.2
    else if keyIs k "name" then
      let r := decString v t.Name e
      decTagFields rest { t with Name := r.1 } r.2
    else decTagFields rest t e

/-- Store a JSON value in a `*Tag`: `null` sets the pointer to nil; any other
value first allocates a `Tag` when the pointer is nil (`indirect`), and only an
object is then stored in it. -/
def decTagPtr (v : JVal) (old : Option Tag) (e : Option UnmarshalTypeError) :
    Option Tag × Option UnmarshalTypeError :=
  match v with
  | .null => (none, e)
  | .obj kvs =>
    let r := decTagFields kvs (old.getD Tag.zero) e
    (some r.1, r.2)
  | w => (some (old.getD Tag.zero), saveError e ⟨w.describe, "main.Tag"⟩)

/-- Store the elements of a JSON array in the elements of a `[]*Tag`: element `i`
is stored in the slice's element `i` when the slice has one, in a nil pointer
otherwise. -/
def decTagElems (xs : List JVal) (old : List (Option Tag)) (e : Option UnmarshalTypeError) :
    List (Option Tag) × Option UnmarshalTypeError :=
  match xs with
  | [] => ([], e)
  | x :: rest =>
    let r := decTagPtr x old.head?.join e
    let rs := decTagElems rest old.tail r.2
    (r.1 :: rs.1, rs.2)

/-- Store a JSON value in a `[]*Tag` field. -/
def decTagSlice (v : JVal) (old : Option (List (Option Tag))) (e : Option UnmarshalTypeError) :
    Option (List (Option Tag)) × Option UnmarshalTypeError :=
  match v with
  | .null => (none, e)
  | .arr xs =>
    let r := decTagElems xs (old.getD []) e
    (some r.1, r.2)
  | w => (old, saveError e ⟨w.describe, "[]*main.Tag"⟩)

mutual
/-- Store the members of a JSON object in a `Folder`, one after the other; a
member whose name selects no field is skipped. -/
def decFolderFields (kvs : List (String × JVal)) (f : Folder) (e : Option UnmarshalTypeError) :
    Folder × Option UnmarshalTypeError :=
  match kvs, f with
  | [], f => (f, e)
  | (k, v) :: rest, .mk i t p fs bs n =>
    if keyIs k "id" then
      let r := decInt v i e
      decFolderFields rest (.mk r.1 t p fs bs n) r.2
    else if keyIs k "title" then
      let r := decString v t e
      decFolderFields rest (.mk i r.1 p fs bs n) r.2
    else if keyIs k "parent" then
      let r := decFolderPtr v p e
      decFolderFields rest (.mk i t r.1 fs bs n) r.2
    else if keyIs k "folders" then
      let r := decFolderSlice v fs e
      decFolderFields rest (.mk i t p r.1 bs n) r.2
    else if keyIs k "bookmarks" then
      let r := decBookmarkSlice v bs e
      decFolderFields rest (.mk i t p fs r.1 n) r.2
    else if keyIs k "nbchildrenfolders" then
      let r := decInt v n e
      decFolderFields rest (.mk i t p fs bs r.1) r.2
    else decFolderFields rest (.mk i t p fs bs n) e
/-- Store a JSON value in a `*Folder`. -/
def decFolderPtr (v : JVal) (old : Option Folder) (e : Option UnmarshalTypeError) :
    Option Folder × Option UnmarshalTypeError :=
  match v with
  | .null => (none, e)
  | .obj kvs =>
    let r := decFolderFields kvs (old.getD Folder.zero) e
    (some r.1, r.2)
  | .bool _ => (some (old.getD Folder.zero), saveError e ⟨"bool", "main.Folder"⟩)
  | .num _ => (some (old.getD Folder.zero), saveError e ⟨"number", "main.Folder"⟩)
  | .frac _ => (some (old.getD Folder.zero), saveError e ⟨"number", "main.Folder"⟩)
  | .str _ => (some (old.getD Folder.zero), saveError e ⟨"string", "main.Folder"⟩)
  | .arr _ => (some (old.getD Folder.zero), saveError e ⟨"array", "main.Folder"⟩)
/-- Store the elements of a JSON array in the elements of a `[]*Folder`. -/
def decFolderElems (xs : List JVal) (old : List (Option Folder)) (e : Option UnmarshalTypeError) :
    List (Option Folder) × Option UnmarshalTypeError :=
  match xs with
  | [] => ([], e)
  | x :: rest =>
    let r := decFolderPtr x old.head?.join e
    let rs := decFolderElems rest old.tail r.2
    (r.1 :: rs.1, rs.2)
/-- Store a JSON value in a `[]*Folder` field. -/
def decFolderSlice (v : JVal) (old : Option (List (Option Folder)))
    (e : Option UnmarshalTypeError) :
    Option (List (Option Folder)) × Option UnmarshalTypeError :=
  match v with
  | .null => (none, e)
  | .arr xs =>
    let r := decFolderElems xs (old.getD []) e
    (some r.1, r.2)
  | .bool _ => (old, saveError e ⟨"bool", "[]*main.Folder"⟩)
  | .num _ => (old, saveError e ⟨"number", "[]*main.Folder"⟩)
  | .frac _ => (old, saveError e ⟨"number", "[]*main.Folder"⟩)
  | .str _ => (old, saveError e ⟨"string", "[]*main.Folder"⟩)
  | .obj _ => (old, saveError e ⟨"object", "[]*main.Folder"⟩)
/-- Store the members of a JSON object in a `Bookmark`, one after the other. -/
def decBookmarkFields (kvs : List (String × JVal)) (b : Bookmark)
    (e : Option UnmarshalTypeError) : Bookmark × Option UnmarshalTypeError :=
  match kvs, b with
  | [], b => (b, e)
  | (k, v) :: rest, .mk i t u fav s fo tags =>
    if keyIs k "id" then
      let r := decInt v i e
      decBookmarkFields rest (.mk r.1 t u fav s fo tags) r.2
    else if keyIs k "title" then
      let r := decString v t e
      decBookmarkFields rest (.mk i r.1 u fav s fo tags) r.2
    else if keyIs k "url" then
      let r := decString v u e
      decBookmarkFields rest (.mk i t r.1 fav s fo tags) r.2
    else if keyIs k "favicon" then
      let r := decString v fav e
      decBookmarkFields rest (.mk i t u r.1 s fo tags) r.2
    else if keyIs k "starred" then
      let r := decBool v s e
      decBookmarkFields rest (.mk i t u fav r.1 fo tags) r.2
    else if keyIs k "folder" then
      let r := decFolderPtr v fo e
      decBookmarkFields rest (.mk i t u fav s r.1 tags) r.2
    else if keyIs k "tags" then
      let r := decTagSlice v tags e
      decBookmarkFields rest (.mk i t u fav s fo r.1) r.2
    else decBookmarkFields rest (.mk i t u fav s fo tags) e
/-- Store a JSON value in a `*Bookmark`. -/
def decBookmarkPtr (v : JVal) (old : Option Bookmark) (e : Option UnmarshalTypeError) :
    Option Bookmark × Option UnmarshalTypeError :=
  match v with
  | .null => (none, e)
  | .obj kvs =>
    let r := decBookmarkFields kvs (old.getD Bookmark.zero) e
    (some r.1, r.2)
  | .bool _ => (some (old.getD Bookmark.zero), saveError e ⟨"bool", "main.Bookmark"⟩)
  | .num _ => (some (old.getD Bookmark.zero), saveError e ⟨"number", "main.Bookmark"⟩)
  | .frac _ => (some (old.getD Bookmark.zero), saveError e ⟨"number", "main.Bookmark"⟩)
  | .str _ => (some (old.getD Bookmark.zero), saveError e ⟨"string", "main.Bookmark"⟩)
  | .arr _ => (some (old.getD Bookmark.zero), saveError e ⟨"array", "main.Bookmark"⟩)
/-- Store the elements of a JSON array in the elements of a `[]*Bookmark`. -/
def decBookmarkElems (xs : List JVal) (old : List (Option Bookmark))
    (e : Option UnmarshalTypeError) : List (Option Bookmark) × Option UnmarshalTypeError :=
  match xs with
  | [] => ([], e)
  | x :: rest =>
    let r := decBookmarkPtr x old.head?.join e
    let rs := decBookmarkElems rest old.tail r.2
    (r.1 :: rs.1, rs.2)
/-- Store a JSON value in a `[]*Bookmark` field. -/
def decBookmarkSlice (v : JVal) (old : Option (List (Option Bookmark)))
    (e : Option UnmarshalTypeError) :
    Option (List (Option Bookmark)) × Option UnmarshalTypeError :=
  match v with
  | .null => (none, e)
  | .arr xs =>
    let r := decBookmarkElems xs (old.getD []) e
    (some r.1, r.2)
  | .bool _ => (old, saveError e ⟨"bool", "[]*main.Bookmark"⟩)
  | .num _ => (old, saveError e ⟨"number", "[]*main.Bookmark"⟩)
  | .frac _ => (old, saveError e ⟨"number", "[]*main.Bookmark"⟩)
  | .str _ => (old, saveError e ⟨"string", "[]*main.Bookmark"⟩)
  | .obj _ => (old, saveError e ⟨"object", "[]*main.Bookmark"⟩)
end

/-- Store a JSON value in the `Folder` that `&tree` points to: the pointer
handed to `json.Unmarshal` cannot be set, so `null` leaves the struct alone, an
object is stored member by member, anything else is a type error. -/
def decFolder (v : JVal) (old : Folder) : Folder × Option UnmarshalTypeError :=
  match v with
  | .null => (old, none)
  | .obj kvs => decFolderFields kvs old none
  | w => (old, some ⟨w.describe, "main.Folder"⟩)

/-- The result of the syntax check `json.Unmarshal` runs over the whole input
before it stores anything (`checkValid`): a syntax error with its message, or the
JSON value the text denotes. -/
inductive Body where
  | invalid (msg : String) : Body
  | json (v : JVal) : Body

/-- `json.Unmarshal(body, &tree)`: the new value of `tree` and the error
returned. A syntax error is found before anything is stored; a type error is
reported after the rest of the document has been stored. -/
def Unmarshal (body : Body) (tree : Folder) : Folder × Option String :=
  match body with
  | .invalid msg => (tree, some msg)
  | .json v =>
    let r := decFolder v tree
    (r.1, r.2.map UnmarshalTypeError.Error)

/-! ## `base64.StdEncoding.EncodeToString` and `basicAuth` (lines 93-96) -/

/-- The alphabet of `base64.StdEncoding`. -/
def encodeStd : List Char :=
  "ABCDEFGHIJKLMNOPQRSTUVWXYZabcdefghijklmnopqrstuvwxyz0123456789+/".toList

/-- The character of a 6-bit value: `enc.encode[v]`. -/
def encChar (v : Nat) : Char := encodeStd.getD v 'A'

/-- `(*Encoding).Encode` of `encoding/base64` with the standard alphabet and
padding character `=`. Three source bytes make `val = b0<<16 | b1<<8 | b2`, whose
four 6-bit groups `val>>18&0x3F`, `val>>12&0x3F`, `val>>6&0x3F`, `val&0x3F` are
written out; shifts and masks are spelled as multiplication, division and
remainder. A last block of one or two bytes is padded. -/
def Encode : List UInt8 → List Char
  | [] => []
  | [b0] =>
    let val := b0.toNat * 65536
    [encChar (val / 262144 % 64), encChar (val / 4096 % 64), '=', '=']
  | [b0, b1] =>
    let val := b0.toNat * 65536 + b1.toNat * 256
    [encChar (val / 262144 % 64), encChar (val / 4096 % 64), encChar (val / 64 % 64), '=']
  | b0 :: b1 :: b2 :: rest =>
    let val := b0.toNat * 65536 + b1.toNat * 256 + b2.toNat
    encChar (val / 262144 % 64) :: encChar (val / 4096 % 64) :: encChar (val / 64 % 64) ::
      encChar (val % 64) :: Encode rest

/-- The bytes of a Go string. Strings of the program are taken to hold valid
UTF-8, so a Go string is a `String` and its bytes are its UTF-8 encoding. -/
def bytesOf (s : String) : List UInt8 := s.toList.flatMap String.utf8EncodeChar

/-- `base64.StdEncoding.EncodeToString`. -/
def EncodeToString (src : List UInt8) : String := String.mk (Encode src)

/-- Go: `basicAuth`. -/
def basicAuth (username password : String) : String :=
  let auth := username ++ ":" ++ password
  EncodeToString (bytesOf auth)

/-! ### The standard base64 decoding of RFC 4648, section 4 -/

/-- The 6-bit value of a character of the standard alphabet. -/
def decChar (c : Char) : Option Nat :=
  let i := encodeStd.indexOf c
  if i < 64 then some i else none

/-- Standard base64 decoding: groups of four characters give three bytes; the
last group may end in one or two padding characters and then gives two bytes or
one, and its unused low bits must be zero (the canonical encoding). -/
def stdDecode : List Char → Option (List UInt8)
  | [] => some []
  | [c0, c1, c2, c3] =>
    if c2 = '=' ∧ c3 = '=' then
      match decChar c0, decChar c1 with
      | some v0, some v1 =>
        if v1 % 16 = 0 then some [UInt8.ofNat ((v0 * 64 + v1) / 16)] else none
      | _, _ => none
    else if c3 = '=' then
      match decChar c0, decChar c1, decChar c2 with
      | some v0, some v1, some v2 =>
        let n := (v0 * 64 + v1) * 64 + v2
        if v2 % 4 = 0 then some [UInt8.ofNat (n / 1024), UInt8.ofNat (n / 4 % 256)] else none
      | _, _, _ => none
    else
      match decChar c0, decChar c1, decChar c2, decChar c3 with
      | some v0, some v1, some v2, some v3 =>
        let n := ((v0 * 64 + v1) * 64 + v2) * 64 + v3
        some [UInt8.ofNat (n / 65536), UInt8.ofNat (n / 256 % 256), UInt8.ofNat (n % 256)]
      | _, _, _, _ => none
  | c0 :: c1 :: c2 :: c3 :: rest =>
    match decChar c0, decChar c1, decChar c2, decChar c3, stdDecode rest with
    | some v0, some v1, some v2, some v3, some bs =>
      let n := ((v0 * 64 + v1) * 64 + v2) * 64 + v3
      some (UInt8.ofNat (n / 65536) :: UInt8.ofNat (n / 256 % 256) :: UInt8.ofNat (n % 256) :: bs)
    | _, _, _, _, _ => none
  | _ => none

/-! ## `fmt.Sprintf`, `strings.TrimSpace`, `bytes.Trim` -/

/-- The digit `byte('0' + d)`. -/
def digitByte (d : Nat) : Char := Char.ofNat (48 + d)

/-- The base-10 loop of `fmt`'s `fmtInteger`: the digits of `u` are written from
the last to the first in front of `acc`. -/
def fmtUint (u : Nat) (acc : List Char) : List Char :=
  if h : 10 ≤ u then fmtUint (u / 10) (digitByte (u - u / 10 * 10) :: acc)
  else digitByte u :: acc
termination_by u
decreasing_by omega

/-- The verb `%d` on an `int`: a minus sign for a negative value, then the
digits of its magnitude. -/
def fmtInt (n : Int) : List Char :=
  if n < 0 then '-' :: fmtUint n.natAbs [] else fmtUint n.natAbs []

/-- An operand of `Sprintf`. -/
inductive Arg where
  | str (s : String) : Arg
  | int (n : Int) : Arg

/-- `fmt.Sprintf` for the verbs `%s` on a string and `%d` on an `int`, the only
ones of `main.go`. Any other use of `%` is rendered as the marker `%!`, which
stands for the error text `fmt` prints there. -/
def SprintfChars : List Char → List Arg → List Char
  | [], _ => []
  | c :: rest, args =>
    if c = '%' then
      match rest, args with
      | 's' :: rest2, Arg.str s :: args2 => s.toList ++ SprintfChars rest2 args2
      | 'd' :: rest2, Arg.int n :: args2 => fmtInt n ++ SprintfChars rest2 args2
      | _, _ => ['%', '!']
    else c :: SprintfChars rest args

/-- `fmt.Sprintf(format, args...)`. -/
def Sprintf (format : String) (args : List Arg) : String :=
  String.mk (SprintfChars format.toList args)

/-- `unicode.IsSpace`: the characters of Unicode's White Space property. -/
def IsSpace (c : Char) : Bool :=
  let n := c.toNat
  (9 ≤ n && n ≤ 13) || n = 0x20 || n = 0x85 || n = 0xA0 || n = 0x1680 ||
    (0x2000 ≤ n && n ≤ 0x200A) || n = 0x2028 || n = 0x2029 || n = 0x202F || n = 0x205F ||
    n = 0x3000

/-- Remove from both ends of a string the characters that satisfy `p`
(`strings.TrimFunc`). -/
def trimFunc (p : Char → Bool) (s : String) : String :=
  String.mk ((s.toList.dropWhile p).reverse.dropWhile p).reverse

/-- `strings.TrimSpace`. -/
def TrimSpace (s : String) : String := trimFunc IsSpace s

/-- `bytes.Trim(buf, "\x00")`: the buffer without its leading and trailing NUL
bytes. -/
def trimNul (buf : String) : String := trimFunc (fun c => c = Char.ofNat 0) buf

/-! ## The network and the globals -/

/-- An HTTP request as `main.go` builds it: method, URL and headers. -/
structure Request where
  Method : String
  URL : String
  Header : List (String × String)
  deriving DecidableEq, Repr

/-- `req.Header.Add(key, value)`. -/
def Request.Add (req : Request) (key value : String) : Request :=
  { req with Header := req.Header ++ [(key, value)] }

/-- An HTTP response: the status code and what `ioutil.ReadAll(resp.Body)`
returns, an error or the body (as the JSON decoder will see it). -/
structure Response where
  StatusCode : Nat
  ReadAll : Except String Body

/-- What the program does to the outside, in order. `createFolder` and
`getRemoteBookmarks` are recorded on entry; `send` is a `client.Do`. -/
inductive Event where
  | createFolder (folderName : String) (parentId : Int) : Event
  | getRemoteBookmarks (url : String) : Event
  | send (req : Request) : Event
  | openbrowser (url : String) : Event
  | println (text : String) : Event
  deriving DecidableEq, Repr

/-- The environment of the program. `urlError url` is the error of
`http.NewRequest("GET", url, nil)`, if it has one; `Do history req` is the result
of `client.Do(req)` after the events of `history`: a transport error or a
response (a response of any status is not an error of `client.Do`);
`start history url` tells whether starting the browser command succeeds. -/
structure World where
  urlError : String → Option String
  Do : List Event → Request → Except String Response
  start : List Event → String → Bool

/-- `http.NewRequest(method, url, nil)`. -/
def World.NewRequest (w : World) (method url : String) : Except String Request :=
  match w.urlError url with
  | some err => .error err
  | none => .ok ⟨method, url, []⟩

/-- The globals of `main.go` (lines 27-45) that the modelled functions use, and
`trace`, the events so far. The byte buffers are strings (NUL bytes included). -/
structure State where
  tree : Folder
  composeServerURL : String
  composeServerLogin : String
  composeServerPassword : String
  composeCreateFolderName : String
  composeCreateBookmarkName : String
  composeCreateBookmarkURL : String
  errorMsg : String
  serverURL : String
  folderCreated : Int
  bookmarkCreated : Int
  trace : List Event

/-- Go: `getRemoteBookmarks` (lines 98-125). The status code of the response is
not looked at. -/
def getRemoteBookmarks (w : World) (url : String) (s : State) : State :=
  let s := { s with trace := s.trace ++ [Event.getRemoteBookmarks url] }
  let s := { s with serverURL := TrimSpace url }
  match w.NewRequest "GET" (s.serverURL ++ "/getTree/") with
  | .error err => { s with errorMsg := err }
  | .ok req =>
    let req := req.Add "Authorization"
      ("Basic " ++ basicAuth s.composeServerLogin s.composeServerPassword)
    let resp := w.Do s.trace req
    let s := { s with trace := s.trace ++ [Event.send req] }
    match resp with
    | .error err => { s with errorMsg := err }
    | .ok resp =>
      match resp.ReadAll with
      | .error err => { s with errorMsg := err }
      | .ok body =>
        match Unmarshal body s.tree with
        | (tree, some err) => { s with tree := tree, errorMsg := err }
        | (tree, none) => { s with tree := tree }

/-- The URL `createFolder` asks for (line 129). -/
def createFolderURL (serverURL folderName : String) (parentId : Int) : String :=
  Sprintf "%s/addFolder/?folderName=%s&parentId=%d"
    [Arg.str serverURL, Arg.str folderName, Arg.int parentId]

/-- Go: `createFolder` (lines 127-142). The response is dropped. -/
def createFolder (w : World) (folderName : String) (parentId : Int) (s : State) : State :=
  let s := { s with trace := s.trace ++ [Event.createFolder folderName parentId] }
  let url := createFolderURL s.serverURL folderName parentId
  match w.NewRequest "GET" url with
  | .error err => { s with errorMsg := err }
  | .ok req =>
    let req := req.Add "Authorization"
      ("Basic " ++ basicAuth s.composeServerLogin s.composeServerPassword)
    let resp := w.Do s.trace req
    let s := { s with trace := s.trace ++ [Event.send req] }
    match resp with
    | .error err => { s with errorMsg := err }
    | .ok _ => s

/-- A buffer of `make([]byte, 512)` after `copy(buf, text)`. -/
def buffer512 (text : String) : String :=
  text ++ String.mk (List.replicate (512 - text.utf8ByteSize) (Char.ofNat 0))

/-- The globals after the assignments of `init` (lines 75-88), before its call
of `getRemoteBookmarks`. -/
def initGlobals : State :=
  { tree := Folder.zero
    composeServerURL := buffer512 "server URL"
    composeServerLogin := buffer512 "login"
    composeServerPassword := buffer512 "password"
    composeCreateFolderName := buffer512 ""
    composeCreateBookmarkName := buffer512 "name"
    composeCreateBookmarkURL := buffer512 "URL"
    errorMsg := ""
    serverURL := ""
    folderCreated := -1
    bookmarkCreated := -1
    trace := [] }

/-- Go: `init` (lines 74-91). -/
def init (w : World) : State := getRemoteBookmarks w "http://localhost:8081" initGlobals

/-! ## The failures of the two network operations, as the specification lists them -/

/-- The `Authorization` header of both requests. -/
def authHeader (s : State) : String × String :=
  ("Authorization", "Basic " ++ basicAuth s.composeServerLogin s.composeServerPassword)

/-- The request for the tree: `GET {serverURL}/getTree/`. -/
def getTreeRequest (url : String) (s : State) : Request :=
  ⟨"GET", TrimSpace url ++ "/getTree/", [authHeader s]⟩

/-- The request for a new folder:
`GET {serverURL}/addFolder/?folderName={name}&parentId={id}`. -/
def addFolderRequest (folderName : String) (parentId : Int) (s : State) : Request :=
  ⟨"GET", s.serverURL ++ "/addFolder/?folderName=" ++ folderName ++ "&parentId=" ++
    toString parentId, [authHeader s]⟩

/-- The two network operations. -/
inductive Op where
  | getRemoteBookmarks (url : String) : Op
  | createFolder (folderName : String) (parentId : Int) : Op

/-- Run a network operation. -/
def Op.run (w : World) : Op → State → State
  | .getRemoteBookmarks url, s => Gobkm.getRemoteBookmarks w url s
  | .createFolder folderName parentId, s => Gobkm.createFolder w folderName parentId s

/-- The request of an operation and the history at the time it is sent. -/
def Op.request : Op → State → Request
  | .getRemoteBookmarks url, s => getTreeRequest url s
  | .createFolder folderName parentId, s => addFolderRequest folderName parentId s

/-- The history when the request of an operation is sent. -/
def Op.history : Op → State → List Event
  | .getRemoteBookmarks url, s => s.trace ++ [Event.getRemoteBookmarks url]
  | .createFolder folderName parentId, s => s.trace ++ [Event.createFolder folderName parentId]

/-- A failure of a network operation. -/
inductive Failure where
  | request (err : String) : Failure
  | transport (err : String) : Failure
  | read (err : String) : Failure
  | syntaxError (msg : String) : Failure
  | typeError (err : UnmarshalTypeError) : Failure

/-- The description of a failure: the text of its Go error. -/
def Failure.description : Failure → String
  | .request err => err
  | .transport err => err
  | .read err => err
  | .syntaxError msg => msg
  | .typeError err => err.Error

/-- Whether the failure is a type error of the JSON decoder. -/
def Failure.isTypeError : Failure → Bool
  | .typeError _ => true
  | _ => false

/-- `Fails w s op fail`: in the world `w` and from the state `s`, the operation
`op` meets the failure `fail`. The request cannot be built, or sending it fails;
for the tree, reading the body fails, or the body is not JSON, or a value of the
JSON document has the wrong type. A response with a status outside 2xx is no
failure of its own kind: the program never reads the status. -/
inductive Fails (w : World) (s : State) : Op → Failure → Prop where
  | request (op : Op) (err : String) (h : w.urlError (op.request s).URL = some err) :
      Fails w s op (.request err)
  | transport (op : Op) (err : String) (h : w.urlError (op.request s).URL = none)
      (hd : w.Do (op.history s) (op.request s) = .error err) :
      Fails w s op (.transport err)
  | read (url : String) (resp : Response) (err : String)
      (h : w.urlError (getTreeRequest url s).URL = none)
      (hd : w.Do (s.trace ++ [Event.getRemoteBookmarks url]) (getTreeRequest url s) = .ok resp)
      (hr : resp.ReadAll = .error err) :
      Fails w s (.getRemoteBookmarks url) (.read err)
  | syntaxError (url : String) (resp : Response) (msg : String)
      (h : w.urlError (getTreeRequest url s).URL = none)
      (hd : w.Do (s.trace ++ [Event.getRemoteBookmarks url]) (getTreeRequest url s) = .ok resp)
      (hr : resp.ReadAll = .ok (.invalid msg)) :
      Fails w s (.getRemoteBookmarks url) (.syntaxError msg)
  | typeError (url : String) (resp : Response) (v : JVal) (err : UnmarshalTypeError)
      (h : w.urlError (getTreeRequest url s).URL = none)
      (hd : w.Do (s.trace ++ [Event.getRemoteBookmarks url]) (getTreeRequest url s) = .ok resp)
      (hr : resp.ReadAll = .ok (.json v))
      (he : (decFolder v s.tree).2 = some err) :
      Fails w s (.getRemoteBookmarks url) (.typeError err)

/-! ## Concrete worlds and states used in the examples -/

/-- A world in which every URL is accepted and every request is answered by
`resp`. -/
def answering (resp : Response) : World :=
  { urlError := fun _ => none
    Do := fun _ _ => .ok resp
    start := fun _ _ => true }

/-- A world in which every URL is accepted and no request can be sent. -/
def unreachable (err : String) : World :=
  { urlError := fun _ => none
    Do := fun _ _ => .error err
    start := fun _ _ => true }

/-- The globals after `init`'s assignments, with `tree` and `errorMsg` replaced. -/
def loaded (tree : Folder) (errorMsg : String) : State :=
  { initGlobals with tree := tree, errorMsg := errorMsg }

/-- A folder without parent, children and bookmarks. -/
def leaf (id : Int) (title : String) : Folder := Folder.mk id title none none none 0

/-- The document `{"title": "new", "id": "x"}`: its `id` is a string. -/
def wrongTypeDoc : JVal := .obj [("title", .str "new"), ("id", .str "x")]

/-- The document `{"id": 5}`: it gives no title. -/
def partialDoc : JVal := .obj [("id", .num 5)]

/-! ## `buildTree` (lines 163-241)

The toolkit is immediate-mode: every widget call draws the widget and returns
what the user did to it in this frame. A frame is therefore a function of the
answers of the toolkit, `UI`. A widget call of `buildTree` is identified by the
folder it is made for, and a folder by its path from the root (the indices of
the children followed). The layout calls, which draw nothing, are left out. -/

/-- The three text buffers `buildTree` edits. -/
inductive Buffer where
  | createFolderName : Buffer
  | createBookmarkName : Buffer
  | createBookmarkURL : Buffer
  deriving DecidableEq, Repr

/-- A widget of `buildTree`, by the call that draws it: `tree` is
`NkTreePushHashed` (the header of a folder), `button` is `NkButtonLabel`, `edit`
is `NkEditStringZeroTerminated`, `label` is `NkLabel` (the title of a bookmark),
`symbol` is `NkButtonSymbol` (the button that opens a bookmark) and `pop` is
`NkTreePop`, which closes the section of an expanded folder. -/
inductive Item where
  | tree (title : String) : Item
  | button (label : String) : Item
  | edit (buffer : Buffer) : Item
  | label (text : String) : Item
  | symbol : Item
  | pop : Item
  deriving DecidableEq, Repr

/-- The answers of the toolkit in one frame. `expanded path` is
`NkTreePushHashed(...) > 0` for the folder at `path`; the next four are
`NkButtonLabel(...) > 0` for its buttons; `openURL path j` is
`NkButtonSymbol(...) > 0` for its bookmark number `j`; `typed path buffer old` is
the content of `buffer` after the edit field of the folder at `path`, when it
was `old` before; `serverURL`, `login` and `password` give in the same way the
content of the three buffers of `draw` after their edit fields. -/
structure UI where
  expanded : List Nat → Bool
  newBookmark : List Nat → Bool
  newFolder : List Nat → Bool
  okFolder : List Nat → Bool
  okBookmark : List Nat → Bool
  openURL : List Nat → Nat → Bool
  typed : List Nat → Buffer → String → String
  serverURL : String → String
  login : String → String
  password : String → String

/-- A frame in which the user only looks: the folders are expanded as
`expanded` says, no button is clicked and no text is typed. -/
def UI.idle (expanded : List Nat → Bool) : UI :=
  { expanded := expanded
    newBookmark := fun _ => false
    newFolder := fun _ => false
    okFolder := fun _ => false
    okBookmark := fun _ => false
    openURL := fun _ _ => false
    typed := fun _ _ old => old
    serverURL := fun old => old
    login := fun old => old
    password := fun old => old }

/-- The globals and the widgets drawn so far in the frame. -/
structure Run where
  s : State
  items : List Item

/-- Draw a widget. -/
def Run.emit (r : Run) (item : Item) : Run := { r with items := r.items ++ [item] }

/-- A piece of work a frame has before it when the tree is fetched in the
middle of the frame. `visit path childf`: the call `buildTree(childf, ctx)` of
line 236 for an element of `Folders` that the loop of an enclosing folder has
not reached yet (`none` is a nil element); `rest path f`: lines 201-239 for the
folder `f` whose "ok" handler made the fetch; `pop`: the `NkTreePop` of an
enclosing folder (line 239). -/
inductive Task where
  | visit (path : List Nat) (childf : Option Folder) : Task
  | rest (path : List Nat) (f : Folder) : Task
  | pop : Task

/-- Why the walk over the folders, as they were when the walk began, does not
run to its end. `refetched`: the "ok" button of a folder form has fetched the
tree (lines 192-199); `json.Unmarshal` has then rewritten in place folders that
the frame still holds, and `todo` is what the frame goes on to do, in order
(`resume` does it). `panic`: a nil element of `Folders` or `Bookmarks` was
dereferenced. `fatal`: `log.Fatal` in `openbrowser`. The last two end the
process. -/
inductive Stop where
  | refetched (r : Run) (todo : List Task) : Stop
  | panic (r : Run) : Stop
  | fatal (r : Run) : Stop

/-- What is still to do after a fetch, with the work `more` of an enclosing
loop or folder put behind it. A panic and `log.Fatal` leave nothing to do. -/
def Stop.andThen : Stop → List Task → Stop
  | .refetched r todo, more => .refetched r (todo ++ more)
  | .panic r, _ => .panic r
  | .fatal r, _ => .fatal r

/-- Lines 171-174: the "new bookmark" button was clicked on the folder `id`. -/
def clickNewBookmark (id : Int) (s : State) : State :=
  let s := { s with bookmarkCreated := id }
  { s with folderCreated := -1 }

/-- Lines 176-179: the "new folder" button was clicked on the folder `id`. -/
def clickNewFolder (id : Int) (s : State) : State :=
  let s := { s with folderCreated := id }
  { s with bookmarkCreated := -1 }

/-- Lines 192-199: the "ok" button of the folder form of the folder `id` was
clicked. -/
def clickOkFolder (w : World) (id : Int) (s : State) : State :=
  let s := { s with composeCreateFolderName := trimNul s.composeCreateFolderName }
  let s := createFolder w s.composeCreateFolderName id s
  let s := { s with folderCreated := -1 }
  getRemoteBookmarks w s.serverURL s

/-- Lines 220-223: the "ok" button of a bookmark form was clicked. -/
def clickOkBookmark (s : State) : State :=
  let s := { s with trace := s.trace ++ [Event.println "bookmark created"] }
  { s with bookmarkCreated := -1 }

/-- Lines 201-224: the bookmark form of the folder `id`. -/
def bookmarkForm (ui : UI) (path : List Nat) (id : Int) (r : Run) : Run :=
  if r.s.bookmarkCreated = id then
    let r := r.emit (.edit .createBookmarkName)
    let name := ui.typed path .createBookmarkName r.s.composeCreateBookmarkName
    let r := { r with s := { r.s with composeCreateBookmarkName := name } }
    let r := r.emit (.edit .createBookmarkURL)
    let url := ui.typed path .createBookmarkURL r.s.composeCreateBookmarkURL
    let r := { r with s := { r.s with composeCreateBookmarkURL := url } }
    let r := r.emit (.button "ok")
    if ui.okBookmark path then { r with s := clickOkBookmark r.s } else r
  else r

/-- Lines 170-224: the buttons and the forms of the folder `id` at `path`. When
the "ok" button of the folder form is clicked, the tree is fetched and line 201
reads `f.Id` again, from a folder the fetch may have rewritten: the result is
`refetched`, and the caller says what is left to do. -/
def controls (w : World) (ui : UI) (path : List Nat) (id : Int) (r : Run) : Except Stop Run :=
  let r := r.emit (.button "new bookmark")
  let r := if ui.newBookmark path then { r with s := clickNewBookmark id r.s } else r
  let r := r.emit (.button "new folder")
  let r := if ui.newFolder path then { r with s := clickNewFolder id r.s } else r
  if r.s.folderCreated = id then
    let r := r.emit (.edit .createFolderName)
    let name := ui.typed path .createFolderName r.s.composeCreateFolderName
    let r := { r with s := { r.s with composeCreateFolderName := name } }
    let r := r.emit (.button "ok")
    if ui.okFolder path then .error (.refetched { r with s := clickOkFolder w id r.s } [])
    else .ok (bookmarkForm ui path id r)
  else .ok (bookmarkForm ui path id r)

/-- Go: `openbrowser` (lines 145-161): the command for the platform is started;
when the platform has none or the start fails, `log.Fatal` ends the process. -/
def openbrowser (w : World) (url : String) (r : Run) : Except Stop Run :=
  let ok := w.start r.s.trace url
  let r := { r with s := { r.s with trace := r.s.trace ++ [Event.openbrowser url] } }
  if ok then .ok r else .error (.fatal r)

/-- Lines 225-234: the rows of the bookmarks of the folder at `path`, from
bookmark number `j` on. -/
def bookmarkRows (w : World) (ui : UI) (path : List Nat) (j : Nat) :
    List (Option Bookmark) → Run → Except Stop Run
  | [], r => .ok r
  | none :: _, r => .error (.panic r)
  | some childb :: rest, r =>
    let r := r.emit (.label childb.Title)
    let r := r.emit .symbol
    if ui.openURL path j then
      match openbrowser w childb.URL r with
      | .error stop => .error stop
      | .ok r => bookmarkRows w ui path (j + 1) rest r
    else bookmarkRows w ui path (j + 1) rest r

/-- The calls of `buildTree` that the loop of line 235 has still to make for the
elements `children` of `Folders`, the first of which is child number `i`. -/
def visits (path : List Nat) (i : Nat) : List (Option Folder) → List Task
  | [] => []
  | childf :: rest => Task.visit (path ++ [i]) childf :: visits path (i + 1) rest

mutual
/-- Go: `buildTree` (lines 163-241) for the folder `f` at `path`, up to the
first fetch of the tree, if there is one. After a fetch (`refetched`) the work
left is handed back: the rest of the folder whose "ok" was clicked, then the
children not reached yet and the `NkTreePop` of every enclosing folder. -/
def buildTree (w : World) (ui : UI) (path : List Nat) (f : Folder) (r : Run) :
    Except Stop Run :=
  match f with
  | .mk id title p folders bookmarks n =>
    let r := r.emit (.tree title)
    if ui.expanded path then
      match controls w ui path id r with
      | .error stop => .error (stop.andThen [Task.rest path (.mk id title p folders bookmarks n)])
      | .ok r =>
        match bookmarkRows w ui path 0 (bookmarks.getD []) r with
        | .error stop => .error stop
        | .ok r =>
          match folders with
          | none => .ok (r.emit .pop)
          | some children =>
            match buildChildren w ui path 0 children r with
            | .error stop => .error (stop.andThen [Task.pop])
            | .ok r => .ok (r.emit .pop)
    else .ok r
/-- Lines 235-237: `buildTree` for the children of the folder at `path`, from
child number `i` on. -/
def buildChildren (w : World) (ui : UI) (path : List Nat) (i : Nat)
    (children : List (Option Folder)) (r : Run) : Except Stop Run :=
  match children with
  | [] => .ok r
  | none :: _ => .error (.panic r)
  | some childf :: rest =>
    match buildTree w ui (path ++ [i]) childf r with
    | .error stop => .error (stop.andThen (visits path (i + 1) rest))
    | .ok r => buildChildren w ui path (i + 1) rest r
end

/-- Lines 201-239 for the folder `f` at `path`: its bookmark form, the rows of
its bookmarks, its children and its `NkTreePop`, as in `buildTree`. -/
def buildRest (w : World) (ui : UI) (path : List Nat) (f : Folder) (r : Run) :
    Except Stop Run :=
  let r := bookmarkForm ui path f.Id r
  match bookmarkRows w ui path 0 (f.Bookmarks.getD []) r with
  | .error stop => .error stop
  | .ok r =>
    match f.Folders with
    | none => .ok (r.emit .pop)
    | some children =>
      match buildChildren w ui path 0 children r with
      | .error stop => .error (stop.andThen [Task.pop])
      | .ok r => .ok (r.emit .pop)

/-- Do one piece of work. -/
def Task.run (w : World) (ui : UI) : Task → Run → Except Stop Run
  | .visit _ none, r => .error (.panic r)
  | .visit path (some childf), r => buildTree w ui path childf r
  | .rest path f, r => buildRest w ui path f r
  | .pop, r => .ok (r.emit .pop)

/-- Do the pieces of work one after the other, up to the next fetch of the
tree, if there is one. -/
def runTasks (w : World) (ui : UI) : List Task → Run → Except Stop Run
  | [], r => .ok r
  | t :: todo, r =>
    match t.run w ui r with
    | .error stop => .error (stop.andThen todo)
    | .ok r => runTasks w ui todo r

/-- The folders a frame still holds, after a fetch in the middle of the frame.
`json.Unmarshal` stores the new tree in the folders of the old one where it
can. A pointer the frame read before the fetch may therefore point at a folder
that was rewritten, or at one that was left as it was and is no longer part of
the tree; an element of a `Folders` slice that a loop has not reached yet may
also be nil now, or point at a new folder. Which it is depends on the two
documents and on the capacities of the slices, which the embedding does not
represent, so it is left open: `element trace path childf` is the element of
`Folders` that a loop will read for the child at `path`, and `folder trace path
f` the folder whose "ok" was clicked, when the events so far are `trace` and the
two were `childf` and `f` before the fetch. What is proved of a frame is proved
for every `Memory`. -/
structure Memory where
  element : List Event → List Nat → Option Folder → Option Folder
  folder : List Event → List Nat → Folder → Folder

/-- The memory when a fetch changes none of the folders the frame holds, as when
the fetch fails. -/
def Memory.same : Memory :=
  { element := fun _ _ childf => childf
    folder := fun _ _ f => f }

/-- A piece of work after a fetch that left the globals `s`. The root folder is
the variable `tree` itself (`buildTree(&tree, ctx)`, line 317), so its rest is
done on the new `tree`. -/
def Memory.refresh (m : Memory) (s : State) : Task → Task
  | .visit path childf => .visit path (m.element s.trace path childf)
  | .rest [] _ => .rest [] s.tree
  | .rest (i :: path) f => .rest (i :: path) (m.folder s.trace (i :: path) f)
  | .pop => .pop

/-- The rest of a frame after a fetch of the tree: the work left is done on the
folders as the fetch left them, and every further fetch is followed in the same
way, `fuel` of them at most. (The frame of a user who had clicked buttons of
every folder, on a server whose answers go ever deeper, would not end.) A
result that is still `refetched` is a frame cut short by `fuel`. -/
def resume (w : World) (ui : UI) (m : Memory) : Nat → Except Stop Run → Except Stop Run
  | fuel + 1, .error (.refetched r todo) =>
    resume w ui m fuel (runTasks w ui (todo.map (m.refresh r.s)) r)
  | _, res => res

/-- The globals and the widgets when the walk ends or stops. -/
def Stop.run : Stop → Run
  | .refetched r _ => r
  | .panic r => r
  | .fatal r => r

/-- The globals and the widgets when the walk ends or stops. -/
def finalRun : Except Stop Run → Run
  | .ok r => r
  | .error stop => stop.run

/-- Lines 283-287: the "connect" button was clicked. -/
def clickConnect (w : World) (s : State) : State :=
  let s := { s with errorMsg := "" }
  let s := { s with composeServerURL := trimNul s.composeServerURL }
  let s := { s with composeServerLogin := trimNul s.composeServerLogin }
  let s := { s with composeServerPassword := trimNul s.composeServerPassword }
  getRemoteBookmarks w s.composeServerURL s

/-- The part of `draw` that uses the globals (lines 262-317), when `NkBegin`
reports an update: the edit field of the server URL, the "connect" button, the
edit fields of the login and the password, then the tree, to the end of the
frame. `connect` is `NkButtonLabel(ctx, "connect") > 0`. -/
def draw (w : World) (ui : UI) (m : Memory) (connect : Bool) (fuel : Nat) (s : State) :
    Except Stop Run :=
  let s := { s with composeServerURL := ui.serverURL s.composeServerURL }
  let s := if connect then clickConnect w s else s
  let s := { s with composeServerLogin := ui.login s.composeServerLogin }
  let s := { s with composeServerPassword := ui.password s.composeServerPassword }
  resume w ui m fuel (buildTree w ui [] s.tree ⟨s, []⟩)

/-! ## The traversal order, as the specification words it -/

mutual
/-- No element of `Folders` or `Bookmarks` is nil, in the folder and in the
folders below it. -/
def Folder.noNil : Folder → Bool
  | .mk _ _ _ folders bookmarks _ =>
    (bookmarks.getD []).all Option.isSome &&
      (match folders with
       | none => true
       | some children => noNilList children)
/-- No nil element in a list of children and below them. -/
def noNilList : List (Option Folder) → Bool
  | [] => true
  | none :: _ => false
  | some childf :: rest => childf.noNil && noNilList rest
end

/-- A folder's own buttons and forms: the two buttons, the folder form when
`folderCreated` is the folder's id, the bookmark form when `bookmarkCreated`
is. -/
def ownItems (s : State) (id : Int) : List Item :=
  [Item.button "new bookmark", Item.button "new folder"] ++
    (if s.folderCreated = id then [Item.edit .createFolderName, Item.button "ok"] else []) ++
    (if s.bookmarkCreated = id then
      [Item.edit .createBookmarkName, Item.edit .createBookmarkURL, Item.button "ok"]
     else [])

/-- The rows of a folder's bookmarks, in the order of `Bookmarks`. -/
def bookmarkItems : List (Option Bookmark) → List Item
  | [] => []
  | none :: rest => bookmarkItems rest
  | some childb :: rest => Item.label childb.Title :: Item.symbol :: bookmarkItems rest

mutual
/-- The depth-first pre-order walk: the header of the folder; when it is
expanded, its own buttons and forms, then its bookmarks, then its child folders
in the order of `Folders`, each walked the same way; nothing more when it is
collapsed. -/
def walk (expanded : List Nat → Bool) (s : State) (path : List Nat) : Folder → List Item
  | .mk id title _ folders bookmarks _ =>
    Item.tree title ::
      (if expanded path then
        ownItems s id ++ bookmarkItems (bookmarks.getD []) ++
          (match folders with
           | none => []
           | some children => walkChildren expanded s path 0 children) ++ [Item.pop]
       else [])
/-- The walk of the children of the folder at `path`, from child number `i`
on. -/
def walkChildren (expanded : List Nat → Bool) (s : State) (path : List Nat) (i : Nat) :
    List (Option Folder) → List Item
  | [] => []
  | none :: rest => walkChildren expanded s path (i + 1) rest
  | some childf :: rest =>
    walk expanded s (path ++ [i]) childf ++ walkChildren expanded s path (i + 1) rest
end

/-- A two-level tree: a root with one bookmark and two child folders. -/
def twoLevel : Folder :=
  .mk 1 "root" none (some [some (leaf 2 "a"), some (leaf 3 "b")])
    (some [some (.mk 9 "site" "http://example.org" "" false none none)]) 2

/-! ## Frames, reachable states and creation forms -/

/-- Whether an event is the entry of one of the two network operations. -/
def Event.isCall : Event → Bool
  | .createFolder _ _ => true
  | .getRemoteBookmarks _ => true
  | _ => false

/-- The number of creation forms among the widgets of a frame. A folder form
begins with the edit field of the folder name, a bookmark form with the edit
field of the bookmark name; nothing else draws these fields. -/
def formCount (items : List Item) : Nat :=
  items.count (Item.edit .createFolderName) + items.count (Item.edit .createBookmarkName)

mutual
/-- The ids of the folder and of the folders below it, in the order of the
walk. -/
def folderIds : Folder → List Int
  | .mk id _ _ folders _ _ =>
    id :: (match folders with
           | none => []
           | some children => folderIdsList children)
/-- The ids of a list of children and of the folders below them. -/
def folderIdsList : List (Option Folder) → List Int
  | [] => []
  | none :: rest => folderIdsList rest
  | some childf :: rest => folderIds childf ++ folderIdsList rest
end

/-- The states the program can be in between two frames: the state after
`init`, and the state a frame ends or stops in, whatever the user does in it,
whatever the memory holds after a fetch, and also when the frame is cut short by
`fuel`. -/
inductive Reach (w : World) : State → Prop where
  | init : Reach w (init w)
  | frame (s : State) (ui : UI) (m : Memory) (connect : Bool) (fuel : Nat) (h : Reach w s) :
      Reach w (finalRun (draw w ui m connect fuel s)).s

/-- Whether the result is a frame that a fetch has interrupted and that `fuel`
has cut short: there is work left. -/
def interrupted : Except Stop Run → Bool
  | .error (.refetched _ _) => true
  | _ => false

/-- Whether the process was stopped by a nil pointer. -/
def panicked : Except Stop Run → Bool
  | .error (.panic _) => true
  | _ => false

/-- No button of the tree is clicked in the frame. -/
def UI.noClick (ui : UI) : Prop :=
  ∀ path, ui.newBookmark path = false ∧ ui.newFolder path = false ∧
    ui.okFolder path = false ∧ ui.okBookmark path = false ∧ ∀ j, ui.openURL path j = false

/-- Neither the "ok" of a folder form nor "new folder" is clicked on the folder
at `path` or on a folder below it. -/
def UI.quietBelow (ui : UI) (path : List Nat) : Prop :=
  ∀ q, path <+: q → ui.okFolder q = false ∧ ui.newFolder q = false

/-- Neither the "ok" of a folder form nor "new folder" is clicked on a folder
that the piece of work draws the buttons of. -/
def Task.quiet (ui : UI) : Task → Prop
  | .visit path _ => ui.quietBelow path
  | .rest path _ => ∀ i, ui.quietBelow (path ++ [i])
  | .pop => True

/-- A part of a frame, begun with the globals `s` and of result `res`, is
quiet: it is not interrupted by a fetch, it makes no call of `createFolder` and
`getRemoteBookmarks`, and it opens no folder form when none is open. -/
def Quiet (s : State) (res : Except Stop Run) : Prop :=
  interrupted res = false ∧
    (finalRun res).s.trace.filter Event.isCall = s.trace.filter Event.isCall ∧
    (s.folderCreated = -1 → (finalRun res).s.folderCreated = -1)

/-- A part of a frame, begun with the run `r` and of result `res`, is calm: it
is not interrupted by a fetch, it leaves `folderCreated` and `bookmarkCreated`
as they are, and it draws at most `bound` creation forms. -/
def Calm (r : Run) (res : Except Stop Run) (bound : Nat) : Prop :=
  interrupted res = false ∧ (finalRun res).s.folderCreated = r.s.folderCreated ∧
    (finalRun res).s.bookmarkCreated = r.s.bookmarkCreated ∧
    formCount (finalRun res).items ≤ formCount r.items + bound

/-- A frame in which every folder is expanded and the user clicks the one
button "new folder" of the folder at `path`. -/
def clickNewFolderAt (path : List Nat) : UI :=
  { UI.idle (fun _ => true) with newFolder := fun p => p == path }

/-- A folder with child folders and no bookmarks. -/
def parentOf (id : Int) (title : String) (children : List Folder) : Folder :=
  Folder.mk id title none (some (children.map some)) none children.length

/-- The globals after `init`'s assignments, with the folder form open on the
folder `id`. -/
def formOpenOn (tree : Folder) (id : Int) : State :=
  { loaded tree "" with folderCreated := id }

/-- The globals after `init`'s assignments, with the bookmark form open on the
folder `id`. -/
def bookmarkFormOpenOn (tree : Folder) (id : Int) : State :=
  { loaded tree "" with bookmarkCreated := id }

/-- A frame in which every folder is expanded and the user clicks the one
button "new bookmark" of the folder at `path`. -/
def clickNewBookmarkAt (path : List Nat) : UI :=
  { UI.idle (fun _ => true) with newBookmark := fun p => p == path }

/-- The two kinds of creation form. -/
inductive Form where
  | folder : Form
  | bookmark : Form
  deriving DecidableEq, Repr

/-- The other kind of form. -/
def Form.other : Form → Form
  | .folder => .bookmark
  | .bookmark => .folder

/-- The global that says on which folder a form of this kind is open:
`folderCreated` or `bookmarkCreated`. -/
def State.selected (s : State) : Form → Int
  | .folder => s.folderCreated
  | .bookmark => s.bookmarkCreated

/-- The edit field a form of this kind begins with. -/
def Form.field : Form → Item
  | .folder => Item.edit .createFolderName
  | .bookmark => Item.edit .createBookmarkName

/-- The user opens a form of kind `k` on the folder at `path` in this frame:
the "new folder" button is clicked; or the "new bookmark" button is clicked,
the "new folder" button is not, and the form is not sent off by its "ok" button
at once. -/
def UI.opens (ui : UI) (path : List Nat) : Form → Bool
  | .folder => ui.newFolder path
  | .bookmark => ui.newBookmark path && !ui.newFolder path && !ui.okBookmark path

/-- At most one of `folderCreated` and `bookmarkCreated` names a folder; the
other is -1. -/
def oneSelection (s : State) : Prop := s.folderCreated = -1 ∨ s.bookmarkCreated = -1

/-- The document `{"id": -1}`: a root folder whose id is -1. -/
def sentinelDoc : JVal := .obj [("id", .num (-1))]

/-- The document `{"id": 1, "folders": [{"id": 2}]}`. -/
def parentChildDoc : JVal := .obj [("id", .num 1), ("folders", .arr [.obj [("id", .num 2)]])]

/-- A tree whose root has id 1 and whose one child has id -1. -/
def sentinelChild : Folder := parentOf 1 "a" [leaf (-1) "b"]

/-- The document `{"id": 1, "title": "root", "parent": null, "folders": [null],
"bookmarks": [], "nbchildrenfolders": 1}`: a folder one of whose children is
`null`. -/
def nilChildDoc : JVal :=
  .obj [("id", .num 1), ("title", .str "root"), ("parent", .null), ("folders", .arr [.null]),
    ("bookmarks", .arr []), ("nbchildrenfolders", .num 1)]

/-- The document `{"id": 7, "title": "root", "folders": [{"id": 8, "title": "work"}]}`:
the tree of `leaf 7 "root"` after the folder `work` was created in it. -/
def grownDoc : JVal :=
  .obj [("id", .num 7), ("title", .str "root"),
    ("folders", .arr [.obj [("id", .num 8), ("title", .str "work")]])]

/-- A frame in which every folder is expanded and the user clicks the "ok"
button of the folder form of the folder at `path`, the buffer of its name field
holding `content` after the field. -/
def submitFolderAt (path : List Nat) (content : String) : UI :=
  { UI.idle (fun _ => true) with
    okFolder := fun p => p == path
    typed := fun p buffer old =>
      if p = path ∧ buffer = Buffer.createFolderName then content else old }

/-- The text of a buffer as its edit field shows it and as the user entered it:
the bytes before the first NUL byte (`NkEditStringZeroTerminated`). -/
def entered (buf : String) : String :=
  String.mk (buf.toList.takeWhile (fun c => c != Char.ofNat 0))

/-- Whether a buffer holds a text without NUL byte followed by NUL bytes only,
as a zeroed buffer does after its edit field. -/
def padded (buf : String) : Bool :=
  (buf.toList.dropWhile (fun c => c != Char.ofNat 0)).all (fun c => c == Char.ofNat 0)

/-- The globals after `init`'s assignments when the user has entered the login
`bob` and the password `secret`, the rest of the two buffers being NUL bytes. -/
def credentialsTyped : State :=
  { initGlobals with composeServerLogin := "bob\x00\x00", composeServerPassword := "secret\x00" }

/-! ## `json.Marshal` on the types of `main.go`, and Folder documents -/

/-- `json.Marshal` of a `*Tag`: nil is `null`; a struct is an object with one
member per field, named by the field's tag, in the order of the fields. -/
def marshalTagPtr : Option Tag → JVal
  | none => .null
  | some t => .obj [("id", .num t.Id), ("name", .str t.Name)]

/-- `json.Marshal` of a `[]*Tag`: the nil slice is `null`, any other slice an
array. -/
def marshalTagSlice : Option (List (Option Tag)) → JVal
  | none => .null
  | some tags => .arr (tags.map marshalTagPtr)

mutual
/-- `json.Marshal` of a `Folder`. -/
def marshalFolder : Folder → JVal
  | .mk id title parent folders bookmarks n =>
    .obj [("id", .num id), ("title", .str title),
      ("parent", match parent with
        | none => .null
        | some f => marshalFolder f),
      ("folders", match folders with
        | none => .null
        | some children => .arr (marshalFolderList children)),
      ("bookmarks", match bookmarks with
        | none => .null
        | some bs => .arr (marshalBookmarkList bs)),
      ("nbchildrenfolders", .num n)]
/-- `json.Marshal` of the elements of a `[]*Folder`. -/
def marshalFolderList : List (Option Folder) → List JVal
  | [] => []
  | none :: rest => .null :: marshalFolderList rest
  | some f :: rest => marshalFolder f :: marshalFolderList rest
/-- `json.Marshal` of a `Bookmark`. -/
def marshalBookmark : Bookmark → JVal
  | .mk id title url favicon starred folder tags =>
    .obj [("id", .num id), ("title", .str title), ("url", .str url),
      ("favicon", .str favicon), ("starred", .bool starred),
      ("folder", match folder with
        | none => .null
        | some f => marshalFolder f),
      ("tags", marshalTagSlice tags)]
/-- `json.Marshal` of the elements of a `[]*Bookmark`. -/
def marshalBookmarkList : List (Option Bookmark) → List JVal
  | [] => []
  | none :: rest => .null :: marshalBookmarkList rest
  | some b :: rest => marshalBookmark b :: marshalBookmarkList rest
end

/-- `json.Marshal` of a `*Folder`. -/
def marshalFolderPtr : Option Folder → JVal
  | none => .null
  | some f => marshalFolder f

/-- `json.Marshal` of a `*Bookmark`. -/
def marshalBookmarkPtr : Option Bookmark → JVal
  | none => .null
  | some b => marshalBookmark b

/-- The member names of a JSON object. -/
def keysOf (kvs : List (String × JVal)) : List String := kvs.map Prod.fst

/-- The members of an object are exactly those named `names`, each once, in any
order (that no other name occurs is checked member by member). -/
def hasKeys (names : List String) (kvs : List (String × JVal)) : Bool :=
  decide (keysOf kvs).Nodup && kvs.length == names.length &&
    names.all (fun name => decide (name ∈ keysOf kvs))

/-- A JSON number that is an `int`. -/
def validInt : JVal → Bool
  | .num n => fitsInt n
  | _ => false

/-- A JSON string. -/
def validString : JVal → Bool
  | .str _ => true
  | _ => false

/-- A JSON boolean. -/
def validBool : JVal → Bool
  | .bool _ => true
  | _ => false

/-- The member names of a Tag document. -/
def tagKeys : List String := ["id", "name"]

/-- The member names of a Folder document. -/
def folderKeys : List String :=
  ["id", "title", "parent", "folders", "bookmarks", "nbchildrenfolders"]

/-- The member names of a Bookmark document. -/
def bookmarkKeys : List String :=
  ["id", "title", "url", "favicon", "starred", "folder", "tags"]

/-- Every member is a field of `Tag` with a value of the field's type. -/
def validTagMembers : List (String × JVal) → Bool
  | [] => true
  | (k, v) :: rest =>
    (if k = "id" then validInt v
     else if k = "name" then validString v
     else false) && validTagMembers rest

/-- A Tag document or `null`. -/
def validTagPtr : JVal → Bool
  | .null => true
  | .obj kvs => hasKeys tagKeys kvs && validTagMembers kvs
  | _ => false

/-- An array of Tag documents, or `null`. -/
def validTagSlice : JVal → Bool
  | .null => true
  | .arr xs => xs.all validTagPtr
  | _ => false

mutual
/-- Every member is a field of `Folder` with a value of the field's type. -/
def validFolderMembers : List (String × JVal) → Bool
  | [] => true
  | (k, v) :: rest =>
    (if k = "id" then validInt v
     else if k = "title" then validString v
     else if k = "parent" then validFolderPtr v
     else if k = "folders" then validFolderSlice v
     else if k = "bookmarks" then validBookmarkSlice v
     else if k = "nbchildrenfolders" then validInt v
     else false) && validFolderMembers rest
/-- A Folder document or `null`. -/
def validFolderPtr : JVal → Bool
  | .null => true
  | .obj kvs => hasKeys folderKeys kvs && validFolderMembers kvs
  | _ => false
/-- Folder documents or `null`s. -/
def validFolderElems : List JVal → Bool
  | [] => true
  | x :: rest => validFolderPtr x && validFolderElems rest
/-- An array of Folder documents, or `null`. -/
def validFolderSlice : JVal → Bool
  | .null => true
  | .arr xs => validFolderElems xs
  | _ => false
/-- Every member is a field of `Bookmark` with a value of the field's type. -/
def validBookmarkMembers : List (String × JVal) → Bool
  | [] => true
  | (k, v) :: rest =>
    (if k = "id" then validInt v
     else if k = "title" then validString v
     else if k = "url" then validString v
     else if k = "favicon" then validString v
     else if k = "starred" then validBool v
     else if k = "folder" then validFolderPtr v
     else if k = "tags" then validTagSlice v
     else false) && validBookmarkMembers rest
/-- A Bookmark document or `null`. -/
def validBookmarkPtr : JVal → Bool
  | .null => true
  | .obj kvs => hasKeys bookmarkKeys kvs && validBookmarkMembers kvs
  | _ => false
/-- Bookmark documents or `null`s. -/
def validBookmarkElems : List JVal → Bool
  | [] => true
  | x :: rest => validBookmarkPtr x && validBookmarkElems rest
/-- An array of Bookmark documents, or `null`. -/
def validBookmarkSlice : JVal → Bool
  | .null => true
  | .arr xs => validBookmarkElems xs
  | _ => false
end

/-- A valid Folder payload: a JSON object that gives every field of `Folder` a
value of the field's type, once, under the name of the field's tag, and whose
nested folders, bookmarks and tags do the same. A pointer or slice field may be
`null`. -/
def validFolder : JVal → Bool
  | .obj kvs => hasKeys folderKeys kvs && validFolderMembers kvs
  | _ => false

mutual
/-- Equality of two documents as JSON values: the same scalar, arrays with
equal elements in the same order, objects with the same members whatever the
order of the members. A number literal with a fraction or an exponent is only
compared as text. -/
def jsonEq : JVal → JVal → Bool
  | .null, w =>
    match w with
    | .null => true
    | _ => false
  | .bool a, w =>
    match w with
    | .bool b => a == b
    | _ => false
  | .num a, w =>
    match w with
    | .num b => a == b
    | _ => false
  | .frac a, w =>
    match w with
    | .frac b => a == b
    | _ => false
  | .str a, w =>
    match w with
    | .str b => a == b
    | _ => false
  | .arr xs, w =>
    match w with
    | .arr ys => jsonEqList xs ys
    | _ => false
  | .obj kvs, w =>
    match w with
    | .obj other =>
      decide (keysOf kvs).Nodup && kvs.length == other.length && jsonEqMembers kvs other
    | _ => false
/-- Equality of two arrays, element by element. -/
def jsonEqList : List JVal → List JVal → Bool
  | [], ys => ys.isEmpty
  | x :: xs, ys =>
    match ys with
    | y :: rest => jsonEq x y && jsonEqList xs rest
    | [] => false
/-- Every member of the first object has an equal value under its name in the
second. -/
def jsonEqMembers : List (String × JVal) → List (String × JVal) → Bool
  | [], _ => true
  | (k, v) :: rest, other =>
    (match other.lookup k with
     | some w => jsonEq v w
     | none => false) && jsonEqMembers rest other
end

/-- A payload with both levels of nesting: a root folder with one bookmark that
has one tag, and one child folder. -/
def samplePayload : JVal :=
  .obj [("title", .str "root"), ("id", .num 1), ("parent", .null),
    ("folders", .arr [.obj [("id", .num 2), ("title", .str "kid"), ("parent", .null),
      ("folders", .null), ("bookmarks", .arr []), ("nbchildrenfolders", .num 0)]]),
    ("bookmarks", .arr [.obj [("id", .num 9), ("title", .str "site"),
      ("url", .str "http://example.org"), ("favicon", .str ""), ("starred", .bool true),
      ("folder", .null), ("tags", .arr [.obj [("name", .str "go"), ("id", .num 4)]])]]),
    ("nbchildrenfolders", .num 1)]

/-- Two tags agree on every field whose name is not excepted. -/
def agreeTag (ex : String → Prop) (t t' : Tag) : Prop :=
  (ex "id" ∨ t.Id = t'.Id) ∧ (ex "name" ∨ t.Name = t'.Name)

/-- Two folders agree on every field whose name is not excepted. -/
def agreeFolder (ex : String → Prop) (f f' : Folder) : Prop :=
  (ex "id" ∨ f.Id = f'.Id) ∧ (ex "title" ∨ f.Title = f'.Title) ∧
    (ex "parent" ∨ f.Parent = f'.Parent) ∧ (ex "folders" ∨ f.Folders = f'.Folders) ∧
    (ex "bookmarks" ∨ f.Bookmarks = f'.Bookmarks) ∧
    (ex "nbchildrenfolders" ∨ f.NbChildrenFolders = f'.NbChildrenFolders)

/-- Two bookmarks agree on every field whose name is not excepted. -/
def agreeBookmark (ex : String → Prop) (b b' : Bookmark) : Prop :=
  (ex "id" ∨ b.Id = b'.Id) ∧ (ex "title" ∨ b.Title = b'.Title) ∧
    (ex "url" ∨ b.URL = b'.URL) ∧ (ex "favicon" ∨ b.Favicon = b'.Favicon) ∧
    (ex "starred" ∨ b.Starred = b'.Starred) ∧ (ex "folder" ∨ b.Folder = b'.Folder) ∧
    (ex "tags" ∨ b.Tags = b'.Tags)

/-- `json.Marshal` of a `[]*Folder`. -/
def marshalFolderSlice : Option (List (Option Folder)) → JVal
  | none => .null
  | some children => .arr (marshalFolderList children)

/-- `json.Marshal` of a `[]*Bookmark`. -/
def marshalBookmarkSlice : Option (List (Option Bookmark)) → JVal
  | none => .null
  | some bs => .arr (marshalBookmarkList bs)

/-- The members of the object `json.Marshal` writes for a `Tag`. -/
def tagMembers (t : Tag) : List (String × JVal) := [("id", .num t.Id), ("name", .str t.Name)]

/-- The members of the object `json.Marshal` writes for a `Folder`. -/
def folderMembers : Folder → List (String × JVal)
  | .mk id title parent folders bookmarks n =>
    [("id", .num id), ("title", .str title), ("parent", marshalFolderPtr parent),
      ("folders", marshalFolderSlice folders), ("bookmarks", marshalBookmarkSlice bookmarks),
      ("nbchildrenfolders", .num n)]

/-- The members of the object `json.Marshal` writes for a `Bookmark`. -/
def bookmarkMembers : Bookmark → List (String × JVal)
  | .mk id title url favicon starred folder tags =>
    [("id", .num id), ("title", .str title), ("url", .str url), ("favicon", .str favicon),
      ("starred", .bool starred), ("folder", marshalFolderPtr folder),
      ("tags", marshalTagSlice tags)]

/-! ## The query of a URL, as a server reads it

The server is not part of this repository. What it receives as the parameters
`folderName` and `parentId` is what the standard reading of a URL's query gives
(RFC 3986 and the form encoding, as `net/url`'s `ParseQuery` and `Values.Get`):
the query stands between the first `?` and the first `#`, its pairs are
separated by `&`, name and value of a pair by the first `=`, and in both `+`
stands for a space and `%XY` for the byte with hexadecimal code `XY`. -/

/-- The value of a hexadecimal digit. -/
def hexVal (c : Char) : Option Nat :=
  if '0' ≤ c ∧ c ≤ '9' then some (c.toNat - 48)
  else if 'a' ≤ c ∧ c ≤ 'f' then some (c.toNat - 87)
  else if 'A' ≤ c ∧ c ≤ 'F' then some (c.toNat - 55)
  else none

/-- Undo the escaping of a name or value of a query. An escape that is not two
hexadecimal digits is an error; so is here an escaped byte above `0x7F`, which
would be part of a multi-byte character (not needed below). -/
def unescape : List Char → Option (List Char)
  | [] => some []
  | c :: rest =>
    if c = '+' then (unescape rest).map (fun cs => ' ' :: cs)
    else if c = '%' then
      match rest with
      | h1 :: h2 :: rest2 =>
        match hexVal h1, hexVal h2 with
        | some a, some b =>
          if 16 * a + b < 128 then (unescape rest2).map (fun cs => Char.ofNat (16 * a + b) :: cs)
          else none
        | _, _ => none
      | _ => none
    else (unescape rest).map (fun cs => c :: cs)

/-- Split a text at every occurrence of `sep`. -/
def splitOn (sep : Char) : List Char → List (List Char)
  | [] => [[]]
  | c :: rest =>
    if c = sep then [] :: splitOn sep rest
    else
      match splitOn sep rest with
      | [] => [[c]]
      | piece :: more => (c :: piece) :: more

/-- The query of a URL: what stands after the first `?`, up to the first `#`. -/
def queryOf (url : List Char) : List Char :=
  ((url.takeWhile (fun c => c != '#')).dropWhile (fun c => c != '?')).drop 1

/-- Name and value of a pair of the query: what stands before and after its
first `=`. -/
def pairOf (piece : List Char) : List Char × List Char :=
  (piece.takeWhile (fun c => c != '='), (piece.dropWhile (fun c => c != '=')).drop 1)

/-- The value of the first parameter called `name` in the query of `url`. -/
def queryParam (url name : String) : Option String :=
  match ((splitOn '&' (queryOf url.toList)).map pairOf).find?
      (fun p => unescape p.1 == some name.toList) with
  | some p => (unescape p.2).map String.mk
  | none => none

/-- The unreserved characters of a URL (RFC 3986, 2.3): letters, digits, `-`,
`.`, `_` and `~`. -/
def unreserved (c : Char) : Bool :=
  ('a' ≤ c && c ≤ 'z') || ('A' ≤ c && c ≤ 'Z') || ('0' ≤ c && c ≤ '9') ||
    c = '-' || c = '.' || c = '_' || c = '~'

/-- The globals after `init`'s assignments, with `serverURL` as `init`'s call of
`getRemoteBookmarks` sets it. -/
def connected (tree : Folder) : State :=
  { loaded tree "" with serverURL := "http://localhost:8081" }

/-! # Theorems -/

/-! ## Base64 -/

theorem decChar_encChar (v : Nat) (h : v < 64) : decChar (encChar v) = some v := by
  have key : ∀ i : Fin 64, decChar (encChar i.val) = some i.val := by decide
  exact key ⟨v, h⟩

theorem encChar_ne_pad (v : Nat) (h : v < 64) : encChar v ≠ '=' := by
  have key : ∀ i : Fin 64, encChar i.val ≠ '=' := by decide
  exact key ⟨v, h⟩

theorem ofNat_toNat_byte (b : UInt8) : UInt8.ofNat b.toNat = b := by
  cases b with
  | mk v =>
    apply UInt8.ext
    simp [UInt8.ofNat, UInt8.toNat]

theorem Encode_cons (b : UInt8) (bs : List UInt8) : ∃ c cs, Encode (b :: bs) = c :: cs := by
  match bs with
  | [] => exact ⟨_, _, rfl⟩
  | [_] => exact ⟨_, _, rfl⟩
  | _ :: _ :: _ => exact ⟨_, _, rfl⟩

/-- Standard decoding undoes `Encode` on every byte sequence. -/
theorem stdDecode_Encode : ∀ bs : List UInt8, stdDecode (Encode bs) = some bs
  | [] => rfl
  | [b0] => by
    have h0 := b0.toNat_lt
    have e0 := decChar_encChar (b0.toNat * 65536 / 262144 % 64) (by omega)
    have e1 := decChar_encChar (b0.toNat * 65536 / 4096 % 64) (by omega)
    have z : b0.toNat * 65536 / 4096 % 64 % 16 = 0 := by omega
    simp only [Encode, stdDecode, e0, e1, z, and_self, if_true]
    congr 2
    have : (b0.toNat * 65536 / 262144 % 64 * 64 + b0.toNat * 65536 / 4096 % 64) / 16
        = b0.toNat := by omega
    rw [this, ofNat_toNat_byte]
  | [b0, b1] => by
    have h0 := b0.toNat_lt
    have h1 := b1.toNat_lt
    generalize hv : b0.toNat * 65536 + b1.toNat * 256 = val
    have e0 := decChar_encChar (val / 262144 % 64) (by omega)
    have e1 := decChar_encChar (val / 4096 % 64) (by omega)
    have e2 := decChar_encChar (val / 64 % 64) (by omega)
    have p2 := encChar_ne_pad (val / 64 % 64) (by omega)
    have z : val / 64 % 64 % 4 = 0 := by omega
    simp only [Encode, hv, stdDecode, e0, e1, e2, p2, z, false_and, and_self, if_true, if_false]
    have a0 : ((val / 262144 % 64 * 64 + val / 4096 % 64) * 64 + val / 64 % 64) / 1024
        = b0.toNat := by omega
    have a1 : ((val / 262144 % 64 * 64 + val / 4096 % 64) * 64 + val / 64 % 64) / 4 % 256
        = b1.toNat := by omega
    rw [a0, a1, ofNat_toNat_byte, ofNat_toNat_byte]
  | b0 :: b1 :: b2 :: rest => by
    have h0 := b0.toNat_lt
    have h1 := b1.toNat_lt
    have h2 := b2.toNat_lt
    have ih := stdDecode_Encode rest
    generalize hv : b0.toNat * 65536 + b1.toNat * 256 + b2.toNat = val
    have e0 := decChar_encChar (val / 262144 % 64) (by omega)
    have e1 := decChar_encChar (val / 4096 % 64) (by omega)
    have e2 := decChar_encChar (val / 64 % 64) (by omega)
    have e3 := decChar_encChar (val % 64) (by omega)
    have p2 := encChar_ne_pad (val / 64 % 64) (by omega)
    have p3 := encChar_ne_pad (val % 64) (by omega)
    have a0 : (((val / 262144 % 64 * 64 + val / 4096 % 64) * 64 + val / 64 % 64) * 64
        + val % 64) / 65536 = b0.toNat := by omega
    have a1 : (((val / 262144 % 64 * 64 + val / 4096 % 64) * 64 + val / 64 % 64) * 64
        + val % 64) / 256 % 256 = b1.toNat := by omega
    have a2 : (((val / 262144 % 64 * 64 + val / 4096 % 64) * 64 + val / 64 % 64) * 64
        + val % 64) % 256 = b2.toNat := by omega
    match rest, ih with
    | [], _ =>
      simp only [Encode, hv, stdDecode, e0, e1, e2, e3, p2, p3, false_and, and_self, if_true,
        if_false]
      rw [a0, a1, a2, ofNat_toNat_byte, ofNat_toNat_byte, ofNat_toNat_byte]
    | r :: rs, ih =>
      obtain ⟨c, cs, hc⟩ := Encode_cons r rs
      have hE : Encode (b0 :: b1 :: b2 :: r :: rs) = encChar (val / 262144 % 64) ::
          encChar (val / 4096 % 64) :: encChar (val / 64 % 64) :: encChar (val % 64) :: c :: cs := by
        rw [← hc, ← hv]; simp only [Encode]
      rw [hE]
      rw [hc] at ih
      simp only [stdDecode, e0, e1, e2, e3, ih]
      rw [a0, a1, a2, ofNat_toNat_byte, ofNat_toNat_byte, ofNat_toNat_byte]

/-! ## `fmt.Sprintf` -/

theorem digitByte_eq (d : Nat) (h : d < 10) : digitByte d = Nat.digitChar d := by
  have key : ∀ i : Fin 10, digitByte i.val = Nat.digitChar i.val := by decide
  exact key ⟨d, h⟩

theorem fmtUint_eq_toDigitsCore : ∀ (fuel u : Nat) (acc : List Char), u < fuel →
    fmtUint u acc = Nat.toDigitsCore 10 fuel u acc := by
  intro fuel
  induction fuel with
  | zero => intro u acc h; omega
  | succ fuel ih =>
    intro u acc h
    rw [fmtUint]
    simp only [Nat.toDigitsCore]
    by_cases h10 : 10 ≤ u
    · have hne : u / 10 ≠ 0 := by omega
      have hd : u - u / 10 * 10 = u % 10 := by omega
      simp only [h10, dite_true, hne, if_false, hd]
      rw [ih (u / 10) _ (by omega), digitByte_eq _ (by omega)]
    · have he : u / 10 = 0 := by omega
      have hm : u % 10 = u := by omega
      simp only [h10, dite_false, he, if_true, hm]
      rw [digitByte_eq _ (by omega)]

theorem fmtUint_eq_repr (u : Nat) : String.mk (fmtUint u []) = toString u := by
  rw [fmtUint_eq_toDigitsCore (u + 1) u [] (by omega)]
  rfl

theorem fmtInt_eq_toString (n : Int) : String.mk (fmtInt n) = toString n := by
  cases n with
  | ofNat m =>
    have h : ¬ (Int.ofNat m < 0) := by simp
    simp only [fmtInt, h, if_false, Int.natAbs_ofNat]
    exact fmtUint_eq_repr m
  | negSucc m =>
    have h : Int.negSucc m < 0 := Int.negSucc_lt_zero m
    simp only [fmtInt, h, if_true, Int.natAbs_negSucc]
    have := fmtUint_eq_repr (m + 1)
    show String.mk ('-' :: fmtUint (m + 1) []) = "-" ++ toString (m + 1)
    rw [← this]
    rfl

theorem createFolderURL_eq (serverURL folderName : String) (parentId : Int) :
    createFolderURL serverURL folderName parentId =
      serverURL ++ "/addFolder/?folderName=" ++ folderName ++ "&parentId=" ++
        toString parentId := by
  rw [← fmtInt_eq_toString]
  apply String.ext
  simp [createFolderURL, Sprintf, SprintfChars, String.data_append]


/-! ## The two network operations -/

/-- The trace and the request of `getRemoteBookmarks`. -/
theorem getRemoteBookmarks_trace (w : World) (url : String) (s : State) :
    (getRemoteBookmarks w url s).trace =
      s.trace ++ Event.getRemoteBookmarks url ::
        (match w.urlError (getTreeRequest url s).URL with
         | some _ => []
         | none => [Event.send (getTreeRequest url s)]) := by
  simp only [getRemoteBookmarks, World.NewRequest, getTreeRequest]
  cases hu : w.urlError (TrimSpace url ++ "/getTree/") with
  | some err => simp
  | none =>
    simp only [Request.Add, authHeader, List.nil_append]
    split
    · simp
    · split
      · simp
      · split <;> simp

/-- The trace and the request of `createFolder`. -/
theorem createFolder_trace (w : World) (folderName : String) (parentId : Int) (s : State) :
    (createFolder w folderName parentId s).trace =
      s.trace ++ Event.createFolder folderName parentId ::
        (match w.urlError (addFolderRequest folderName parentId s).URL with
         | some _ => []
         | none => [Event.send (addFolderRequest folderName parentId s)]) := by
  simp only [createFolder, World.NewRequest, addFolderRequest, createFolderURL_eq]
  cases hu : w.urlError (s.serverURL ++ "/addFolder/?folderName=" ++ folderName ++
      "&parentId=" ++ toString parentId) with
  | some err => simp
  | none =>
    simp only [Request.Add, authHeader, List.nil_append]
    split <;> simp

theorem getTreeRequest_built (url : String) (s : State) (tr : List Event) :
    (Request.mk "GET" (TrimSpace url ++ "/getTree/") []).Add "Authorization"
      ("Basic " ++ basicAuth
        ({ s with trace := tr, serverURL := TrimSpace url } : State).composeServerLogin
        ({ s with trace := tr, serverURL := TrimSpace url } : State).composeServerPassword) =
      getTreeRequest url s := rfl

/-- The tree and the status line after `getRemoteBookmarks`, by what the world
answers. -/
theorem getRemoteBookmarks_result (w : World) (url : String) (s : State) :
    ((getRemoteBookmarks w url s).tree, (getRemoteBookmarks w url s).errorMsg) =
      match w.urlError (getTreeRequest url s).URL with
      | some err => (s.tree, err)
      | none =>
        match w.Do (s.trace ++ [Event.getRemoteBookmarks url]) (getTreeRequest url s) with
        | .error err => (s.tree, err)
        | .ok resp =>
          match resp.ReadAll with
          | .error err => (s.tree, err)
          | .ok (.invalid msg) => (s.tree, msg)
          | .ok (.json v) =>
            match (decFolder v s.tree).2 with
            | some err => ((decFolder v s.tree).1, err.Error)
            | none => ((decFolder v s.tree).1, s.errorMsg) := by
  simp only [getRemoteBookmarks, World.NewRequest, getTreeRequest]
  cases hu : w.urlError (TrimSpace url ++ "/getTree/") with
  | some err => rfl
  | none =>
    simp only [Request.Add, authHeader, List.nil_append]
    cases hd : w.Do (s.trace ++ [Event.getRemoteBookmarks url])
        ⟨"GET", TrimSpace url ++ "/getTree/",
          [("Authorization", "Basic " ++ basicAuth s.composeServerLogin
            s.composeServerPassword)]⟩ with
    | error err => rfl
    | ok resp =>
      dsimp only
      cases hr : resp.ReadAll with
      | error err => rfl
      | ok body =>
        cases body with
        | invalid msg => rfl
        | json v =>
          dsimp only [Unmarshal]
          cases he : (decFolder v s.tree).2 with
          | some err => rfl
          | none => rfl

/-- The status line after `createFolder`, by what the world answers. -/
theorem createFolder_result (w : World) (folderName : String) (parentId : Int) (s : State) :
    (createFolder w folderName parentId s).tree = s.tree ∧
    (createFolder w folderName parentId s).errorMsg =
      match w.urlError (addFolderRequest folderName parentId s).URL with
      | some err => err
      | none =>
        match w.Do (s.trace ++ [Event.createFolder folderName parentId])
            (addFolderRequest folderName parentId s) with
        | .error err => err
        | .ok _ => s.errorMsg := by
  simp only [createFolder, World.NewRequest, addFolderRequest, createFolderURL_eq]
  cases hu : w.urlError (s.serverURL ++ "/addFolder/?folderName=" ++ folderName ++
      "&parentId=" ++ toString parentId) with
  | some err => exact ⟨rfl, rfl⟩
  | none =>
    simp only [Request.Add, authHeader, List.nil_append]
    cases hd : w.Do (s.trace ++ [Event.createFolder folderName parentId])
        ⟨"GET", s.serverURL ++ "/addFolder/?folderName=" ++ folderName ++ "&parentId=" ++
          toString parentId,
          [("Authorization", "Basic " ++ basicAuth s.composeServerLogin
            s.composeServerPassword)]⟩ with
    | error err => exact ⟨rfl, rfl⟩
    | ok resp => exact ⟨rfl, rfl⟩

/-! ## C1 -/

/-- C1, refuted as stated: the body `{"title": "new", "id": "x"}` is rejected by
`json.Unmarshal` (a string cannot be stored in `Id`), and `tree.Title` has been
overwritten all the same. -/
theorem type_error_changes_tree :
    Fails (answering ⟨200, .ok (.json wrongTypeDoc)⟩) (loaded (leaf 1 "old") "")
        (.getRemoteBookmarks "http://localhost:8081") (.typeError ⟨"string", "int"⟩) ∧
      (getRemoteBookmarks (answering ⟨200, .ok (.json wrongTypeDoc)⟩) "http://localhost:8081"
        (loaded (leaf 1 "old") "")).tree = leaf 1 "new" ∧
      (getRemoteBookmarks (answering ⟨200, .ok (.json wrongTypeDoc)⟩) "http://localhost:8081"
        (loaded (leaf 1 "old") "")).tree ≠ (loaded (leaf 1 "old") "").tree := by
  refine ⟨Fails.typeError _ _ wrongTypeDoc _ rfl rfl rfl (by decide), rfl, ?_⟩
  intro h
  have := congrArg Folder.Title h
  revert this
  decide

/-- C1, amended: a call of `getRemoteBookmarks` that fails because the request
cannot be built, cannot be sent, the body cannot be read or the body is not
syntactically valid JSON leaves `tree` as it was. -/
theorem fetch_failure_keeps_tree (w : World) (url : String) (s : State) (fail : Failure)
    (h : Fails w s (.getRemoteBookmarks url) fail) (ht : fail.isTypeError = false) :
    (getRemoteBookmarks w url s).tree = s.tree := by
  have key := congrArg Prod.fst (getRemoteBookmarks_result w url s)
  simp only at key
  rw [key]
  cases h with
  | request op err h => simp only [Op.request] at h; simp [h]
  | transport op err h hd => simp only [Op.request, Op.history] at h hd; simp [h, hd]
  | read url resp err h hd hr => simp [h, hd, hr]
  | syntaxError url resp msg h hd hr => simp [h, hd, hr]
  | typeError url resp v err h hd hr he => simp [Failure.isTypeError] at ht

theorem fetch_failure_keeps_tree_witness :
    (getRemoteBookmarks (unreachable "dial tcp: connection refused") "http://localhost:8081"
      (loaded (leaf 1 "old") "")).tree = (loaded (leaf 1 "old") "").tree :=
  fetch_failure_keeps_tree (unreachable "dial tcp: connection refused") "http://localhost:8081"
    (loaded (leaf 1 "old") "") (.transport "dial tcp: connection refused")
    (Fails.transport _ _ rfl rfl) rfl

/-! ## C6 -/

/-- C6, refuted as stated: a response of status 500 to `createFolder` leaves the
status line as it was, and so does a response of status 500 to
`getRemoteBookmarks` whose body is a JSON document. -/
theorem status_500_keeps_errorMsg :
    (createFolder (answering ⟨500, .ok (.invalid "unexpected end of JSON input")⟩) "work" 1
        (loaded (leaf 1 "old") "earlier status")).errorMsg = "earlier status" ∧
      (getRemoteBookmarks (answering ⟨500, .ok (.json partialDoc)⟩) "http://localhost:8081"
        (loaded (leaf 1 "old") "earlier status")).errorMsg = "earlier status" := by
  exact ⟨rfl, rfl⟩

/-- C6, amended: when a network operation fails (the request cannot be built or
sent, or, for the tree, the body cannot be read or decoded), `errorMsg` is the
description of that failure afterwards, whatever it was before. -/
theorem failure_sets_errorMsg (w : World) (s : State) (op : Op) (fail : Failure)
    (h : Fails w s op fail) : (op.run w s).errorMsg = fail.description := by
  cases h with
  | request op err h =>
    cases op with
    | getRemoteBookmarks url =>
      have key := congrArg Prod.snd (getRemoteBookmarks_result w url s)
      simp only [Op.request] at h
      simp only [h] at key
      exact key
    | createFolder folderName parentId =>
      have key := (createFolder_result w folderName parentId s).2
      simp only [Op.request] at h
      simp only [h] at key
      exact key
  | transport op err h hd =>
    cases op with
    | getRemoteBookmarks url =>
      have key := congrArg Prod.snd (getRemoteBookmarks_result w url s)
      simp only [Op.request, Op.history] at h hd
      simp only [h, hd] at key
      exact key
    | createFolder folderName parentId =>
      have key := (createFolder_result w folderName parentId s).2
      simp only [Op.request, Op.history] at h hd
      simp only [h, hd] at key
      exact key
  | read url resp err h hd hr =>
    have key := congrArg Prod.snd (getRemoteBookmarks_result w url s)
    simp only [h, hd, hr] at key
    exact key
  | syntaxError url resp msg h hd hr =>
    have key := congrArg Prod.snd (getRemoteBookmarks_result w url s)
    simp only [h, hd, hr] at key
    exact key
  | typeError url resp v err h hd hr he =>
    have key := congrArg Prod.snd (getRemoteBookmarks_result w url s)
    simp only [h, hd, hr, he] at key
    exact key

theorem failure_sets_errorMsg_witness :
    ((Op.createFolder "work" 1).run (unreachable "dial tcp: connection refused")
      (loaded (leaf 1 "old") "earlier status")).errorMsg = "dial tcp: connection refused" :=
  failure_sets_errorMsg (unreachable "dial tcp: connection refused")
    (loaded (leaf 1 "old") "earlier status") (.createFolder "work" 1)
    (.transport "dial tcp: connection refused") (Fails.transport _ _ rfl rfl)

/-! ## C4: the traversal order -/

theorem noNil_mk (id : Int) (title : String) (p : Option Folder)
    (folders : Option (List (Option Folder))) (bookmarks : Option (List (Option Bookmark)))
    (n : Int) :
    (Folder.mk id title p folders bookmarks n).noNil =
      ((bookmarks.getD []).all Option.isSome &&
        (match folders with
         | none => true
         | some children => noNilList children)) := by
  conv => lhs; unfold Folder.noNil

theorem walk_mk (expanded : List Nat → Bool) (s : State) (path : List Nat) (id : Int) (title : String) (p : Option Folder)
    (folders : Option (List (Option Folder))) (bookmarks : Option (List (Option Bookmark)))
    (n : Int) :
    walk expanded s path (Folder.mk id title p folders bookmarks n) =
    Item.tree title ::
      (if expanded path then
        ownItems s id ++ bookmarkItems (bookmarks.getD []) ++
          (match folders with
           | none => []
           | some children => walkChildren expanded s path 0 children) ++ [Item.pop]
       else []) := by
  conv => lhs; unfold walk

theorem buildTree_mk (w : World) (ui : UI) (path : List Nat) (r : Run) (id : Int) (title : String) (p : Option Folder)
    (folders : Option (List (Option Folder))) (bookmarks : Option (List (Option Bookmark)))
    (n : Int) :
    buildTree w ui path (Folder.mk id title p folders bookmarks n) r =
    if ui.expanded path then
      match controls w ui path id (r.emit (.tree title)) with
      | .error stop => .error (stop.andThen [Task.rest path (.mk id title p folders bookmarks n)])
      | .ok r =>
        match bookmarkRows w ui path 0 (bookmarks.getD []) r with
        | .error stop => .error stop
        | .ok r =>
          match folders with
          | none => .ok (r.emit .pop)
          | some children =>
            match buildChildren w ui path 0 children r with
            | .error stop => .error (stop.andThen [Task.pop])
            | .ok r => .ok (r.emit .pop)
    else .ok (r.emit (.tree title)) := by
  rw [buildTree]

theorem controls_idle (w : World) (expanded : List Nat → Bool) (path : List Nat) (id : Int)
    (r : Run) :
    controls w (UI.idle expanded) path id r = .ok ⟨r.s, r.items ++ ownItems r.s id⟩ := by
  obtain ⟨⟨tree, b1, b2, b3, b4, b5, b6, em, su, fc, bc, tr⟩, items⟩ := r
  simp only [controls, bookmarkForm, UI.idle, Run.emit, ownItems]
  by_cases hf : fc = id <;> by_cases hb : bc = id <;> simp [hf, hb]

theorem bookmarkRows_idle (w : World) (expanded : List Nat → Bool) (path : List Nat) :
    ∀ (bs : List (Option Bookmark)) (j : Nat) (r : Run), bs.all Option.isSome = true →
      bookmarkRows w (UI.idle expanded) path j bs r = .ok ⟨r.s, r.items ++ bookmarkItems bs⟩
  | [], j, r, _ => by simp [bookmarkRows, bookmarkItems]
  | none :: rest, j, r, h => by simp at h
  | some b :: rest, j, r, h => by
    have hrest : rest.all Option.isSome = true := by
      simp only [List.all_cons, Bool.and_eq_true] at h
      exact h.2
    simp only [bookmarkRows, UI.idle, Bool.false_eq_true, if_false, bookmarkItems]
    have ih := bookmarkRows_idle w expanded path rest (j + 1)
      ((r.emit (.label b.Title)).emit .symbol) hrest
    simp only [UI.idle] at ih
    rw [ih]
    simp [Run.emit]

mutual
theorem buildTree_idle (w : World) (expanded : List Nat → Bool) :
    ∀ (f : Folder) (path : List Nat) (r : Run), f.noNil = true →
      buildTree w (UI.idle expanded) path f r = .ok ⟨r.s, r.items ++ walk expanded r.s path f⟩
  | .mk id title p folders bookmarks n, path, r, h => by
    rw [noNil_mk, Bool.and_eq_true] at h
    rw [buildTree_mk, walk_mk]
    by_cases he : expanded path
    · have hc := controls_idle w expanded path id ⟨r.s, r.items ++ [Item.tree title]⟩
      have hb := bookmarkRows_idle w expanded path (bookmarks.getD []) 0
        ⟨r.s, r.items ++ [Item.tree title] ++ ownItems r.s id⟩ h.1
      have he2 : (UI.idle expanded).expanded path = true := he
      simp only [Run.emit, he2, if_true, he]
      rw [hc]
      simp only
      rw [hb]
      cases folders with
      | none => simp
      | some children =>
        have hk := buildChildren_idle w expanded children path 0
          ⟨r.s, r.items ++ [Item.tree title] ++ ownItems r.s id ++
            bookmarkItems (bookmarks.getD [])⟩ h.2
        simp only at hk ⊢
        rw [hk]
        simp
    · have he2 : (UI.idle expanded).expanded path = false := by simpa using he
      simp [he2, he, Run.emit]
theorem buildChildren_idle (w : World) (expanded : List Nat → Bool) :
    ∀ (children : List (Option Folder)) (path : List Nat) (i : Nat) (r : Run),
      noNilList children = true →
      buildChildren w (UI.idle expanded) path i children r =
        .ok ⟨r.s, r.items ++ walkChildren expanded r.s path i children⟩
  | [], path, i, r, _ => by simp [buildChildren, walkChildren]
  | none :: rest, path, i, r, h => by simp [noNilList] at h
  | some childf :: rest, path, i, r, h => by
    simp only [noNilList, Bool.and_eq_true] at h
    rw [buildChildren, walkChildren]
    rw [buildTree_idle w expanded childf (path ++ [i]) r h.1]
    simp only
    rw [buildChildren_idle w expanded rest path (i + 1) _ h.2]
    simp
end

/-- C4, refuted as stated: the server sends a folder document whose `folders`
is `[null]`; the tree then has a nil element in `Folders`, and a frame in which
the root is expanded stops with a nil pointer dereference (`f.Title`, line 165)
after the header and the two buttons of the root. The walk of the tree is not
rendered. -/
theorem nil_child_panics :
    validFolder nilChildDoc = true ∧
      (init (answering ⟨200, .ok (.json nilChildDoc)⟩)).tree.noNil = false ∧
      panicked (draw (answering ⟨200, .ok (.json nilChildDoc)⟩) (UI.idle fun _ => true)
        Memory.same false 0 (init (answering ⟨200, .ok (.json nilChildDoc)⟩))) = true ∧
      (finalRun (draw (answering ⟨200, .ok (.json nilChildDoc)⟩) (UI.idle fun _ => true)
        Memory.same false 0 (init (answering ⟨200, .ok (.json nilChildDoc)⟩)))).items =
        [.tree "root", .button "new bookmark", .button "new folder"] ∧
      walk (fun _ => true) (init (answering ⟨200, .ok (.json nilChildDoc)⟩)) []
          (init (answering ⟨200, .ok (.json nilChildDoc)⟩)).tree =
        [.tree "root", .button "new bookmark", .button "new folder", .pop] := by
  refine ⟨by decide, by decide, by decide, by decide, by decide⟩

/-- C4, amended: for every tree without nil element in `Folders` and
`Bookmarks`, in a frame in which the user only looks (no button is clicked and
nothing is typed), whatever folders are expanded, `buildTree` draws the widgets
of the depth-first pre-order walk of the tree: for an expanded folder its
header, its own buttons and forms, its bookmarks in the order of `Bookmarks`,
then each child in the order of `Folders`, recursively; for a collapsed folder
only its header. -/
theorem buildTree_preorder (w : World) (expanded : List Nat → Bool) (f : Folder) (s : State)
    (h : f.noNil = true) :
    buildTree w (UI.idle expanded) [] f ⟨s, []⟩ = .ok ⟨s, walk expanded s [] f⟩ := by
  have := buildTree_idle w expanded f [] ⟨s, []⟩ h
  simpa using this

theorem buildTree_preorder_witness :
    buildTree (unreachable "offline") (UI.idle fun _ => true) [] twoLevel
        ⟨loaded twoLevel "", []⟩ = .ok ⟨loaded twoLevel "", walk (fun _ => true)
          (loaded twoLevel "") [] twoLevel⟩ ∧
      walk (fun _ => true) (loaded twoLevel "") [] twoLevel =
        [.tree "root", .button "new bookmark", .button "new folder",
          .label "site", .symbol,
          .tree "a", .button "new bookmark", .button "new folder", .pop,
          .tree "b", .button "new bookmark", .button "new folder", .pop,
          .pop] :=
  ⟨buildTree_preorder (unreachable "offline") (fun _ => true) twoLevel (loaded twoLevel "")
    (by decide), by decide⟩

/-! ## What the network operations leave alone -/

theorem getRemoteBookmarks_selection (w : World) (url : String) (s : State) :
    (getRemoteBookmarks w url s).folderCreated = s.folderCreated ∧
      (getRemoteBookmarks w url s).bookmarkCreated = s.bookmarkCreated ∧
      (getRemoteBookmarks w url s).serverURL = TrimSpace url := by
  simp only [getRemoteBookmarks]
  split
  · exact ⟨rfl, rfl, rfl⟩
  · split
    · exact ⟨rfl, rfl, rfl⟩
    · split
      · exact ⟨rfl, rfl, rfl⟩
      · split <;> exact ⟨rfl, rfl, rfl⟩

theorem createFolder_selection (w : World) (folderName : String) (parentId : Int) (s : State) :
    (createFolder w folderName parentId s).folderCreated = s.folderCreated ∧
      (createFolder w folderName parentId s).bookmarkCreated = s.bookmarkCreated ∧
      (createFolder w folderName parentId s).serverURL = s.serverURL := by
  simp only [createFolder]
  split
  · exact ⟨rfl, rfl, rfl⟩
  · split <;> exact ⟨rfl, rfl, rfl⟩

theorem filter_isCall_send (o : Option String) (req : Request) :
    (match o with
     | some _ => []
     | none => [Event.send req]).filter Event.isCall = [] := by
  cases o <;> simp [Event.isCall]

/-- The globals after the "ok" button of a folder form: the two calls, in
order, and no form open for a new folder. -/
theorem clickOkFolder_effect (w : World) (id : Int) (s : State) :
    (clickOkFolder w id s).folderCreated = -1 ∧
      (clickOkFolder w id s).bookmarkCreated = s.bookmarkCreated ∧
      (clickOkFolder w id s).trace.filter Event.isCall =
        s.trace.filter Event.isCall ++
          [Event.createFolder (trimNul s.composeCreateFolderName) id,
            Event.getRemoteBookmarks s.serverURL] := by
  refine ⟨?_, ?_, ?_⟩
  · simp only [clickOkFolder, getRemoteBookmarks_selection]
  · simp only [clickOkFolder, getRemoteBookmarks_selection, createFolder_selection]
  · simp only [clickOkFolder, getRemoteBookmarks_trace, createFolder_trace,
      createFolder_selection]
    simp only [List.filter_append, List.filter_cons, Event.isCall, if_true, List.filter_nil,
      filter_isCall_send]
    simp

/-! ## C5: the "ok" button of a folder form -/

theorem controls_ok_folder (w : World) (ui : UI) (path : List Nat) (id : Int) (r : Run)
    (hform : r.s.folderCreated = id) (hnb : ui.newBookmark path = false)
    (hok : ui.okFolder path = true) :
    ∃ s2 items, controls w ui path id r = .error (.refetched ⟨clickOkFolder w id s2, items⟩ []) ∧
      s2.trace = r.s.trace ∧ s2.serverURL = r.s.serverURL ∧
      s2.composeCreateFolderName = ui.typed path .createFolderName r.s.composeCreateFolderName := by
  obtain ⟨⟨tree, b1, b2, b3, b4, b5, b6, em, su, fc, bc, tr⟩, items⟩ := r
  simp only at hform
  subst hform
  by_cases hnf : ui.newFolder path = true
  · simp only [controls, clickNewFolder, Run.emit, hnb, hnf, hok, if_true, if_false,
      Bool.false_eq_true]
    exact ⟨_, _, rfl, rfl, rfl, rfl⟩
  · simp only [controls, Run.emit, hnb, hnf, hok, if_true, if_false, Bool.false_eq_true]
    exact ⟨_, _, rfl, rfl, rfl, rfl⟩

theorem finalRun_andThen (stop : Stop) (more : List Task) :
    finalRun (.error (stop.andThen more)) = finalRun (.error stop) := by
  cases stop <;> rfl

theorem interrupted_andThen (stop : Stop) (more : List Task) :
    interrupted (.error (stop.andThen more)) = interrupted (.error stop) := by
  cases stop <;> rfl

theorem quiet_andThen {s : State} {stop : Stop} (more : List Task) (h : Quiet s (.error stop)) :
    Quiet s (.error (stop.andThen more)) := by
  unfold Quiet at h ⊢
  rw [finalRun_andThen, interrupted_andThen]
  exact h

theorem quiet_step {s : State} {r1 : Run} {res : Except Stop Run} (h1 : Quiet s (.ok r1))
    (h2 : Quiet r1.s res) : Quiet s res := by
  obtain ⟨_, hc1, hf1⟩ := h1
  obtain ⟨hi, hc2, hf2⟩ := h2
  exact ⟨hi, hc2.trans hc1, fun h => hf2 (hf1 h)⟩

theorem quiet_refl (r : Run) : Quiet r.s (.ok r) := ⟨rfl, rfl, fun h => h⟩

theorem quiet_emit (r : Run) (item : Item) : Quiet r.s (.ok (r.emit item)) := ⟨rfl, rfl, fun h => h⟩

theorem bookmarkForm_quiet (ui : UI) (path : List Nat) (id : Int) (r : Run) :
    Quiet r.s (.ok (bookmarkForm ui path id r)) := by
  obtain ⟨⟨tree, b1, b2, b3, b4, b5, b6, em, su, fc, bc, tr⟩, items⟩ := r
  unfold Quiet
  by_cases hc : bc = id <;> cases hob : ui.okBookmark path <;>
    simp [bookmarkForm, clickOkBookmark, Run.emit, interrupted, finalRun, hc, hob, Event.isCall]

theorem controls_quiet (w : World) (ui : UI) (path : List Nat) (id : Int) (r : Run)
    (hok : ui.okFolder path = false) (hnf : ui.newFolder path = false) :
    ∃ r', controls w ui path id r = .ok r' ∧ Quiet r.s (.ok r') := by
  obtain ⟨⟨tree, b1, b2, b3, b4, b5, b6, em, su, fc, bc, tr⟩, items⟩ := r
  unfold Quiet
  cases hnb : ui.newBookmark path <;> cases hob : ui.okBookmark path <;>
    by_cases hf : fc = id <;> by_cases hc : bc = id <;> by_cases hm : (-1 : Int) = id <;>
    simp [controls, bookmarkForm, clickNewBookmark, clickOkBookmark, Run.emit, interrupted,
      finalRun, hok, hnf, hnb, hob, hf, hc, hm, Event.isCall]

theorem bookmarkRows_quiet (w : World) (ui : UI) (path : List Nat) :
    ∀ (bs : List (Option Bookmark)) (j : Nat) (r : Run),
      Quiet r.s (bookmarkRows w ui path j bs r)
  | [], j, r => by simp [bookmarkRows, Quiet, interrupted, finalRun]
  | none :: rest, j, r => by simp [bookmarkRows, Quiet, interrupted, finalRun, Stop.run]
  | some b :: rest, j, r => by
    rw [bookmarkRows]
    by_cases ho : ui.openURL path j = true
    · simp only [ho, if_true, openbrowser]
      by_cases hs : w.start ((r.emit (Item.label b.Title)).emit Item.symbol).s.trace b.URL = true
      · simp only [hs, if_true]
        have ih := bookmarkRows_quiet w ui path rest (j + 1)
          { s := { ((r.emit (Item.label b.Title)).emit Item.symbol).s with
              trace := ((r.emit (Item.label b.Title)).emit Item.symbol).s.trace ++
                [Event.openbrowser b.URL] },
            items := ((r.emit (Item.label b.Title)).emit Item.symbol).items }
        have h1 : Quiet r.s (.ok
            { s := { ((r.emit (Item.label b.Title)).emit Item.symbol).s with
                trace := ((r.emit (Item.label b.Title)).emit Item.symbol).s.trace ++
                  [Event.openbrowser b.URL] },
              items := ((r.emit (Item.label b.Title)).emit Item.symbol).items }) := by
          refine ⟨rfl, ?_, fun h => h⟩
          simp [finalRun, Run.emit, Event.isCall]
        exact quiet_step h1 ih
      · simp only [hs, if_false, Bool.false_eq_true]
        refine ⟨rfl, ?_, fun h => h⟩
        simp [finalRun, Stop.run, Run.emit, Event.isCall]
    · simp only [ho, if_false, Bool.false_eq_true]
      exact bookmarkRows_quiet w ui path rest (j + 1)
        ((r.emit (Item.label b.Title)).emit Item.symbol)

theorem quietBelow_child (ui : UI) (path : List Nat) (h : ui.quietBelow path) (i : Nat) :
    ui.quietBelow (path ++ [i]) := by
  intro q hq
  exact h q ((List.prefix_append path [i]).trans hq)

mutual
theorem buildTree_quiet (w : World) (ui : UI) :
    ∀ (f : Folder) (path : List Nat) (r : Run), ui.quietBelow path →
      Quiet r.s (buildTree w ui path f r)
  | .mk id title p folders bookmarks n, path, r, hq => by
    rw [buildTree_mk]
    by_cases he : ui.expanded path = true
    · simp only [he, if_true]
      obtain ⟨r1, hc, hq1⟩ := controls_quiet w ui path id (r.emit (.tree title))
        (hq path (List.prefix_refl path)).1 (hq path (List.prefix_refl path)).2
      rw [hc]
      simp only
      have hb := bookmarkRows_quiet w ui path (bookmarks.getD []) 0 r1
      cases hrows : bookmarkRows w ui path 0 (bookmarks.getD []) r1 with
      | error stop =>
        rw [hrows] at hb
        exact quiet_step hq1 hb
      | ok r2 =>
        rw [hrows] at hb
        have h2 : Quiet r.s (.ok r2) := quiet_step hq1 hb
        cases folders with
        | none => exact quiet_step h2 (quiet_emit r2 .pop)
        | some children =>
          have hk := buildChildren_quiet w ui children path 0 r2
            (fun i => quietBelow_child ui path hq i)
          simp only
          cases hch : buildChildren w ui path 0 children r2 with
          | error stop =>
            rw [hch] at hk
            exact quiet_step h2 (quiet_andThen _ hk)
          | ok r3 =>
            rw [hch] at hk
            exact quiet_step h2 (quiet_step hk (quiet_emit r3 .pop))
    · simp only [he, if_false, Bool.false_eq_true]
      exact quiet_emit r _
theorem buildChildren_quiet (w : World) (ui : UI) :
    ∀ (children : List (Option Folder)) (path : List Nat) (i : Nat) (r : Run),
      (∀ j, ui.quietBelow (path ++ [j])) → Quiet r.s (buildChildren w ui path i children r)
  | [], path, i, r, _ => by
    rw [buildChildren]
    exact quiet_refl r
  | none :: rest, path, i, r, _ => by
    rw [buildChildren]
    exact ⟨rfl, rfl, fun h => h⟩
  | some childf :: rest, path, i, r, hq => by
    rw [buildChildren]
    have hc := buildTree_quiet w ui childf (path ++ [i]) r (hq i)
    cases hch : buildTree w ui (path ++ [i]) childf r with
    | error stop =>
      rw [hch] at hc
      exact quiet_andThen _ hc
    | ok r1 =>
      rw [hch] at hc
      exact quiet_step hc (buildChildren_quiet w ui rest path (i + 1) r1 hq)
end

theorem buildRest_quiet (w : World) (ui : UI) (path : List Nat) (f : Folder) (r : Run)
    (hq : ∀ j, ui.quietBelow (path ++ [j])) : Quiet r.s (buildRest w ui path f r) := by
  unfold buildRest
  have h1 := bookmarkForm_quiet ui path f.Id r
  have hb := bookmarkRows_quiet w ui path (f.Bookmarks.getD []) 0 (bookmarkForm ui path f.Id r)
  simp only
  cases hrows : bookmarkRows w ui path 0 (f.Bookmarks.getD []) (bookmarkForm ui path f.Id r) with
  | error stop =>
    rw [hrows] at hb
    exact quiet_step h1 hb
  | ok r2 =>
    rw [hrows] at hb
    have h2 : Quiet r.s (.ok r2) := quiet_step h1 hb
    cases hfs : f.Folders with
    | none => exact quiet_step h2 (quiet_emit r2 .pop)
    | some children =>
      have hk := buildChildren_quiet w ui children path 0 r2 hq
      simp only
      cases hch : buildChildren w ui path 0 children r2 with
      | error stop =>
        rw [hch] at hk
        exact quiet_step h2 (quiet_andThen _ hk)
      | ok r3 =>
        rw [hch] at hk
        exact quiet_step h2 (quiet_step hk (quiet_emit r3 .pop))

theorem taskRun_quiet (w : World) (ui : UI) (t : Task) (r : Run) (hq : t.quiet ui) :
    Quiet r.s (t.run w ui r) := by
  cases t with
  | visit path childf =>
    cases childf with
    | none => exact ⟨rfl, rfl, fun h => h⟩
    | some f => exact buildTree_quiet w ui f path r hq
  | rest path f => exact buildRest_quiet w ui path f r hq
  | pop => exact quiet_emit r .pop

theorem runTasks_quiet (w : World) (ui : UI) :
    ∀ (todo : List Task) (r : Run), (∀ t ∈ todo, t.quiet ui) → Quiet r.s (runTasks w ui todo r)
  | [], r, _ => quiet_refl r
  | t :: todo, r, hq => by
    rw [runTasks]
    have ht := taskRun_quiet w ui t r (hq t (List.mem_cons_self _ _))
    cases hrun : t.run w ui r with
    | error stop =>
      rw [hrun] at ht
      exact quiet_andThen _ ht
    | ok r1 =>
      rw [hrun] at ht
      exact quiet_step ht
        (runTasks_quiet w ui todo r1 (fun t' ht' => hq t' (List.mem_cons_of_mem _ ht')))

theorem refresh_quiet (m : Memory) (s : State) (ui : UI) (t : Task) (hq : t.quiet ui) :
    (m.refresh s t).quiet ui := by
  cases t with
  | visit path childf => exact hq
  | rest path f =>
    cases path with
    | nil => exact hq
    | cons i path => exact hq
  | pop => exact hq

theorem resume_done (w : World) (ui : UI) (m : Memory) (fuel : Nat) (res : Except Stop Run)
    (h : interrupted res = false) : resume w ui m fuel res = res := by
  cases res with
  | ok r => cases fuel <;> rfl
  | error stop =>
    cases stop with
    | refetched r todo => simp [interrupted] at h
    | panic r => cases fuel <;> rfl
    | fatal r => cases fuel <;> rfl

theorem resume_refetched (w : World) (ui : UI) (m : Memory) (fuel : Nat) (r : Run)
    (todo : List Task) :
    resume w ui m (fuel + 1) (.error (.refetched r todo)) =
      resume w ui m fuel (runTasks w ui (todo.map (m.refresh r.s)) r) := rfl

/-- C5: when `buildTree` draws an expanded folder `f` whose folder form is open
(`folderCreated == f.Id`) and the "ok" button of the form is clicked, the
handler of the click calls `createFolder(name, f.Id)`, with the trimmed content
of the name field, then `getRemoteBookmarks(serverURL)`, these two calls and no
other, and sets `folderCreated` to -1; `createFolder` failing or not changes
nothing of this. The frame then goes on with the rest of `f`, with its children
and with the work `todo` of the enclosing folders, on the tree as the fetch left
it; when the user clicks no other "ok" of a folder form and no "new folder" on
the folders drawn there, the frame ends (or the process stops) without another
call and with `folderCreated` still -1. -/
theorem ok_folder_click (w : World) (ui : UI) (m : Memory) (path : List Nat) (f : Folder)
    (r : Run) (todo : List Task) (fuel : Nat)
    (hexp : ui.expanded path = true) (hform : r.s.folderCreated = f.Id)
    (hnb : ui.newBookmark path = false) (hok : ui.okFolder path = true) :
    (∃ r', buildTree w ui path f r = .error (.refetched r' [Task.rest path f]) ∧
      r'.s.folderCreated = -1 ∧
      r'.s.trace.filter Event.isCall =
        r.s.trace.filter Event.isCall ++
          [Event.createFolder
              (trimNul (ui.typed path .createFolderName r.s.composeCreateFolderName)) f.Id,
            Event.getRemoteBookmarks r.s.serverURL]) ∧
      ((∀ i, ui.quietBelow (path ++ [i])) → (∀ t ∈ todo, t.quiet ui) →
        interrupted (resume w ui m (fuel + 1)
          (runTasks w ui (Task.visit path (some f) :: todo) r)) = false ∧
        (finalRun (resume w ui m (fuel + 1)
          (runTasks w ui (Task.visit path (some f) :: todo) r))).s.folderCreated = -1 ∧
        (finalRun (resume w ui m (fuel + 1)
          (runTasks w ui (Task.visit path (some f) :: todo) r))).s.trace.filter Event.isCall =
          r.s.trace.filter Event.isCall ++
            [Event.createFolder
                (trimNul (ui.typed path .createFolderName r.s.composeCreateFolderName)) f.Id,
              Event.getRemoteBookmarks r.s.serverURL]) := by
  obtain ⟨id, title, p, folders, bookmarks, n⟩ := f
  obtain ⟨s2, items, hc, ht, hu, hn⟩ :=
    controls_ok_folder w ui path id (r.emit (.tree title)) hform hnb hok
  have hb : buildTree w ui path (Folder.mk id title p folders bookmarks n) r =
      .error (.refetched ⟨clickOkFolder w id s2, items⟩
        [Task.rest path (Folder.mk id title p folders bookmarks n)]) := by
    rw [buildTree_mk]
    simp only [hexp, if_true, hc]
    rfl
  have he := clickOkFolder_effect w id s2
  have hcalls : (clickOkFolder w id s2).trace.filter Event.isCall =
      r.s.trace.filter Event.isCall ++
        [Event.createFolder
            (trimNul (ui.typed path .createFolderName r.s.composeCreateFolderName)) id,
          Event.getRemoteBookmarks r.s.serverURL] := by
    rw [he.2.2, ht, hu, hn]
    rfl
  refine ⟨⟨_, hb, he.1, hcalls⟩, ?_⟩
  intro hbelow htodo
  have hrun : runTasks w ui (Task.visit path (some (Folder.mk id title p folders bookmarks n))
      :: todo) r = .error (.refetched ⟨clickOkFolder w id s2, items⟩
        ([Task.rest path (Folder.mk id title p folders bookmarks n)] ++ todo)) := by
    rw [runTasks]
    simp only [Task.run, hb]
    rfl
  rw [hrun, resume_refetched]
  have hq := runTasks_quiet w ui
    (([Task.rest path (Folder.mk id title p folders bookmarks n)] ++ todo).map
      (m.refresh (clickOkFolder w id s2))) ⟨clickOkFolder w id s2, items⟩ (by
      intro t ht
      obtain ⟨t0, ht0, rfl⟩ := List.mem_map.mp ht
      apply refresh_quiet
      simp only [List.singleton_append, List.mem_cons] at ht0
      rcases ht0 with rfl | ht0
      · exact hbelow
      · exact htodo t0 ht0)
  rw [resume_done w ui m fuel _ hq.1]
  exact ⟨hq.1, hq.2.2 he.1, hq.2.1.trans hcalls⟩

theorem ok_folder_click_witness :
    ((∃ r', buildTree (answering ⟨200, .ok (.json grownDoc)⟩) (submitFolderAt [] "work\x00\x00") []
          (leaf 7 "root") ⟨formOpenOn (leaf 7 "root") 7, []⟩ =
            .error (.refetched r' [Task.rest [] (leaf 7 "root")]) ∧
        r'.s.folderCreated = -1 ∧
        r'.s.trace.filter Event.isCall =
          (formOpenOn (leaf 7 "root") 7).trace.filter Event.isCall ++
            [Event.createFolder
                (trimNul ((submitFolderAt [] "work\x00\x00").typed [] .createFolderName
                  (formOpenOn (leaf 7 "root") 7).composeCreateFolderName)) (leaf 7 "root").Id,
              Event.getRemoteBookmarks (formOpenOn (leaf 7 "root") 7).serverURL]) ∧
      interrupted (resume (answering ⟨200, .ok (.json grownDoc)⟩) (submitFolderAt [] "work\x00\x00")
        Memory.same (0 + 1)
        (runTasks (answering ⟨200, .ok (.json grownDoc)⟩) (submitFolderAt [] "work\x00\x00")
          (Task.visit [] (some (leaf 7 "root")) :: []) ⟨formOpenOn (leaf 7 "root") 7, []⟩)) =
        false ∧
      (finalRun (resume (answering ⟨200, .ok (.json grownDoc)⟩) (submitFolderAt [] "work\x00\x00")
        Memory.same (0 + 1)
        (runTasks (answering ⟨200, .ok (.json grownDoc)⟩) (submitFolderAt [] "work\x00\x00")
          (Task.visit [] (some (leaf 7 "root")) :: [])
          ⟨formOpenOn (leaf 7 "root") 7, []⟩))).s.folderCreated = -1 ∧
      (finalRun (resume (answering ⟨200, .ok (.json grownDoc)⟩) (submitFolderAt [] "work\x00\x00")
        Memory.same (0 + 1)
        (runTasks (answering ⟨200, .ok (.json grownDoc)⟩) (submitFolderAt [] "work\x00\x00")
          (Task.visit [] (some (leaf 7 "root")) :: [])
          ⟨formOpenOn (leaf 7 "root") 7, []⟩))).s.trace.filter Event.isCall =
        (formOpenOn (leaf 7 "root") 7).trace.filter Event.isCall ++
          [Event.createFolder
              (trimNul ((submitFolderAt [] "work\x00\x00").typed [] .createFolderName
                (formOpenOn (leaf 7 "root") 7).composeCreateFolderName)) (leaf 7 "root").Id,
            Event.getRemoteBookmarks (formOpenOn (leaf 7 "root") 7).serverURL]) ∧
      trimNul ((submitFolderAt [] "work\x00\x00").typed [] .createFolderName
        (formOpenOn (leaf 7 "root") 7).composeCreateFolderName) = "work" ∧
      (finalRun (resume (answering ⟨200, .ok (.json grownDoc)⟩) (submitFolderAt [] "work\x00\x00")
        Memory.same (0 + 1)
        (runTasks (answering ⟨200, .ok (.json grownDoc)⟩) (submitFolderAt [] "work\x00\x00")
          (Task.visit [] (some (leaf 7 "root")) :: [])
          ⟨formOpenOn (leaf 7 "root") 7, []⟩))).items =
        [.tree "root", .button "new bookmark", .button "new folder", .edit .createFolderName,
          .button "ok",
          .tree "work", .button "new bookmark", .button "new folder", .pop, .pop] :=
  ⟨⟨(ok_folder_click (answering ⟨200, .ok (.json grownDoc)⟩) (submitFolderAt [] "work\x00\x00")
        Memory.same [] (leaf 7 "root") ⟨formOpenOn (leaf 7 "root") 7, []⟩ [] 0 rfl rfl rfl
        rfl).1,
      (ok_folder_click (answering ⟨200, .ok (.json grownDoc)⟩) (submitFolderAt [] "work\x00\x00")
        Memory.same [] (leaf 7 "root") ⟨formOpenOn (leaf 7 "root") 7, []⟩ [] 0 rfl rfl rfl
        rfl).2
        (fun i q hq => by
          obtain ⟨t, rfl⟩ := hq
          simp [submitFolderAt, UI.idle])
        (fun t ht => by simp at ht)⟩,
    by decide, by decide⟩

/-! ## C8: opening one form closes the other -/

/-- C8, refuted as stated: the folder `b` has id -1 and `bookmarkCreated` is its
id; the user clicks "new folder" on the folder `a`; `bookmarkCreated` is -1
afterwards, which is still the id of `b`, and the next frame draws the bookmark
form of `b`. -/
theorem sentinel_id_keeps_form :
    (loaded sentinelChild "").bookmarkCreated = (leaf (-1) "b").Id ∧
      (finalRun (buildTree (unreachable "offline") (clickNewFolderAt []) [] sentinelChild
        ⟨loaded sentinelChild "", []⟩)).s.folderCreated = sentinelChild.Id ∧
      (finalRun (buildTree (unreachable "offline") (clickNewFolderAt []) [] sentinelChild
        ⟨loaded sentinelChild "", []⟩)).s.bookmarkCreated = -1 ∧
      (finalRun (buildTree (unreachable "offline") (UI.idle fun _ => true) [0] (leaf (-1) "b")
        ⟨(finalRun (buildTree (unreachable "offline") (clickNewFolderAt []) [] sentinelChild
          ⟨loaded sentinelChild "", []⟩)).s, []⟩)).items =
        [.tree "b", .button "new bookmark", .button "new folder",
          .edit .createBookmarkName, .edit .createBookmarkURL, .button "ok", .pop] := by
  refine ⟨by decide, by decide, by decide, by decide⟩

/-- The two selection globals after the buttons and forms of a folder, when
the "ok" button of its folder form is not clicked. -/
theorem controls_selection (w : World) (ui : UI) (path : List Nat) (id : Int) (r : Run)
    (hok : ui.okFolder path = false) :
    ∃ r', controls w ui path id r = .ok r' ∧
      r'.s.folderCreated =
        (if ui.newFolder path then id
         else if ui.newBookmark path then -1 else r.s.folderCreated) ∧
      r'.s.bookmarkCreated =
        (if ui.newFolder path then -1
         else if ui.newBookmark path then (if ui.okBookmark path then -1 else id)
         else if r.s.bookmarkCreated = id ∧ ui.okBookmark path = true then -1
         else r.s.bookmarkCreated) := by
  obtain ⟨⟨tree, b1, b2, b3, b4, b5, b6, em, su, fc, bc, tr⟩, items⟩ := r
  cases hnf : ui.newFolder path <;> cases hnb : ui.newBookmark path <;>
    cases hob : ui.okBookmark path <;> by_cases hf : fc = id <;> by_cases hc : bc = id <;>
    by_cases hm : (-1 : Int) = id <;>
    simp [controls, bookmarkForm, clickNewFolder, clickNewBookmark, clickOkBookmark, Run.emit,
      hok, hnf, hnb, hob, hf, hc, hm]

/-- C8, amended: for folders with ids `a` and `b`, `b` not -1: when the user
opens a form of one kind on `a` ("new folder", or "new bookmark") and does not
click the "ok" of a folder form in the same frame, the global of that kind is
`a` afterwards, the global of the other kind is -1, and `b` then draws no form
of the other kind, whatever was open on `b` before. -/
theorem opening_one_closes_other (w : World) (ui : UI) (path : List Nat) (a b : Int) (r : Run)
    (k : Form) (expanded : List Nat → Bool) (pathB : List Nat)
    (hb : b ≠ -1) (hok : ui.okFolder path = false) (hclick : ui.opens path k = true) :
    ∃ r', controls w ui path a r = .ok r' ∧ r'.s.selected k = a ∧
      r'.s.selected k.other = -1 ∧
      k.other.field ∉ (finalRun (controls w (UI.idle expanded) pathB b ⟨r'.s, []⟩)).items := by
  obtain ⟨r', hr, hfc, hbc⟩ := controls_selection w ui path a r hok
  have hb' : ¬ (-1 : Int) = b := fun h => hb h.symm
  refine ⟨r', hr, ?_⟩
  rw [controls_idle]
  cases k with
  | folder =>
    simp only [UI.opens] at hclick
    simp only [hclick, if_true] at hfc hbc
    simp [State.selected, Form.other, Form.field, finalRun, ownItems, hfc, hbc, hb']
  | bookmark =>
    simp only [UI.opens, Bool.and_eq_true, Bool.not_eq_true'] at hclick
    obtain ⟨⟨h1, h2⟩, h3⟩ := hclick
    simp only [h1, h2, h3, if_true, if_false, Bool.false_eq_true] at hfc hbc
    simp [State.selected, Form.other, Form.field, finalRun, ownItems, hfc, hbc, hb']

theorem opening_one_closes_other_witness :
    ∃ r', controls (unreachable "offline") (clickNewFolderAt []) [] 1
        ⟨bookmarkFormOpenOn twoLevel 2, []⟩ = .ok r' ∧ r'.s.selected .folder = 1 ∧
      r'.s.selected Form.folder.other = -1 ∧
      Form.folder.other.field ∉
        (finalRun (controls (unreachable "offline") (UI.idle fun _ => true) [0] 2
          ⟨r'.s, []⟩)).items :=
  opening_one_closes_other (unreachable "offline") (clickNewFolderAt []) [] 1 2
    ⟨bookmarkFormOpenOn twoLevel 2, []⟩ .folder (fun _ => true) [0] (by decide) rfl rfl

/-! ## C3: at most one creation form -/

theorem clickOkFolder_folderCreated (w : World) (id : Int) (s : State) :
    (clickOkFolder w id s).folderCreated = -1 := (clickOkFolder_effect w id s).1

theorem controls_oneSelection (w : World) (ui : UI) (path : List Nat) (id : Int) (r : Run)
    (h : oneSelection r.s) : oneSelection (finalRun (controls w ui path id r)).s := by
  obtain ⟨⟨tree, b1, b2, b3, b4, b5, b6, em, su, fc, bc, tr⟩, items⟩ := r
  unfold oneSelection at h
  simp only at h
  cases hok : ui.okFolder path <;> cases hnf : ui.newFolder path <;>
    cases hnb : ui.newBookmark path <;> cases hob : ui.okBookmark path <;>
    by_cases hf : fc = id <;> by_cases hc : bc = id <;> by_cases hm : (-1 : Int) = id <;>
    simp [controls, finalRun, Stop.run, oneSelection, bookmarkForm, clickNewFolder,
      clickNewBookmark, clickOkBookmark, clickOkFolder_folderCreated, Run.emit, hok, hnf, hnb,
      hob, hf, hc, hm] <;> omega

theorem bookmarkForm_oneSelection (ui : UI) (path : List Nat) (id : Int) (r : Run)
    (h : oneSelection r.s) : oneSelection (bookmarkForm ui path id r).s := by
  obtain ⟨⟨tree, b1, b2, b3, b4, b5, b6, em, su, fc, bc, tr⟩, items⟩ := r
  unfold oneSelection at h ⊢
  simp only at h
  by_cases hc : bc = id <;> cases hob : ui.okBookmark path <;>
    simp [bookmarkForm, clickOkBookmark, Run.emit, hc, hob] <;> omega

theorem bookmarkRows_selection (w : World) (ui : UI) (path : List Nat) :
    ∀ (bs : List (Option Bookmark)) (j : Nat) (r : Run),
      (finalRun (bookmarkRows w ui path j bs r)).s.folderCreated = r.s.folderCreated ∧
        (finalRun (bookmarkRows w ui path j bs r)).s.bookmarkCreated = r.s.bookmarkCreated
  | [], j, r => by simp [bookmarkRows, finalRun]
  | none :: rest, j, r => by simp [bookmarkRows, finalRun, Stop.run]
  | some b :: rest, j, r => by
    simp only [bookmarkRows]
    split
    · simp only [openbrowser]
      split
      · rename_i stop hs
        split at hs
        · simp at hs
        · simp only [Except.error.injEq] at hs
          subst hs
          simp [finalRun, Stop.run, Run.emit]
      · rename_i r' hs
        split at hs
        · simp only [Except.ok.injEq] at hs
          subst hs
          have ih := bookmarkRows_selection w ui path rest (j + 1)
            { s := { ((r.emit (Item.label b.Title)).emit Item.symbol).s with
                trace := ((r.emit (Item.label b.Title)).emit Item.symbol).s.trace ++
                  [Event.openbrowser b.URL] },
              items := ((r.emit (Item.label b.Title)).emit Item.symbol).items }
          simpa [Run.emit] using ih
        · simp at hs
    · have ih := bookmarkRows_selection w ui path rest (j + 1)
        ((r.emit (Item.label b.Title)).emit Item.symbol)
      simpa [Run.emit] using ih

theorem bookmarkRows_oneSelection (w : World) (ui : UI) (path : List Nat)
    (bs : List (Option Bookmark)) (j : Nat) (r : Run) (h : oneSelection r.s) :
    oneSelection (finalRun (bookmarkRows w ui path j bs r)).s := by
  have := bookmarkRows_selection w ui path bs j r
  unfold oneSelection at h ⊢
  rw [this.1, this.2]
  exact h

mutual
theorem buildTree_oneSelection (w : World) (ui : UI) :
    ∀ (f : Folder) (path : List Nat) (r : Run), oneSelection r.s →
      oneSelection (finalRun (buildTree w ui path f r)).s
  | .mk id title p folders bookmarks n, path, r, h => by
    rw [buildTree_mk]
    by_cases he : ui.expanded path = true
    · simp only [he, if_true]
      have hc := controls_oneSelection w ui path id (r.emit (.tree title)) h
      cases hcon : controls w ui path id (r.emit (.tree title)) with
      | error stop =>
        rw [hcon] at hc
        simp only
        rw [finalRun_andThen]
        exact hc
      | ok r1 =>
        rw [hcon] at hc
        have hb := bookmarkRows_oneSelection w ui path (bookmarks.getD []) 0 r1 hc
        simp only
        cases hrows : bookmarkRows w ui path 0 (bookmarks.getD []) r1 with
        | error stop =>
          rw [hrows] at hb
          exact hb
        | ok r2 =>
          rw [hrows] at hb
          cases folders with
          | none => exact hb
          | some children =>
            have hk := buildChildren_oneSelection w ui children path 0 r2 hb
            simp only
            cases hch : buildChildren w ui path 0 children r2 with
            | error stop =>
              rw [hch] at hk
              simp only
              rw [finalRun_andThen]
              exact hk
            | ok r3 =>
              rw [hch] at hk
              exact hk
    · simp only [he, if_false, Bool.false_eq_true]
      exact h
theorem buildChildren_oneSelection (w : World) (ui : UI) :
    ∀ (children : List (Option Folder)) (path : List Nat) (i : Nat) (r : Run),
      oneSelection r.s → oneSelection (finalRun (buildChildren w ui path i children r)).s
  | [], path, i, r, h => by simpa [buildChildren, finalRun] using h
  | none :: rest, path, i, r, h => by simpa [buildChildren, finalRun, Stop.run] using h
  | some childf :: rest, path, i, r, h => by
    rw [buildChildren]
    have hc := buildTree_oneSelection w ui childf (path ++ [i]) r h
    cases hch : buildTree w ui (path ++ [i]) childf r with
    | error stop =>
      rw [hch] at hc
      simp only
      rw [finalRun_andThen]
      exact hc
    | ok r1 =>
      rw [hch] at hc
      exact buildChildren_oneSelection w ui rest path (i + 1) r1 hc
end

theorem buildRest_oneSelection (w : World) (ui : UI) (path : List Nat) (f : Folder) (r : Run)
    (h : oneSelection r.s) : oneSelection (finalRun (buildRest w ui path f r)).s := by
  unfold buildRest
  have h1 := bookmarkForm_oneSelection ui path f.Id r h
  have hb := bookmarkRows_oneSelection w ui path (f.Bookmarks.getD []) 0 _ h1
  simp only
  cases hrows : bookmarkRows w ui path 0 (f.Bookmarks.getD []) (bookmarkForm ui path f.Id r) with
  | error stop =>
    rw [hrows] at hb
    exact hb
  | ok r2 =>
    rw [hrows] at hb
    cases hfs : f.Folders with
    | none => exact hb
    | some children =>
      have hk := buildChildren_oneSelection w ui children path 0 r2 hb
      simp only
      cases hch : buildChildren w ui path 0 children r2 with
      | error stop =>
        rw [hch] at hk
        simp only
        rw [finalRun_andThen]
        exact hk
      | ok r3 =>
        rw [hch] at hk
        exact hk

theorem taskRun_oneSelection (w : World) (ui : UI) (t : Task) (r : Run)
    (h : oneSelection r.s) : oneSelection (finalRun (t.run w ui r)).s := by
  cases t with
  | visit path childf =>
    cases childf with
    | none => exact h
    | some f => exact buildTree_oneSelection w ui f path r h
  | rest path f => exact buildRest_oneSelection w ui path f r h
  | pop => exact h

theorem runTasks_oneSelection (w : World) (ui : UI) :
    ∀ (todo : List Task) (r : Run), oneSelection r.s →
      oneSelection (finalRun (runTasks w ui todo r)).s
  | [], r, h => h
  | t :: todo, r, h => by
    rw [runTasks]
    have ht := taskRun_oneSelection w ui t r h
    cases hrun : t.run w ui r with
    | error stop =>
      rw [hrun] at ht
      simp only
      rw [finalRun_andThen]
      exact ht
    | ok r1 =>
      rw [hrun] at ht
      exact runTasks_oneSelection w ui todo r1 ht

theorem resume_oneSelection (w : World) (ui : UI) (m : Memory) :
    ∀ (fuel : Nat) (res : Except Stop Run), oneSelection (finalRun res).s →
      oneSelection (finalRun (resume w ui m fuel res)).s
  | 0, res, h => by
    cases res with
    | ok r => exact h
    | error stop => cases stop <;> exact h
  | fuel + 1, res, h => by
    cases res with
    | ok r => exact h
    | error stop =>
      cases stop with
      | refetched r todo =>
        rw [resume_refetched]
        exact resume_oneSelection w ui m fuel _ (runTasks_oneSelection w ui _ r h)
      | panic r => exact h
      | fatal r => exact h

theorem draw_oneSelection (w : World) (ui : UI) (m : Memory) (connect : Bool) (fuel : Nat)
    (s : State) (h : oneSelection s) :
    oneSelection (finalRun (draw w ui m connect fuel s)).s := by
  unfold draw
  apply resume_oneSelection
  apply buildTree_oneSelection
  simp only
  split
  · unfold oneSelection at h ⊢
    simp only [clickConnect, getRemoteBookmarks_selection]
    exact h
  · exact h

/-- In every reachable state at most one of the two selection globals names a
folder. -/
theorem reach_oneSelection (w : World) (s : State) (h : Reach w s) : oneSelection s := by
  induction h with
  | init =>
    unfold oneSelection init
    simp only [getRemoteBookmarks_selection]
    exact Or.inl rfl
  | frame s ui m connect fuel _ ih => exact draw_oneSelection w ui m connect fuel s ih

theorem folderIds_mk (id : Int) (title : String) (p : Option Folder)
    (folders : Option (List (Option Folder))) (bookmarks : Option (List (Option Bookmark)))
    (n : Int) :
    folderIds (Folder.mk id title p folders bookmarks n) =
      id :: (match folders with
             | none => []
             | some children => folderIdsList children) := by
  conv => lhs; unfold folderIds

theorem formCount_append (a b : List Item) : formCount (a ++ b) = formCount a + formCount b := by
  simp only [formCount, List.count_append]
  omega

theorem count_cons_id (x id : Int) (l : List Int) :
    (id :: l).count x = l.count x + (if x = id then 1 else 0) := by
  rw [List.count_cons]
  by_cases h : x = id
  · simp [h]
  · have h' : ¬ id = x := fun e => h e.symm
    simp [h, h']

theorem calm_andThen {r : Run} {stop : Stop} {bound : Nat} (more : List Task)
    (h : Calm r (.error stop) bound) : Calm r (.error (stop.andThen more)) bound := by
  unfold Calm at h ⊢
  rw [finalRun_andThen, interrupted_andThen]
  exact h

theorem calm_step {r r1 : Run} {res : Except Stop Run} {b1 b2 : Nat} (h1 : Calm r (.ok r1) b1)
    (h2 : Calm r1 res b2) : Calm r res (b1 + b2) := by
  obtain ⟨_, hf1, hb1, hn1⟩ := h1
  obtain ⟨hi, hf2, hb2, hn2⟩ := h2
  simp only [finalRun] at hf1 hb1 hn1
  exact ⟨hi, hf2.trans hf1, hb2.trans hb1, by omega⟩

theorem calm_mono {r : Run} {res : Except Stop Run} {b1 b2 : Nat} (h : Calm r res b1)
    (hle : b1 ≤ b2) : Calm r res b2 :=
  ⟨h.1, h.2.1, h.2.2.1, by have := h.2.2.2; omega⟩

theorem calm_emit (r : Run) (item : Item) (h1 : item ≠ Item.edit .createFolderName)
    (h2 : item ≠ Item.edit .createBookmarkName) : Calm r (.ok (r.emit item)) 0 := by
  refine ⟨rfl, rfl, rfl, ?_⟩
  simp only [finalRun, Run.emit, formCount_append]
  have : formCount [item] = 0 := by
    simp only [formCount, List.count_singleton]
    simp [h1, h2, beq_iff_eq]
  omega

theorem controls_noClick (w : World) (ui : UI) (path : List Nat) (id : Int) (r : Run)
    (hui : ui.noClick) :
    ∃ r', controls w ui path id r = .ok r' ∧
      Calm r (.ok r') ((if r.s.folderCreated = id then 1 else 0) +
        (if r.s.bookmarkCreated = id then 1 else 0)) := by
  obtain ⟨hnb, hnf, hok, hob, _⟩ := hui path
  obtain ⟨⟨tree, b1, b2, b3, b4, b5, b6, em, su, fc, bc, tr⟩, items⟩ := r
  unfold Calm
  by_cases hf : fc = id <;> by_cases hc : bc = id <;>
    simp [controls, bookmarkForm, Run.emit, interrupted, finalRun, formCount, hok, hnf, hnb,
      hob, hf, hc, List.count_append, List.count_cons] <;> omega

theorem bookmarkRows_noClick (w : World) (ui : UI) (path : List Nat)
    (hui : ∀ j, ui.openURL path j = false) :
    ∀ (bs : List (Option Bookmark)) (j : Nat) (r : Run), Calm r (bookmarkRows w ui path j bs r) 0
  | [], j, r => ⟨rfl, rfl, rfl, Nat.le_refl _⟩
  | none :: rest, j, r => ⟨rfl, rfl, rfl, Nat.le_refl _⟩
  | some b :: rest, j, r => by
    rw [bookmarkRows]
    simp only [hui j, if_false, Bool.false_eq_true]
    have ih := bookmarkRows_noClick w ui path hui rest (j + 1)
      ((r.emit (Item.label b.Title)).emit Item.symbol)
    have h1 := calm_emit r (Item.label b.Title) (by simp) (by simp)
    have h2 := calm_emit (r.emit (Item.label b.Title)) Item.symbol (by simp) (by simp)
    exact calm_mono (calm_step (calm_step h1 h2) ih) (by omega)

mutual
theorem buildTree_noClick (w : World) (ui : UI) (hui : ui.noClick) :
    ∀ (f : Folder) (path : List Nat) (r : Run),
      Calm r (buildTree w ui path f r)
        ((folderIds f).count r.s.folderCreated + (folderIds f).count r.s.bookmarkCreated)
  | .mk id title p folders bookmarks n, path, r => by
    rw [buildTree_mk, folderIds_mk, count_cons_id, count_cons_id]
    have h0 := calm_emit r (Item.tree title) (by simp) (by simp)
    by_cases he : ui.expanded path = true
    · simp only [he, if_true]
      obtain ⟨r1, hc, hq1⟩ := controls_noClick w ui path id (r.emit (.tree title)) hui
      rw [hc]
      simp only
      have h1 := calm_step h0 hq1
      have hb := bookmarkRows_noClick w ui path (fun j => (hui path).2.2.2.2 j)
        (bookmarks.getD []) 0 r1
      have hf1 : r1.s.folderCreated = r.s.folderCreated := h1.2.1
      have hb1 : r1.s.bookmarkCreated = r.s.bookmarkCreated := h1.2.2.1
      cases hrows : bookmarkRows w ui path 0 (bookmarks.getD []) r1 with
      | error stop =>
        rw [hrows] at hb
        refine calm_mono (calm_step h1 hb) ?_
        simp only [Run.emit]
        omega
      | ok r2 =>
        rw [hrows] at hb
        have h2 := calm_step h1 hb
        have hf2 : r2.s.folderCreated = r.s.folderCreated := h2.2.1
        have hb2 : r2.s.bookmarkCreated = r.s.bookmarkCreated := h2.2.2.1
        cases folders with
        | none =>
          refine calm_mono (calm_step h2 (calm_emit r2 .pop (by simp) (by simp))) ?_
          simp only [Run.emit]
          omega
        | some children =>
          have hk := buildChildren_noClick w ui hui children path 0 r2
          rw [hf2, hb2] at hk
          simp only
          cases hch : buildChildren w ui path 0 children r2 with
          | error stop =>
            rw [hch] at hk
            refine calm_mono (calm_step h2 (calm_andThen _ hk)) ?_
            simp only [Run.emit]
            omega
          | ok r3 =>
            rw [hch] at hk
            refine calm_mono
              (calm_step h2 (calm_step hk (calm_emit r3 .pop (by simp) (by simp)))) ?_
            simp only [Run.emit]
            omega
    · simp only [he, if_false, Bool.false_eq_true]
      exact calm_mono h0 (by omega)
theorem buildChildren_noClick (w : World) (ui : UI) (hui : ui.noClick) :
    ∀ (children : List (Option Folder)) (path : List Nat) (i : Nat) (r : Run),
      Calm r (buildChildren w ui path i children r)
        ((folderIdsList children).count r.s.folderCreated +
          (folderIdsList children).count r.s.bookmarkCreated)
  | [], path, i, r => by
    rw [buildChildren]
    exact ⟨rfl, rfl, rfl, by simp only [finalRun]; omega⟩
  | none :: rest, path, i, r => by
    rw [buildChildren]
    exact ⟨rfl, rfl, rfl, by simp only [finalRun, Stop.run]; omega⟩
  | some childf :: rest, path, i, r => by
    rw [buildChildren, folderIdsList]
    simp only [List.count_append]
    have hc := buildTree_noClick w ui hui childf (path ++ [i]) r
    cases hch : buildTree w ui (path ++ [i]) childf r with
    | error stop =>
      rw [hch] at hc
      exact calm_mono (calm_andThen _ hc) (by omega)
    | ok r1 =>
      rw [hch] at hc
      have hk := buildChildren_noClick w ui hui rest path (i + 1) r1
      have hf1 : r1.s.folderCreated = r.s.folderCreated := hc.2.1
      have hb1 : r1.s.bookmarkCreated = r.s.bookmarkCreated := hc.2.2.1
      rw [hf1, hb1] at hk
      exact calm_mono (calm_step hc hk) (by omega)
end

/-- C3, refuted as stated. First: the server sends a root folder with id -1;
in the state after `init`, a frame in which the user only looks draws both
forms of the root. Second: the server sends a root with id 1 and a child with
id 2; the user clicks "new bookmark" on the root; in the next frame the
bookmark form of the root is drawn, the user clicks "new folder" on the child,
and the folder form of the child is drawn in the same frame. -/
theorem two_forms_in_a_frame :
    Reach (answering ⟨200, .ok (.json sentinelDoc)⟩)
        (init (answering ⟨200, .ok (.json sentinelDoc)⟩)) ∧
      formCount (finalRun (draw (answering ⟨200, .ok (.json sentinelDoc)⟩)
        (UI.idle fun _ => true) Memory.same false 0
        (init (answering ⟨200, .ok (.json sentinelDoc)⟩)))).items = 2 ∧
      Reach (answering ⟨200, .ok (.json parentChildDoc)⟩)
        (finalRun (draw (answering ⟨200, .ok (.json parentChildDoc)⟩) (clickNewBookmarkAt [])
          Memory.same false 0 (init (answering ⟨200, .ok (.json parentChildDoc)⟩)))).s ∧
      formCount (finalRun (draw (answering ⟨200, .ok (.json parentChildDoc)⟩)
        (clickNewFolderAt [0]) Memory.same false 0
        (finalRun (draw (answering ⟨200, .ok (.json parentChildDoc)⟩) (clickNewBookmarkAt [])
          Memory.same false 0
          (init (answering ⟨200, .ok (.json parentChildDoc)⟩)))).s)).items = 2 := by
  refine ⟨Reach.init, by decide, Reach.frame _ _ _ _ _ Reach.init, by decide⟩

/-- C3, amended: in every state reachable from the initial state, whatever the
user clicked and typed, at most one of `folderCreated` and `bookmarkCreated`
names a folder; so, when the ids of the folders of the tree are pairwise
different and none is -1, a frame in which no button is clicked draws at most
one creation form. -/
theorem one_form_when_idle (w : World) (s : State) (ui : UI) (m : Memory) (fuel : Nat)
    (h : Reach w s) (hui : ui.noClick) (hids : (folderIds s.tree).Nodup)
    (hsent : (-1 : Int) ∉ folderIds s.tree) :
    oneSelection s ∧ formCount (finalRun (draw w ui m false fuel s)).items ≤ 1 := by
  have hone := reach_oneSelection w s h
  refine ⟨hone, ?_⟩
  unfold draw
  simp only [Bool.false_eq_true, if_false]
  have hcalm := buildTree_noClick w ui hui s.tree []
    ⟨{ s with composeServerURL := ui.serverURL s.composeServerURL,
              composeServerLogin := ui.login s.composeServerLogin,
              composeServerPassword := ui.password s.composeServerPassword }, []⟩
  rw [resume_done w ui m fuel _ hcalm.1]
  have hle := hcalm.2.2.2
  simp only at hle
  have h1 : ∀ x : Int, (folderIds s.tree).count x ≤ 1 := fun x =>
    List.nodup_iff_count_le_one.mp hids x
  have h0 : (folderIds s.tree).count (-1) = 0 := List.count_eq_zero_of_not_mem hsent
  have ha := h1 s.folderCreated
  have hb := h1 s.bookmarkCreated
  have hz : formCount ([] : List Item) = 0 := rfl
  rw [hz] at hle
  rcases hone with hf | hf
  · have hc : (folderIds s.tree).count s.folderCreated = 0 := by
      rw [hf]
      exact h0
    omega
  · have hc : (folderIds s.tree).count s.bookmarkCreated = 0 := by
      rw [hf]
      exact h0
    omega

theorem one_form_when_idle_witness :
    (oneSelection (finalRun (draw (answering ⟨200, .ok (.json parentChildDoc)⟩)
        (clickNewFolderAt [0]) Memory.same false 0
        (init (answering ⟨200, .ok (.json parentChildDoc)⟩)))).s ∧
      formCount (finalRun (draw (answering ⟨200, .ok (.json parentChildDoc)⟩)
        (UI.idle fun _ => true) Memory.same false 0
        (finalRun (draw (answering ⟨200, .ok (.json parentChildDoc)⟩)
          (clickNewFolderAt [0]) Memory.same false 0
          (init (answering ⟨200, .ok (.json parentChildDoc)⟩)))).s)).items ≤ 1) ∧
      (finalRun (draw (answering ⟨200, .ok (.json parentChildDoc)⟩)
        (clickNewFolderAt [0]) Memory.same false 0
        (init (answering ⟨200, .ok (.json parentChildDoc)⟩)))).s.folderCreated = 2 ∧
      formCount (finalRun (draw (answering ⟨200, .ok (.json parentChildDoc)⟩)
        (UI.idle fun _ => true) Memory.same false 0
        (finalRun (draw (answering ⟨200, .ok (.json parentChildDoc)⟩)
          (clickNewFolderAt [0]) Memory.same false 0
          (init (answering ⟨200, .ok (.json parentChildDoc)⟩)))).s)).items = 1 :=
  ⟨one_form_when_idle (answering ⟨200, .ok (.json parentChildDoc)⟩)
      (finalRun (draw (answering ⟨200, .ok (.json parentChildDoc)⟩)
        (clickNewFolderAt [0]) Memory.same false 0
        (init (answering ⟨200, .ok (.json parentChildDoc)⟩)))).s
      (UI.idle fun _ => true) Memory.same 0 (Reach.frame _ _ _ _ _ Reach.init)
      (fun _ => ⟨rfl, rfl, rfl, rfl, fun _ => rfl⟩) (by decide) (by decide),
    by decide, by decide⟩

/-! ## Decoding a valid document does not depend on what was there before -/

theorem validInt_iff (v : JVal) (h : validInt v = true) : ∃ n, v = .num n ∧ fitsInt n = true := by
  cases v <;> simp [validInt] at h
  exact ⟨_, rfl, h⟩

theorem validString_iff (v : JVal) (h : validString v = true) : ∃ s, v = .str s := by
  cases v <;> simp [validString] at h
  exact ⟨_, rfl⟩

theorem validBool_iff (v : JVal) (h : validBool v = true) : ∃ b, v = .bool b := by
  cases v <;> simp [validBool] at h
  exact ⟨_, rfl⟩

theorem decInt_valid (v : JVal) (h : validInt v = true) (old : Int)
    (e : Option UnmarshalTypeError) : decInt v old e = ((decInt v 0 none).1, e) := by
  obtain ⟨n, rfl, hn⟩ := validInt_iff v h
  simp [decInt, hn]

theorem decString_valid (v : JVal) (h : validString v = true) (old : String)
    (e : Option UnmarshalTypeError) : decString v old e = ((decString v "" none).1, e) := by
  obtain ⟨s, rfl⟩ := validString_iff v h
  simp [decString]

theorem decBool_valid (v : JVal) (h : validBool v = true) (old : Bool)
    (e : Option UnmarshalTypeError) : decBool v old e = ((decBool v false none).1, e) := by
  obtain ⟨b, rfl⟩ := validBool_iff v h
  simp [decBool]

theorem decTagFields_valid : ∀ (kvs : List (String × JVal)), validTagMembers kvs = true →
    ∀ (ex : String → Prop) (t t' : Tag) (e e' : Option UnmarshalTypeError), agreeTag ex t t' →
      (decTagFields kvs t e).2 = e ∧
        agreeTag (fun k => ex k ∧ k ∉ keysOf kvs) (decTagFields kvs t e).1
          (decTagFields kvs t' e').1
  | [], _, ex, t, t', e, e', ha => by
    refine ⟨rfl, ?_⟩
    unfold agreeTag at ha ⊢
    simp only [decTagFields, keysOf, List.map_nil, List.not_mem_nil, not_false_eq_true, and_true]
    exact ha
  | (k, v) :: rest, hv, ex, t, t', e, e', ha => by
    simp only [validTagMembers, Bool.and_eq_true] at hv
    obtain ⟨hk, hrest⟩ := hv
    have ih := decTagFields_valid rest hrest
    by_cases h1 : k = "id"
    · subst h1
      simp only [if_true] at hk
      have hd := decInt_valid v hk
      have key : keyIs "id" "id" = true := by decide
      simp only [decTagFields, key, if_true]
      rw [hd t.Id e, hd t'.Id e']
      obtain ⟨he, hag⟩ := ih (fun k => ex k ∧ k ≠ "id") { t with Id := (decInt v 0 none).1 }
        { t' with Id := (decInt v 0 none).1 } e e' ⟨Or.inr rfl, by
          rcases ha.2 with h | h
          · exact Or.inl ⟨h, by decide⟩
          · exact Or.inr h⟩
      refine ⟨he, ?_⟩
      unfold agreeTag at hag ⊢
      simp only [keysOf, List.map_cons, List.mem_cons, not_or] at hag ⊢
      tauto
    · by_cases h2 : k = "name"
      · subst h2
        simp only [h1, if_false, if_true] at hk
        have hd := decString_valid v hk
        have key1 : keyIs "name" "id" = false := by decide
        have key2 : keyIs "name" "name" = true := by decide
        simp only [decTagFields, key1, key2, if_true, if_false, Bool.false_eq_true]
        rw [hd t.Name e, hd t'.Name e']
        obtain ⟨he, hag⟩ := ih (fun k => ex k ∧ k ≠ "name")
          { t with Name := (decString v "" none).1 }
          { t' with Name := (decString v "" none).1 } e e' ⟨by
            rcases ha.1 with h | h
            · exact Or.inl ⟨h, by decide⟩
            · exact Or.inr h, Or.inr rfl⟩
        refine ⟨he, ?_⟩
        unfold agreeTag at hag ⊢
        simp only [keysOf, List.map_cons, List.mem_cons, not_or] at hag ⊢
        tauto
      · simp [h1, h2] at hk

theorem hasKeys_mem (names : List String) (kvs : List (String × JVal))
    (h : hasKeys names kvs = true) (name : String) (hn : name ∈ names) : name ∈ keysOf kvs := by
  simp only [hasKeys, Bool.and_eq_true, List.all_eq_true, decide_eq_true_eq] at h
  exact h.2 name hn

theorem decTagPtr_valid (v : JVal) (h : validTagPtr v = true) (old : Option Tag)
    (e : Option UnmarshalTypeError) : decTagPtr v old e = ((decTagPtr v none none).1, e) := by
  cases v with
  | null => rfl
  | obj kvs =>
    simp only [validTagPtr, Bool.and_eq_true] at h
    obtain ⟨hk, hm⟩ := h
    obtain ⟨he, hag⟩ := decTagFields_valid kvs hm (fun _ => True) (old.getD Tag.zero) Tag.zero e
      none ⟨Or.inl trivial, Or.inl trivial⟩
    have m1 := hasKeys_mem tagKeys kvs hk "id" (by decide)
    have m2 := hasKeys_mem tagKeys kvs hk "name" (by decide)
    unfold agreeTag at hag
    simp only [m1, m2, not_true_eq_false, and_false, false_or] at hag
    simp only [decTagPtr, Option.getD_none]
    rw [he]
    have : (decTagFields kvs (old.getD Tag.zero) e).1 = (decTagFields kvs Tag.zero none).1 := by
      cases h1 : (decTagFields kvs (old.getD Tag.zero) e).1
      cases h2 : (decTagFields kvs Tag.zero none).1
      rw [h1, h2] at hag
      simp only at hag
      rw [hag.1, hag.2]
    rw [this]
  | bool _ => simp [validTagPtr] at h
  | num _ => simp [validTagPtr] at h
  | frac _ => simp [validTagPtr] at h
  | str _ => simp [validTagPtr] at h
  | arr _ => simp [validTagPtr] at h

theorem decTagElems_valid : ∀ (xs : List JVal), xs.all validTagPtr = true →
    ∀ (old : List (Option Tag)) (e : Option UnmarshalTypeError),
      decTagElems xs old e = ((decTagElems xs [] none).1, e)
  | [], _, old, e => rfl
  | x :: rest, h, old, e => by
    simp only [List.all_cons, Bool.and_eq_true] at h
    have hx := decTagPtr_valid x h.1
    have ih := decTagElems_valid rest h.2
    have general : ∀ (o : List (Option Tag)) (e0 : Option UnmarshalTypeError),
        decTagElems (x :: rest) o e0 =
          ((decTagPtr x none none).1 :: (decTagElems rest [] none).1, e0) := by
      intro o e0
      simp only [decTagElems]
      rw [hx o.head?.join e0]
      simp only
      rw [ih o.tail e0]
    rw [general old e, general [] none]

theorem decTagSlice_valid (v : JVal) (h : validTagSlice v = true)
    (old : Option (List (Option Tag))) (e : Option UnmarshalTypeError) :
    decTagSlice v old e = ((decTagSlice v none none).1, e) := by
  cases v with
  | null => rfl
  | arr xs =>
    simp only [validTagSlice] at h
    simp only [decTagSlice, Option.getD_none]
    rw [decTagElems_valid xs h (old.getD []) e]
  | bool _ => simp [validTagSlice] at h
  | num _ => simp [validTagSlice] at h
  | frac _ => simp [validTagSlice] at h
  | str _ => simp [validTagSlice] at h
  | obj _ => simp [validTagSlice] at h

theorem agreeFolder_mono {ex ex' : String → Prop} {f f' : Folder} (h : ∀ k, ex k → ex' k)
    (ha : agreeFolder ex f f') : agreeFolder ex' f f' := by
  obtain ⟨a0, a1, a2, a3, a4, a5⟩ := ha
  exact ⟨a0.imp (h _) id, a1.imp (h _) id, a2.imp (h _) id, a3.imp (h _) id, a4.imp (h _) id,
    a5.imp (h _) id⟩

theorem agreeBookmark_mono {ex ex' : String → Prop} {b b' : Bookmark} (h : ∀ k, ex k → ex' k)
    (ha : agreeBookmark ex b b') : agreeBookmark ex' b b' := by
  obtain ⟨a0, a1, a2, a3, a4, a5, a6⟩ := ha
  exact ⟨a0.imp (h _) id, a1.imp (h _) id, a2.imp (h _) id, a3.imp (h _) id, a4.imp (h _) id,
    a5.imp (h _) id, a6.imp (h _) id⟩

mutual
theorem decFolderFields_valid : ∀ (kvs : List (String × JVal)), validFolderMembers kvs = true →
    ∀ (ex : String → Prop) (f f' : Folder) (e e' : Option UnmarshalTypeError), agreeFolder ex f f' →
      (decFolderFields kvs f e).2 = e ∧
        agreeFolder (fun k => ex k ∧ k ∉ keysOf kvs) (decFolderFields kvs f e).1
          (decFolderFields kvs f' e').1
  | [], _, ex, f, f', e, e', ha => by
    refine ⟨by rw [decFolderFields], ?_⟩
    unfold agreeFolder at ha ⊢
    rw [decFolderFields, decFolderFields]
    simp only [keysOf, List.map_nil, List.not_mem_nil, not_false_eq_true, and_true]
    exact ha
  | (k, v) :: rest, hv, ex, .mk i t p fs bs n, .mk i' t' p' fs' bs' n', e, e', ha => by
    rw [validFolderMembers, Bool.and_eq_true] at hv
    obtain ⟨hk, hrest⟩ := hv
    have ih := decFolderFields_valid rest hrest
    by_cases h0 : k = "id"
    · subst h0
      simp only [if_true, if_false, reduceCtorEq, String.reduceEq] at hk
      have hd := decInt_valid v hk
      have kt : keyIs "id" "id" = true := by decide
      have step : ∀ (i t p fs bs n : _) (e0 : Option UnmarshalTypeError),
          decFolderFields (("id", v) :: rest) (.mk i t p fs bs n) e0 =
            decFolderFields rest (.mk (decInt v 0 none).1 t p fs bs n) e0 := by
        intro i t p fs bs n e0
        rw [decFolderFields]
        simp only [kt, if_true, if_false, Bool.false_eq_true]
        rw [hd i e0]
      rw [step, step]
      obtain ⟨a0, a1, a2, a3, a4, a5⟩ := ha
      obtain ⟨he, hag⟩ := ih (fun k => ex k ∧ k ≠ "id")
        (.mk (decInt v 0 none).1 t p fs bs n)
        (.mk (decInt v 0 none).1 t' p' fs' bs' n') e e'
        ⟨Or.inr rfl, a1.imp (fun hx => ⟨hx, by decide⟩) id, a2.imp (fun hx => ⟨hx, by decide⟩) id, a3.imp (fun hx => ⟨hx, by decide⟩) id, a4.imp (fun hx => ⟨hx, by decide⟩) id, a5.imp (fun hx => ⟨hx, by decide⟩) id⟩
      refine ⟨he, agreeFolder_mono ?_ hag⟩
      intro k hx
      refine ⟨hx.1.1, ?_⟩
      simp only [keysOf, List.map_cons, List.mem_cons, not_or]
      exact ⟨hx.1.2, hx.2⟩
    · simp only [h0, if_false] at hk
      by_cases h1 : k = "title"
      · subst h1
        simp only [if_true, if_false, reduceCtorEq, String.reduceEq] at hk
        have hd := decString_valid v hk
        have kf0 : keyIs "title" "id" = false := by decide
        have kt : keyIs "title" "title" = true := by decide
        have step : ∀ (i t p fs bs n : _) (e0 : Option UnmarshalTypeError),
            decFolderFields (("title", v) :: rest) (.mk i t p fs bs n) e0 =
              decFolderFields rest (.mk i (decString v "" none).1 p fs bs n) e0 := by
          intro i t p fs bs n e0
          rw [decFolderFields]
          simp only [kf0, kt, if_true, if_false, Bool.false_eq_true]
          rw [hd t e0]
        rw [step, step]
        obtain ⟨a0, a1, a2, a3, a4, a5⟩ := ha
        obtain ⟨he, hag⟩ := ih (fun k => ex k ∧ k ≠ "title")
          (.mk i (decString v "" none).1 p fs bs n)
          (.mk i' (decString v "" none).1 p' fs' bs' n') e e'
          ⟨a0.imp (fun hx => ⟨hx, by decide⟩) id, Or.inr rfl, a2.imp (fun hx => ⟨hx, by decide⟩) id, a3.imp (fun hx => ⟨hx, by decide⟩) id, a4.imp (fun hx => ⟨hx, by decide⟩) id, a5.imp (fun hx => ⟨hx, by decide⟩) id⟩
        refine ⟨he, agreeFolder_mono ?_ hag⟩
        intro k hx
        refine ⟨hx.1.1, ?_⟩
        simp only [keysOf, List.map_cons, List.mem_cons, not_or]
        exact ⟨hx.1.2, hx.2⟩
      · simp only [h1, if_false] at hk
        by_cases h2 : k = "parent"
        · subst h2
          simp only [if_true, if_false, reduceCtorEq, String.reduceEq] at hk
          have hd := decFolderPtr_valid v hk
          have kf0 : keyIs "parent" "id" = false := by decide
          have kf1 : keyIs "parent" "title" = false := by decide
          have kt : keyIs "parent" "parent" = true := by decide
          have step : ∀ (i t p fs bs n : _) (e0 : Option UnmarshalTypeError),
              decFolderFields (("parent", v) :: rest) (.mk i t p fs bs n) e0 =
                decFolderFields rest (.mk i t (decFolderPtr v none none).1 fs bs n) e0 := by
            intro i t p fs bs n e0
            rw [decFolderFields]
            simp only [kf0, kf1, kt, if_true, if_false, Bool.false_eq_true]
            rw [hd p e0]
          rw [step, step]
          obtain ⟨a0, a1, a2, a3, a4, a5⟩ := ha
          obtain ⟨he, hag⟩ := ih (fun k => ex k ∧ k ≠ "parent")
            (.mk i t (decFolderPtr v none none).1 fs bs n)
            (.mk i' t' (decFolderPtr v none none).1 fs' bs' n') e e'
            ⟨a0.imp (fun hx => ⟨hx, by decide⟩) id, a1.imp (fun hx => ⟨hx, by decide⟩) id, Or.inr rfl, a3.imp (fun hx => ⟨hx, by decide⟩) id, a4.imp (fun hx => ⟨hx, by decide⟩) id, a5.imp (fun hx => ⟨hx, by decide⟩) id⟩
          refine ⟨he, agreeFolder_mono ?_ hag⟩
          intro k hx
          refine ⟨hx.1.1, ?_⟩
          simp only [keysOf, List.map_cons, List.mem_cons, not_or]
          exact ⟨hx.1.2, hx.2⟩
        · simp only [h2, if_false] at hk
          by_cases h3 : k = "folders"
          · subst h3
            simp only [if_true, if_false, reduceCtorEq, String.reduceEq] at hk
            have hd := decFolderSlice_valid v hk
            have kf0 : keyIs "folders" "id" = false := by decide
            have kf1 : keyIs "folders" "title" = false := by decide
            have kf2 : keyIs "folders" "parent" = false := by decide
            have kt : keyIs "folders" "folders" = true := by decide
            have step : ∀ (i t p fs bs n : _) (e0 : Option UnmarshalTypeError),
                decFolderFields (("folders", v) :: rest) (.mk i t p fs bs n) e0 =
                  decFolderFields rest (.mk i t p (decFolderSlice v none none).1 bs n) e0 := by
              intro i t p fs bs n e0
              rw [decFolderFields]
              simp only [kf0, kf1, kf2, kt, if_true, if_false, Bool.false_eq_true]
              rw [hd fs e0]
            rw [step, step]
            obtain ⟨a0, a1, a2, a3, a4, a5⟩ := ha
            obtain ⟨he, hag⟩ := ih (fun k => ex k ∧ k ≠ "folders")
              (.mk i t p (decFolderSlice v none none).1 bs n)
              (.mk i' t' p' (decFolderSlice v none none).1 bs' n') e e'
              ⟨a0.imp (fun hx => ⟨hx, by decide⟩) id, a1.imp (fun hx => ⟨hx, by decide⟩) id, a2.imp (fun hx => ⟨hx, by decide⟩) id, Or.inr rfl, a4.imp (fun hx => ⟨hx, by decide⟩) id, a5.imp (fun hx => ⟨hx, by decide⟩) id⟩
            refine ⟨he, agreeFolder_mono ?_ hag⟩
            intro k hx
            refine ⟨hx.1.1, ?_⟩
            simp only [keysOf, List.map_cons, List.mem_cons, not_or]
            exact ⟨hx.1.2, hx.2⟩
          · simp only [h3, if_false] at hk
            by_cases h4 : k = "bookmarks"
            · subst h4
              simp only [if_true, if_false, reduceCtorEq, String.reduceEq] at hk
              have hd := decBookmarkSlice_valid v hk
              have kf0 : keyIs "bookmarks" "id" = false := by decide
              have kf1 : keyIs "bookmarks" "title" = false := by decide
              have kf2 : keyIs "bookmarks" "parent" = false := by decide
              have kf3 : keyIs "bookmarks" "folders" = false := by decide
              have kt : keyIs "bookmarks" "bookmarks" = true := by decide
              have step : ∀ (i t p fs bs n : _) (e0 : Option UnmarshalTypeError),
                  decFolderFields (("bookmarks", v) :: rest) (.mk i t p fs bs n) e0 =
                    decFolderFields rest (.mk i t p fs (decBookmarkSlice v none none).1 n) e0 := by
                intro i t p fs bs n e0
                rw [decFolderFields]
                simp only [kf0, kf1, kf2, kf3, kt, if_true, if_false, Bool.false_eq_true]
                rw [hd bs e0]
              rw [step, step]
              obtain ⟨a0, a1, a2, a3, a4, a5⟩ := ha
              obtain ⟨he, hag⟩ := ih (fun k => ex k ∧ k ≠ "bookmarks")
                (.mk i t p fs (decBookmarkSlice v none none).1 n)
                (.mk i' t' p' fs' (decBookmarkSlice v none none).1 n') e e'
                ⟨a0.imp (fun hx => ⟨hx, by decide⟩) id, a1.imp (fun hx => ⟨hx, by decide⟩) id, a2.imp (fun hx => ⟨hx, by decide⟩) id, a3.imp (fun hx => ⟨hx, by decide⟩) id, Or.inr rfl, a5.imp (fun hx => ⟨hx, by decide⟩) id⟩
              refine ⟨he, agreeFolder_mono ?_ hag⟩
              intro k hx
              refine ⟨hx.1.1, ?_⟩
              simp only [keysOf, List.map_cons, List.mem_cons, not_or]
              exact ⟨hx.1.2, hx.2⟩
            · simp only [h4, if_false] at hk
              by_cases h5 : k = "nbchildrenfolders"
              · subst h5
                simp only [if_true, if_false, reduceCtorEq, String.reduceEq] at hk
                have hd := decInt_valid v hk
                have kf0 : keyIs "nbchildrenfolders" "id" = false := by decide
                have kf1 : keyIs "nbchildrenfolders" "title" = false := by decide
                have kf2 : keyIs "nbchildrenfolders" "parent" = false := by decide
                have kf3 : keyIs "nbchildrenfolders" "folders" = false := by decide
                have kf4 : keyIs "nbchildrenfolders" "bookmarks" = false := by decide
                have kt : keyIs "nbchildrenfolders" "nbchildrenfolders" = true := by decide
                have step : ∀ (i t p fs bs n : _) (e0 : Option UnmarshalTypeError),
                    decFolderFields (("nbchildrenfolders", v) :: rest) (.mk i t p fs bs n) e0 =
                      decFolderFields rest (.mk i t p fs bs (decInt v 0 none).1) e0 := by
                  intro i t p fs bs n e0
                  rw [decFolderFields]
                  simp only [kf0, kf1, kf2, kf3, kf4, kt, if_true, if_false, Bool.false_eq_true]
                  rw [hd n e0]
                rw [step, step]
                obtain ⟨a0, a1, a2, a3, a4, a5⟩ := ha
                obtain ⟨he, hag⟩ := ih (fun k => ex k ∧ k ≠ "nbchildrenfolders")
                  (.mk i t p fs bs (decInt v 0 none).1)
                  (.mk i' t' p' fs' bs' (decInt v 0 none).1) e e'
                  ⟨a0.imp (fun hx => ⟨hx, by decide⟩) id, a1.imp (fun hx => ⟨hx, by decide⟩) id, a2.imp (fun hx => ⟨hx, by decide⟩) id, a3.imp (fun hx => ⟨hx, by decide⟩) id, a4.imp (fun hx => ⟨hx, by decide⟩) id, Or.inr rfl⟩
                refine ⟨he, agreeFolder_mono ?_ hag⟩
                intro k hx
                refine ⟨hx.1.1, ?_⟩
                simp only [keysOf, List.map_cons, List.mem_cons, not_or]
                exact ⟨hx.1.2, hx.2⟩
              · simp only [h5, if_false] at hk
                exact absurd hk (by decide)
theorem decFolderPtr_valid : ∀ (v : JVal), validFolderPtr v = true →
    ∀ (old : Option Folder) (e : Option UnmarshalTypeError),
      decFolderPtr v old e = ((decFolderPtr v none none).1, e)
  | .null, _, old, e => by rw [decFolderPtr, decFolderPtr]
  | .obj kvs, h, old, e => by
    rw [validFolderPtr, Bool.and_eq_true] at h
    obtain ⟨hk, hm⟩ := h
    obtain ⟨he, hag⟩ := decFolderFields_valid kvs hm (fun _ => True) (old.getD Folder.zero) Folder.zero e
      none ⟨Or.inl trivial, Or.inl trivial, Or.inl trivial, Or.inl trivial, Or.inl trivial, Or.inl trivial⟩
    have m0 := hasKeys_mem folderKeys kvs hk "id" (by decide)
    have m1 := hasKeys_mem folderKeys kvs hk "title" (by decide)
    have m2 := hasKeys_mem folderKeys kvs hk "parent" (by decide)
    have m3 := hasKeys_mem folderKeys kvs hk "folders" (by decide)
    have m4 := hasKeys_mem folderKeys kvs hk "bookmarks" (by decide)
    have m5 := hasKeys_mem folderKeys kvs hk "nbchildrenfolders" (by decide)
    unfold agreeFolder at hag
    simp only [m0, m1, m2, m3, m4, m5, not_true_eq_false, and_false, false_or] at hag
    have key : (decFolderFields kvs (old.getD Folder.zero) e).1 = (decFolderFields kvs Folder.zero none).1 := by
      cases h1 : (decFolderFields kvs (old.getD Folder.zero) e).1
      cases h2 : (decFolderFields kvs Folder.zero none).1
      rw [h1, h2] at hag
      simp only [Folder.Id, Folder.Title, Folder.Parent, Folder.Folders, Folder.Bookmarks, Folder.NbChildrenFolders] at hag
      rw [hag.1, hag.2.1, hag.2.2.1, hag.2.2.2.1, hag.2.2.2.2.1, hag.2.2.2.2.2]
    rw [decFolderPtr, decFolderPtr]
    simp only [Option.getD_none]
    rw [he, key]
  | .bool _, h, _, _ => by simp [validFolderPtr] at h
  | .num _, h, _, _ => by simp [validFolderPtr] at h
  | .frac _, h, _, _ => by simp [validFolderPtr] at h
  | .str _, h, _, _ => by simp [validFolderPtr] at h
  | .arr _, h, _, _ => by simp [validFolderPtr] at h
theorem decFolderElems_valid : ∀ (xs : List JVal), validFolderElems xs = true →
    ∀ (old : List (Option Folder)) (e : Option UnmarshalTypeError),
      decFolderElems xs old e = ((decFolderElems xs [] none).1, e)
  | [], _, old, e => by rw [decFolderElems, decFolderElems]
  | x :: rest, h, old, e => by
    rw [validFolderElems, Bool.and_eq_true] at h
    have hx := decFolderPtr_valid x h.1
    have ih := decFolderElems_valid rest h.2
    have general : ∀ (o : List (Option Folder)) (e0 : Option UnmarshalTypeError),
        decFolderElems (x :: rest) o e0 =
          ((decFolderPtr x none none).1 :: (decFolderElems rest [] none).1, e0) := by
      intro o e0
      rw [decFolderElems]
      rw [hx o.head?.join e0]
      simp only
      rw [ih o.tail e0]
    rw [general old e, general [] none]
theorem decFolderSlice_valid : ∀ (v : JVal), validFolderSlice v = true →
    ∀ (old : Option (List (Option Folder))) (e : Option UnmarshalTypeError),
      decFolderSlice v old e = ((decFolderSlice v none none).1, e)
  | .null, _, old, e => by rw [decFolderSlice, decFolderSlice]
  | .arr xs, h, old, e => by
    rw [validFolderSlice] at h
    rw [decFolderSlice, decFolderSlice]
    simp only [Option.getD_none]
    rw [decFolderElems_valid xs h (old.getD []) e]
  | .bool _, h, _, _ => by simp [validFolderSlice] at h
  | .num _, h, _, _ => by simp [validFolderSlice] at h
  | .frac _, h, _, _ => by simp [validFolderSlice] at h
  | .str _, h, _, _ => by simp [validFolderSlice] at h
  | .obj _, h, _, _ => by simp [validFolderSlice] at h
theorem decBookmarkFields_valid : ∀ (kvs : List (String × JVal)), validBookmarkMembers kvs = true →
    ∀ (ex : String → Prop) (f f' : Bookmark) (e e' : Option UnmarshalTypeError), agreeBookmark ex f f' →
      (decBookmarkFields kvs f e).2 = e ∧
        agreeBookmark (fun k => ex k ∧ k ∉ keysOf kvs) (decBookmarkFields kvs f e).1
          (decBookmarkFields kvs f' e').1
  | [], _, ex, f, f', e, e', ha => by
    refine ⟨by rw [decBookmarkFields], ?_⟩
    unfold agreeBookmark at ha ⊢
    rw [decBookmarkFields, decBookmarkFields]
    simp only [keysOf, List.map_nil, List.not_mem_nil, not_false_eq_true, and_true]
    exact ha
  | (k, v) :: rest, hv, ex, .mk i t u fav st fo tags, .mk i' t' u' fav' st' fo' tags', e, e', ha => by
    rw [validBookmarkMembers, Bool.and_eq_true] at hv
    obtain ⟨hk, hrest⟩ := hv
    have ih := decBookmarkFields_valid rest hrest
    by_cases h0 : k = "id"
    · subst h0
      simp only [if_true, if_false, reduceCtorEq, String.reduceEq] at hk
      have hd := decInt_valid v hk
      have kt : keyIs "id" "id" = true := by decide
      have step : ∀ (i t u fav st fo tags : _) (e0 : Option UnmarshalTypeError),
          decBookmarkFields (("id", v) :: rest) (.mk i t u fav st fo tags) e0 =
            decBookmarkFields rest (.mk (decInt v 0 none).1 t u fav st fo tags) e0 := by
        intro i t u fav st fo tags e0
        rw [decBookmarkFields]
        simp only [kt, if_true, if_false, Bool.false_eq_true]
        rw [hd i e0]
      rw [step, step]
      obtain ⟨a0, a1, a2, a3, a4, a5, a6⟩ := ha
      obtain ⟨he, hag⟩ := ih (fun k => ex k ∧ k ≠ "id")
        (.mk (decInt v 0 none).1 t u fav st fo tags)
        (.mk (decInt v 0 none).1 t' u' fav' st' fo' tags') e e'
        ⟨Or.inr rfl, a1.imp (fun hx => ⟨hx, by decide⟩) id, a2.imp (fun hx => ⟨hx, by decide⟩) id, a3.imp (fun hx => ⟨hx, by decide⟩) id, a4.imp (fun hx => ⟨hx, by decide⟩) id, a5.imp (fun hx => ⟨hx, by decide⟩) id, a6.imp (fun hx => ⟨hx, by decide⟩) id⟩
      refine ⟨he, agreeBookmark_mono ?_ hag⟩
      intro k hx
      refine ⟨hx.1.1, ?_⟩
      simp only [keysOf, List.map_cons, List.mem_cons, not_or]
      exact ⟨hx.1.2, hx.2⟩
    · simp only [h0, if_false] at hk
      by_cases h1 : k = "title"
      · subst h1
        simp only [if_true, if_false, reduceCtorEq, String.reduceEq] at hk
        have hd := decString_valid v hk
        have kf0 : keyIs "title" "id" = false := by decide
        have kt : keyIs "title" "title" = true := by decide
        have step : ∀ (i t u fav st fo tags : _) (e0 : Option UnmarshalTypeError),
            decBookmarkFields (("title", v) :: rest) (.mk i t u fav st fo tags) e0 =
              decBookmarkFields rest (.mk i (decString v "" none).1 u fav st fo tags) e0 := by
          intro i t u fav st fo tags e0
          rw [decBookmarkFields]
          simp only [kf0, kt, if_true, if_false, Bool.false_eq_true]
          rw [hd t e0]
        rw [step, step]
        obtain ⟨a0, a1, a2, a3, a4, a5, a6⟩ := ha
        obtain ⟨he, hag⟩ := ih (fun k => ex k ∧ k ≠ "title")
          (.mk i (decString v "" none).1 u fav st fo tags)
          (.mk i' (decString v "" none).1 u' fav' st' fo' tags') e e'
          ⟨a0.imp (fun hx => ⟨hx, by decide⟩) id, Or.inr rfl, a2.imp (fun hx => ⟨hx, by decide⟩) id, a3.imp (fun hx => ⟨hx, by decide⟩) id, a4.imp (fun hx => ⟨hx, by decide⟩) id, a5.imp (fun hx => ⟨hx, by decide⟩) id, a6.imp (fun hx => ⟨hx, by decide⟩) id⟩
        refine ⟨he, agreeBookmark_mono ?_ hag⟩
        intro k hx
        refine ⟨hx.1.1, ?_⟩
        simp only [keysOf, List.map_cons, List.mem_cons, not_or]
        exact ⟨hx.1.2, hx.2⟩
      · simp only [h1, if_false] at hk
        by_cases h2 : k = "url"
        · subst h2
          simp only [if_true, if_false, reduceCtorEq, String.reduceEq] at hk
          have hd := decString_valid v hk
          have kf0 : keyIs "url" "id" = false := by decide
          have kf1 : keyIs "url" "title" = false := by decide
          have kt : keyIs "url" "url" = true := by decide
          have step : ∀ (i t u fav st fo tags : _) (e0 : Option UnmarshalTypeError),
              decBookmarkFields (("url", v) :: rest) (.mk i t u fav st fo tags) e0 =
                decBookmarkFields rest (.mk i t (decString v "" none).1 fav st fo tags) e0 := by
            intro i t u fav st fo tags e0
            rw [decBookmarkFields]
            simp only [kf0, kf1, kt, if_true, if_false, Bool.false_eq_true]
            rw [hd u e0]
          rw [step, step]
          obtain ⟨a0, a1, a2, a3, a4, a5, a6⟩ := ha
          obtain ⟨he, hag⟩ := ih (fun k => ex k ∧ k ≠ "url")
            (.mk i t (decString v "" none).1 fav st fo tags)
            (.mk i' t' (decString v "" none).1 fav' st' fo' tags') e e'
            ⟨a0.imp (fun hx => ⟨hx, by decide⟩) id, a1.imp (fun hx => ⟨hx, by decide⟩) id, Or.inr rfl, a3.imp (fun hx => ⟨hx, by decide⟩) id, a4.imp (fun hx => ⟨hx, by decide⟩) id, a5.imp (fun hx => ⟨hx, by decide⟩) id, a6.imp (fun hx => ⟨hx, by decide⟩) id⟩
          refine ⟨he, agreeBookmark_mono ?_ hag⟩
          intro k hx
          refine ⟨hx.1.1, ?_⟩
          simp only [keysOf, List.map_cons, List.mem_cons, not_or]
          exact ⟨hx.1.2, hx.2⟩
        · simp only [h2, if_false] at hk
          by_cases h3 : k = "favicon"
          · subst h3
            simp only [if_true, if_false, reduceCtorEq, String.reduceEq] at hk
            have hd := decString_valid v hk
            have kf0 : keyIs "favicon" "id" = false := by decide
            have kf1 : keyIs "favicon" "title" = false := by decide
            have kf2 : keyIs "favicon" "url" = false := by decide
            have kt : keyIs "favicon" "favicon" = true := by decide
            have step : ∀ (i t u fav st fo tags : _) (e0 : Option UnmarshalTypeError),
                decBookmarkFields (("favicon", v) :: rest) (.mk i t u fav st fo tags) e0 =
                  decBookmarkFields rest (.mk i t u (decString v "" none).1 st fo tags) e0 := by
              intro i t u fav st fo tags e0
              rw [decBookmarkFields]
              simp only [kf0, kf1, kf2, kt, if_true, if_false, Bool.false_eq_true]
              rw [hd fav e0]
            rw [step, step]
            obtain ⟨a0, a1, a2, a3, a4, a5, a6⟩ := ha
            obtain ⟨he, hag⟩ := ih (fun k => ex k ∧ k ≠ "favicon")
              (.mk i t u (decString v "" none).1 st fo tags)
              (.mk i' t' u' (decString v "" none).1 st' fo' tags') e e'
              ⟨a0.imp (fun hx => ⟨hx, by decide⟩) id, a1.imp (fun hx => ⟨hx, by decide⟩) id, a2.imp (fun hx => ⟨hx, by decide⟩) id, Or.inr rfl, a4.imp (fun hx => ⟨hx, by decide⟩) id, a5.imp (fun hx => ⟨hx, by decide⟩) id, a6.imp (fun hx => ⟨hx, by decide⟩) id⟩
            refine ⟨he, agreeBookmark_mono ?_ hag⟩
            intro k hx
            refine ⟨hx.1.1, ?_⟩
            simp only [keysOf, List.map_cons, List.mem_cons, not_or]
            exact ⟨hx.1.2, hx.2⟩
          · simp only [h3, if_false] at hk
            by_cases h4 : k = "starred"
            · subst h4
              simp only [if_true, if_false, reduceCtorEq, String.reduceEq] at hk
              have hd := decBool_valid v hk
              have kf0 : keyIs "starred" "id" = false := by decide
              have kf1 : keyIs "starred" "title" = false := by decide
              have kf2 : keyIs "starred" "url" = false := by decide
              have kf3 : keyIs "starred" "favicon" = false := by decide
              have kt : keyIs "starred" "starred" = true := by decide
              have step : ∀ (i t u fav st fo tags : _) (e0 : Option UnmarshalTypeError),
                  decBookmarkFields (("starred", v) :: rest) (.mk i t u fav st fo tags) e0 =
                    decBookmarkFields rest (.mk i t u fav (decBool v false none).1 fo tags) e0 := by
                intro i t u fav st fo tags e0
                rw [decBookmarkFields]
                simp only [kf0, kf1, kf2, kf3, kt, if_true, if_false, Bool.false_eq_true]
                rw [hd st e0]
              rw [step, step]
              obtain ⟨a0, a1, a2, a3, a4, a5, a6⟩ := ha
              obtain ⟨he, hag⟩ := ih (fun k => ex k ∧ k ≠ "starred")
                (.mk i t u fav (decBool v false none).1 fo tags)
                (.mk i' t' u' fav' (decBool v false none).1 fo' tags') e e'
                ⟨a0.imp (fun hx => ⟨hx, by decide⟩) id, a1.imp (fun hx => ⟨hx, by decide⟩) id, a2.imp (fun hx => ⟨hx, by decide⟩) id, a3.imp (fun hx => ⟨hx, by decide⟩) id, Or.inr rfl, a5.imp (fun hx => ⟨hx, by decide⟩) id, a6.imp (fun hx => ⟨hx, by decide⟩) id⟩
              refine ⟨he, agreeBookmark_mono ?_ hag⟩
              intro k hx
              refine ⟨hx.1.1, ?_⟩
              simp only [keysOf, List.map_cons, List.mem_cons, not_or]
              exact ⟨hx.1.2, hx.2⟩
            · simp only [h4, if_false] at hk
              by_cases h5 : k = "folder"
              · subst h5
                simp only [if_true, if_false, reduceCtorEq, String.reduceEq] at hk
                have hd := decFolderPtr_valid v hk
                have kf0 : keyIs "folder" "id" = false := by decide
                have kf1 : keyIs "folder" "title" = false := by decide
                have kf2 : keyIs "folder" "url" = false := by decide
                have kf3 : keyIs "folder" "favicon" = false := by decide
                have kf4 : keyIs "folder" "starred" = false := by decide
                have kt : keyIs "folder" "folder" = true := by decide
                have step : ∀ (i t u fav st fo tags : _) (e0 : Option UnmarshalTypeError),
                    decBookmarkFields (("folder", v) :: rest) (.mk i t u fav st fo tags) e0 =
                      decBookmarkFields rest (.mk i t u fav st (decFolderPtr v none none).1 tags) e0 := by
                  intro i t u fav st fo tags e0
                  rw [decBookmarkFields]
                  simp only [kf0, kf1, kf2, kf3, kf4, kt, if_true, if_false, Bool.false_eq_true]
                  rw [hd fo e0]
                rw [step, step]
                obtain ⟨a0, a1, a2, a3, a4, a5, a6⟩ := ha
                obtain ⟨he, hag⟩ := ih (fun k => ex k ∧ k ≠ "folder")
                  (.mk i t u fav st (decFolderPtr v none none).1 tags)
                  (.mk i' t' u' fav' st' (decFolderPtr v none none).1 tags') e e'
                  ⟨a0.imp (fun hx => ⟨hx, by decide⟩) id, a1.imp (fun hx => ⟨hx, by decide⟩) id, a2.imp (fun hx => ⟨hx, by decide⟩) id, a3.imp (fun hx => ⟨hx, by decide⟩) id, a4.imp (fun hx => ⟨hx, by decide⟩) id, Or.inr rfl, a6.imp (fun hx => ⟨hx, by decide⟩) id⟩
                refine ⟨he, agreeBookmark_mono ?_ hag⟩
                intro k hx
                refine ⟨hx.1.1, ?_⟩
                simp only [keysOf, List.map_cons, List.mem_cons, not_or]
                exact ⟨hx.1.2, hx.2⟩
              · simp only [h5, if_false] at hk
                by_cases h6 : k = "tags"
                · subst h6
                  simp only [if_true, if_false, reduceCtorEq, String.reduceEq] at hk
                  have hd := decTagSlice_valid v hk
                  have kf0 : keyIs "tags" "id" = false := by decide
                  have kf1 : keyIs "tags" "title" = false := by decide
                  have kf2 : keyIs "tags" "url" = false := by decide
                  have kf3 : keyIs "tags" "favicon" = false := by decide
                  have kf4 : keyIs "tags" "starred" = false := by decide
                  have kf5 : keyIs "tags" "folder" = false := by decide
                  have kt : keyIs "tags" "tags" = true := by decide
                  have step : ∀ (i t u fav st fo tags : _) (e0 : Option UnmarshalTypeError),
                      decBookmarkFields (("tags", v) :: rest) (.mk i t u fav st fo tags) e0 =
                        decBookmarkFields rest (.mk i t u fav st fo (decTagSlice v none none).1) e0 := by
                    intro i t u fav st fo tags e0
                    rw [decBookmarkFields]
                    simp only [kf0, kf1, kf2, kf3, kf4, kf5, kt, if_true, if_false, Bool.false_eq_true]
                    rw [hd tags e0]
                  rw [step, step]
                  obtain ⟨a0, a1, a2, a3, a4, a5, a6⟩ := ha
                  obtain ⟨he, hag⟩ := ih (fun k => ex k ∧ k ≠ "tags")
                    (.mk i t u fav st fo (decTagSlice v none none).1)
                    (.mk i' t' u' fav' st' fo' (decTagSlice v none none).1) e e'
                    ⟨a0.imp (fun hx => ⟨hx, by decide⟩) id, a1.imp (fun hx => ⟨hx, by decide⟩) id, a2.imp (fun hx => ⟨hx, by decide⟩) id, a3.imp (fun hx => ⟨hx, by decide⟩) id, a4.imp (fun hx => ⟨hx, by decide⟩) id, a5.imp (fun hx => ⟨hx, by decide⟩) id, Or.inr rfl⟩
                  refine ⟨he, agreeBookmark_mono ?_ hag⟩
                  intro k hx
                  refine ⟨hx.1.1, ?_⟩
                  simp only [keysOf, List.map_cons, List.mem_cons, not_or]
                  exact ⟨hx.1.2, hx.2⟩
                · simp only [h6, if_false] at hk
                  exact absurd hk (by decide)
theorem decBookmarkPtr_valid : ∀ (v : JVal), validBookmarkPtr v = true →
    ∀ (old : Option Bookmark) (e : Option UnmarshalTypeError),
      decBookmarkPtr v old e = ((decBookmarkPtr v none none).1, e)
  | .null, _, old, e => by rw [decBookmarkPtr, decBookmarkPtr]
  | .obj kvs, h, old, e => by
    rw [validBookmarkPtr, Bool.and_eq_true] at h
    obtain ⟨hk, hm⟩ := h
    obtain ⟨he, hag⟩ := decBookmarkFields_valid kvs hm (fun _ => True) (old.getD Bookmark.zero) Bookmark.zero e
      none ⟨Or.inl trivial, Or.inl trivial, Or.inl trivial, Or.inl trivial, Or.inl trivial, Or.inl trivial, Or.inl trivial⟩
    have m0 := hasKeys_mem bookmarkKeys kvs hk "id" (by decide)
    have m1 := hasKeys_mem bookmarkKeys kvs hk "title" (by decide)
    have m2 := hasKeys_mem bookmarkKeys kvs hk "url" (by decide)
    have m3 := hasKeys_mem bookmarkKeys kvs hk "favicon" (by decide)
    have m4 := hasKeys_mem bookmarkKeys kvs hk "starred" (by decide)
    have m5 := hasKeys_mem bookmarkKeys kvs hk "folder" (by decide)
    have m6 := hasKeys_mem bookmarkKeys kvs hk "tags" (by decide)
    unfold agreeBookmark at hag
    simp only [m0, m1, m2, m3, m4, m5, m6, not_true_eq_false, and_false, false_or] at hag
    have key : (decBookmarkFields kvs (old.getD Bookmark.zero) e).1 = (decBookmarkFields kvs Bookmark.zero none).1 := by
      cases h1 : (decBookmarkFields kvs (old.getD Bookmark.zero) e).1
      cases h2 : (decBookmarkFields kvs Bookmark.zero none).1
      rw [h1, h2] at hag
      simp only [Bookmark.Id, Bookmark.Title, Bookmark.URL, Bookmark.Favicon, Bookmark.Starred, Bookmark.Folder, Bookmark.Tags] at hag
      rw [hag.1, hag.2.1, hag.2.2.1, hag.2.2.2.1, hag.2.2.2.2.1, hag.2.2.2.2.2.1, hag.2.2.2.2.2.2]
    rw [decBookmarkPtr, decBookmarkPtr]
    simp only [Option.getD_none]
    rw [he, key]
  | .bool _, h, _, _ => by simp [validBookmarkPtr] at h
  | .num _, h, _, _ => by simp [validBookmarkPtr] at h
  | .frac _, h, _, _ => by simp [validBookmarkPtr] at h
  | .str _, h, _, _ => by simp [validBookmarkPtr] at h
  | .arr _, h, _, _ => by simp [validBookmarkPtr] at h
theorem decBookmarkElems_valid : ∀ (xs : List JVal), validBookmarkElems xs = true →
    ∀ (old : List (Option Bookmark)) (e : Option UnmarshalTypeError),
      decBookmarkElems xs old e = ((decBookmarkElems xs [] none).1, e)
  | [], _, old, e => by rw [decBookmarkElems, decBookmarkElems]
  | x :: rest, h, old, e => by
    rw [validBookmarkElems, Bool.and_eq_true] at h
    have hx := decBookmarkPtr_valid x h.1
    have ih := decBookmarkElems_valid rest h.2
    have general : ∀ (o : List (Option Bookmark)) (e0 : Option UnmarshalTypeError),
        decBookmarkElems (x :: rest) o e0 =
          ((decBookmarkPtr x none none).1 :: (decBookmarkElems rest [] none).1, e0) := by
      intro o e0
      rw [decBookmarkElems]
      rw [hx o.head?.join e0]
      simp only
      rw [ih o.tail e0]
    rw [general old e, general [] none]
theorem decBookmarkSlice_valid : ∀ (v : JVal), validBookmarkSlice v = true →
    ∀ (old : Option (List (Option Bookmark))) (e : Option UnmarshalTypeError),
      decBookmarkSlice v old e = ((decBookmarkSlice v none none).1, e)
  | .null, _, old, e => by rw [decBookmarkSlice, decBookmarkSlice]
  | .arr xs, h, old, e => by
    rw [validBookmarkSlice] at h
    rw [decBookmarkSlice, decBookmarkSlice]
    simp only [Option.getD_none]
    rw [decBookmarkElems_valid xs h (old.getD []) e]
  | .bool _, h, _, _ => by simp [validBookmarkSlice] at h
  | .num _, h, _, _ => by simp [validBookmarkSlice] at h
  | .frac _, h, _, _ => by simp [validBookmarkSlice] at h
  | .str _, h, _, _ => by simp [validBookmarkSlice] at h
  | .obj _, h, _, _ => by simp [validBookmarkSlice] at h
end

/-! ## C2 -/

/-- Decoding a valid Folder payload gives the same tree whatever tree was there
before, and no error. -/
theorem decFolder_valid (v : JVal) (h : validFolder v = true) (old : Folder) :
    decFolder v old = ((decFolder v Folder.zero).1, none) := by
  cases v with
  | obj kvs =>
    have hp : validFolderPtr (.obj kvs) = true := by
      rw [validFolderPtr]
      simpa [validFolder] using h
    have h1 := decFolderPtr_valid (.obj kvs) hp (some old) none
    rw [decFolderPtr] at h1
    rw [decFolderPtr] at h1
    simp only [Option.getD_some, Option.getD_none, Prod.mk.injEq, Option.some.injEq] at h1
    simp only [decFolder]
    rw [Prod.ext_iff]
    exact ⟨h1.1, h1.2⟩
  | null => simp [validFolder] at h
  | bool _ => simp [validFolder] at h
  | num _ => simp [validFolder] at h
  | frac _ => simp [validFolder] at h
  | str _ => simp [validFolder] at h
  | arr _ => simp [validFolder] at h

/-- C2, refuted as stated: the body `{"id": 5}` is accepted by `json.Unmarshal`;
decoded over a tree whose title is "old" it leaves the title, while decoded into
a zero-valued `Folder` it gives the empty title. -/
theorem omitted_field_survives :
    (Unmarshal (.json partialDoc) (leaf 1 "old")).2 = none ∧
      (getRemoteBookmarks (answering ⟨200, .ok (.json partialDoc)⟩) "http://localhost:8081"
        (loaded (leaf 1 "old") "")).tree = leaf 5 "old" ∧
      (Unmarshal (.json partialDoc) Folder.zero).1 = leaf 5 "" ∧
      (getRemoteBookmarks (answering ⟨200, .ok (.json partialDoc)⟩) "http://localhost:8081"
        (loaded (leaf 1 "old") "")).tree ≠ (Unmarshal (.json partialDoc) Folder.zero).1 := by
  refine ⟨rfl, rfl, rfl, ?_⟩
  intro h
  have := congrArg Folder.Title h
  revert this
  decide

/-- C2, amended: when the response body is a valid Folder payload (every field
of every folder, bookmark and tag is given a value of its type), the call
succeeds in decoding and the tree afterwards is the `Folder` obtained by
decoding the body into a zero-valued `Folder`, whatever tree was loaded before;
the status line is left alone. -/
theorem fetch_replaces_tree (w : World) (url : String) (s : State) (resp : Response) (v : JVal)
    (h : w.urlError (getTreeRequest url s).URL = none)
    (hd : w.Do (s.trace ++ [Event.getRemoteBookmarks url]) (getTreeRequest url s) = .ok resp)
    (hr : resp.ReadAll = .ok (.json v)) (hv : validFolder v = true) :
    (getRemoteBookmarks w url s).tree = (Unmarshal (.json v) Folder.zero).1 ∧
      (Unmarshal (.json v) s.tree).2 = none ∧
      (getRemoteBookmarks w url s).errorMsg = s.errorMsg := by
  have key := getRemoteBookmarks_result w url s
  have hdec := decFolder_valid v hv s.tree
  have h2 : (decFolder v s.tree).2 = none := by rw [hdec]
  have h1 : (decFolder v s.tree).1 = (decFolder v Folder.zero).1 := by rw [hdec]
  simp only [h, hd, hr, h2] at key
  rw [Prod.ext_iff] at key
  simp only at key
  refine ⟨?_, ?_, key.2⟩
  · rw [key.1, h1]
    rfl
  · simp only [Unmarshal, h2, Option.map_none']

theorem fetch_replaces_tree_witness :
    (getRemoteBookmarks (answering ⟨200, .ok (.json samplePayload)⟩) "http://localhost:8081"
        (loaded twoLevel "")).tree = (Unmarshal (.json samplePayload) Folder.zero).1 ∧
      (Unmarshal (.json samplePayload) (loaded twoLevel "").tree).2 = none ∧
      (getRemoteBookmarks (answering ⟨200, .ok (.json samplePayload)⟩) "http://localhost:8081"
        (loaded twoLevel "")).errorMsg = (loaded twoLevel "").errorMsg :=
  fetch_replaces_tree (answering ⟨200, .ok (.json samplePayload)⟩) "http://localhost:8081"
    (loaded twoLevel "") ⟨200, .ok (.json samplePayload)⟩ samplePayload rfl rfl rfl (by decide)

/-! ## C7: decoding and serializing again -/

theorem marshalFolder_eq (f : Folder) : marshalFolder f = .obj (folderMembers f) := by
  obtain ⟨id, title, p, fs, bs, n⟩ := f
  conv => lhs; unfold marshalFolder
  cases p <;> cases fs <;> cases bs <;> rfl

theorem marshalBookmark_eq (b : Bookmark) : marshalBookmark b = .obj (bookmarkMembers b) := by
  obtain ⟨id, title, u, fav, st, fo, tags⟩ := b
  conv => lhs; unfold marshalBookmark
  cases fo <;> rfl

theorem marshalFolderList_cons (p : Option Folder) (rest : List (Option Folder)) :
    marshalFolderList (p :: rest) = marshalFolderPtr p :: marshalFolderList rest := by
  cases p <;> rw [marshalFolderList] <;> rfl

theorem marshalBookmarkList_cons (p : Option Bookmark) (rest : List (Option Bookmark)) :
    marshalBookmarkList (p :: rest) = marshalBookmarkPtr p :: marshalBookmarkList rest := by
  cases p <;> rw [marshalBookmarkList] <;> rfl

theorem jsonEq_int (v : JVal) (h : validInt v = true) :
    jsonEq v (JVal.num (decInt v 0 none).1) = true := by
  obtain ⟨n, rfl, hn⟩ := validInt_iff v h
  simp [decInt, hn, jsonEq]

theorem jsonEq_string (v : JVal) (h : validString v = true) :
    jsonEq v (JVal.str (decString v "" none).1) = true := by
  obtain ⟨s, rfl⟩ := validString_iff v h
  simp [decString, jsonEq]

theorem jsonEq_bool (v : JVal) (h : validBool v = true) :
    jsonEq v (JVal.bool (decBool v false none).1) = true := by
  obtain ⟨b, rfl⟩ := validBool_iff v h
  simp [decBool, jsonEq]

theorem hasKeys_nodup (names : List String) (kvs : List (String × JVal))
    (h : hasKeys names kvs = true) : (keysOf kvs).Nodup := by
  simp only [hasKeys, Bool.and_eq_true, decide_eq_true_eq] at h
  exact h.1.1

theorem hasKeys_length (names : List String) (kvs : List (String × JVal))
    (h : hasKeys names kvs = true) : kvs.length = names.length := by
  simp only [hasKeys, Bool.and_eq_true, beq_iff_eq] at h
  exact h.1.2

theorem folderMembers_length (f : Folder) : (folderMembers f).length = 6 := by
  cases f
  rfl

theorem bookmarkMembers_length (b : Bookmark) : (bookmarkMembers b).length = 7 := by
  cases b
  rfl

theorem decTagFields_cons_id (v : JVal) (rest : List (String × JVal)) (i : Int) (nm : String)
    (e : Option UnmarshalTypeError) :
    decTagFields (("id", v) :: rest) (Tag.mk i nm) e =
      decTagFields rest (Tag.mk (decInt v i e).1 nm) (decInt v i e).2 := by
  have kt : keyIs "id" "id" = true := by decide
  rw [decTagFields]
  simp only [kt, if_true, if_false, Bool.false_eq_true]

theorem lookup_tagMembers_id (k : String) (h : k ≠ "id") (nm : String)
    (x y : Int) :
    (tagMembers (Tag.mk x nm)).lookup k =
      (tagMembers (Tag.mk y nm)).lookup k := by
  have hb : (k == "id") = false := by simpa using h
  simp only [tagMembers, List.lookup, hb]

theorem decTagFields_cons_name (v : JVal) (rest : List (String × JVal)) (i : Int) (nm : String)
    (e : Option UnmarshalTypeError) :
    decTagFields (("name", v) :: rest) (Tag.mk i nm) e =
      decTagFields rest (Tag.mk i (decString v nm e).1) (decString v nm e).2 := by
  have kf0 : keyIs "name" "id" = false := by decide
  have kt : keyIs "name" "name" = true := by decide
  rw [decTagFields]
  simp only [kf0, kt, if_true, if_false, Bool.false_eq_true]

theorem lookup_tagMembers_name (k : String) (h : k ≠ "name") (i : Int)
    (x y : String) :
    (tagMembers (Tag.mk i x)).lookup k =
      (tagMembers (Tag.mk i y)).lookup k := by
  have hb : (k == "name") = false := by simpa using h
  simp only [tagMembers, List.lookup, hb]

theorem lookup_decTagFields : ∀ (rest : List (String × JVal)), validTagMembers rest = true →
    ∀ (k : String), k ∉ keysOf rest → ∀ (f : Tag) (e : Option UnmarshalTypeError),
      (tagMembers (decTagFields rest f e).1).lookup k = (tagMembers f).lookup k
  | [], _, k, _, f, e => by rw [decTagFields]
  | (k1, v1) :: rest, hv, k, hk, Tag.mk i nm, e => by
    rw [validTagMembers, Bool.and_eq_true] at hv
    obtain ⟨hk1, hrest⟩ := hv
    simp only [keysOf, List.map_cons, List.mem_cons, not_or] at hk
    have ih := lookup_decTagFields rest hrest k hk.2
    by_cases h0 : k1 = "id"
    · subst h0
      rw [decTagFields_cons_id, ih]
      exact lookup_tagMembers_id k hk.1 ..
    · simp only [h0, if_false] at hk1
      by_cases h1 : k1 = "name"
      · subst h1
        rw [decTagFields_cons_name, ih]
        exact lookup_tagMembers_name k hk.1 ..
      · simp only [h1, if_false] at hk1
        exact absurd hk1 (by decide)

theorem jsonEqMembers_decTagFields : ∀ (kvs : List (String × JVal)), validTagMembers kvs = true →
    (keysOf kvs).Nodup → ∀ (f : Tag) (e : Option UnmarshalTypeError),
      jsonEqMembers kvs (tagMembers (decTagFields kvs f e).1) = true
  | [], _, _, f, e => by rw [jsonEqMembers]
  | (k, v) :: rest, hv, hnd, Tag.mk i nm, e => by
    rw [validTagMembers, Bool.and_eq_true] at hv
    obtain ⟨hk, hrest⟩ := hv
    simp only [keysOf, List.map_cons, List.nodup_cons] at hnd
    have ih := jsonEqMembers_decTagFields rest hrest hnd.2
    have hpre := lookup_decTagFields rest hrest k hnd.1
    by_cases h0 : k = "id"
    · subst h0
      simp only [if_true, if_false, reduceCtorEq, String.reduceEq] at hk
      have hd := decInt_valid v hk i e
      rw [decTagFields_cons_id, hd, jsonEqMembers, hpre]
      have hl : (tagMembers (Tag.mk (decInt v 0 none).1 nm)).lookup "id" =
          some (JVal.num (decInt v 0 none).1) := rfl
      rw [hl]
      simp only [Bool.and_eq_true]
      exact ⟨jsonEq_int v hk, ih _ _⟩
    · simp only [h0, if_false] at hk
      by_cases h1 : k = "name"
      · subst h1
        simp only [if_true, if_false, reduceCtorEq, String.reduceEq] at hk
        have hd := decString_valid v hk nm e
        rw [decTagFields_cons_name, hd, jsonEqMembers, hpre]
        have hl : (tagMembers (Tag.mk i (decString v "" none).1)).lookup "name" =
            some (JVal.str (decString v "" none).1) := rfl
        rw [hl]
        simp only [Bool.and_eq_true]
        exact ⟨jsonEq_string v hk, ih _ _⟩
      · simp only [h1, if_false] at hk
        exact absurd hk (by decide)

theorem jsonEq_decTagPtr (v : JVal) (h : validTagPtr v = true) :
    jsonEq v (marshalTagPtr (decTagPtr v none none).1) = true := by
  cases v with
  | null => rfl
  | obj kvs =>
    simp only [validTagPtr, Bool.and_eq_true] at h
    obtain ⟨hk, hm⟩ := h
    have hq := jsonEqMembers_decTagFields kvs hm (hasKeys_nodup _ _ hk) Tag.zero none
    have hlen := hasKeys_length _ _ hk
    simp only [decTagPtr, Option.getD_none, marshalTagPtr]
    rw [jsonEq]
    simp only [Bool.and_eq_true, decide_eq_true_eq, beq_iff_eq]
    exact ⟨⟨hasKeys_nodup _ _ hk, by rw [hlen]; rfl⟩, hq⟩
  | bool _ => simp [validTagPtr] at h
  | num _ => simp [validTagPtr] at h
  | frac _ => simp [validTagPtr] at h
  | str _ => simp [validTagPtr] at h
  | arr _ => simp [validTagPtr] at h

theorem jsonEq_decTagElems : ∀ (xs : List JVal), xs.all validTagPtr = true →
    jsonEqList xs ((decTagElems xs [] none).1.map marshalTagPtr) = true
  | [], _ => rfl
  | x :: rest, h => by
    simp only [List.all_cons, Bool.and_eq_true] at h
    have hx := jsonEq_decTagPtr x h.1
    have ih := jsonEq_decTagElems rest h.2
    have hd := decTagPtr_valid x h.1 none none
    simp only [decTagElems, List.head?_nil, List.tail_nil]
    have hj : (none : Option (Option Tag)).join = none := rfl
    rw [hj, hd]
    simp only [List.map_cons]
    rw [jsonEqList]
    simp only [Bool.and_eq_true]
    exact ⟨hx, ih⟩

theorem jsonEq_decTagSlice (v : JVal) (h : validTagSlice v = true) :
    jsonEq v (marshalTagSlice (decTagSlice v none none).1) = true := by
  cases v with
  | null => rfl
  | arr xs =>
    simp only [validTagSlice] at h
    simp only [decTagSlice, Option.getD_none, marshalTagSlice]
    rw [jsonEq]
    exact jsonEq_decTagElems xs h
  | bool _ => simp [validTagSlice] at h
  | num _ => simp [validTagSlice] at h
  | frac _ => simp [validTagSlice] at h
  | str _ => simp [validTagSlice] at h
  | obj _ => simp [validTagSlice] at h

theorem decFolderFields_cons_id (v : JVal) (rest : List (String × JVal)) (i : Int) (t : String) (p : Option Folder) (fs : Option (List (Option Folder))) (bs : Option (List (Option Bookmark))) (n : Int)
    (e : Option UnmarshalTypeError) :
    decFolderFields (("id", v) :: rest) (Folder.mk i t p fs bs n) e =
      decFolderFields rest (Folder.mk (decInt v i e).1 t p fs bs n) (decInt v i e).2 := by
  have kt : keyIs "id" "id" = true := by decide
  rw [decFolderFields]
  simp only [kt, if_true, if_false, Bool.false_eq_true]

theorem lookup_folderMembers_id (k : String) (h : k ≠ "id") (t : String) (p : Option Folder) (fs : Option (List (Option Folder))) (bs : Option (List (Option Bookmark))) (n : Int)
    (x y : Int) :
    (folderMembers (Folder.mk x t p fs bs n)).lookup k =
      (folderMembers (Folder.mk y t p fs bs n)).lookup k := by
  have hb : (k == "id") = false := by simpa using h
  simp only [folderMembers, List.lookup, hb]

theorem decFolderFields_cons_title (v : JVal) (rest : List (String × JVal)) (i : Int) (t : String) (p : Option Folder) (fs : Option (List (Option Folder))) (bs : Option (List (Option Bookmark))) (n : Int)
    (e : Option UnmarshalTypeError) :
    decFolderFields (("title", v) :: rest) (Folder.mk i t p fs bs n) e =
      decFolderFields rest (Folder.mk i (decString v t e).1 p fs bs n) (decString v t e).2 := by
  have kf0 : keyIs "title" "id" = false := by decide
  have kt : keyIs "title" "title" = true := by decide
  rw [decFolderFields]
  simp only [kf0, kt, if_true, if_false, Bool.false_eq_true]

theorem lookup_folderMembers_title (k : String) (h : k ≠ "title") (i : Int) (p : Option Folder) (fs : Option (List (Option Folder))) (bs : Option (List (Option Bookmark))) (n : Int)
    (x y : String) :
    (folderMembers (Folder.mk i x p fs bs n)).lookup k =
      (folderMembers (Folder.mk i y p fs bs n)).lookup k := by
  have hb : (k == "title") = false := by simpa using h
  simp only [folderMembers, List.lookup, hb]

theorem decFolderFields_cons_parent (v : JVal) (rest : List (String × JVal)) (i : Int) (t : String) (p : Option Folder) (fs : Option (List (Option Folder))) (bs : Option (List (Option Bookmark))) (n : Int)
    (e : Option UnmarshalTypeError) :
    decFolderFields (("parent", v) :: rest) (Folder.mk i t p fs bs n) e =
      decFolderFields rest (Folder.mk i t (decFolderPtr v p e).1 fs bs n) (decFolderPtr v p e).2 := by
  have kf0 : keyIs "parent" "id" = false := by decide
  have kf1 : keyIs "parent" "title" = false := by decide
  have kt : keyIs "parent" "parent" = true := by decide
  rw [decFolderFields]
  simp only [kf0, kf1, kt, if_true, if_false, Bool.false_eq_true]

theorem lookup_folderMembers_parent (k : String) (h : k ≠ "parent") (i : Int) (t : String) (fs : Option (List (Option Folder))) (bs : Option (List (Option Bookmark))) (n : Int)
    (x y : Option Folder) :
    (folderMembers (Folder.mk i t x fs bs n)).lookup k =
      (folderMembers (Folder.mk i t y fs bs n)).lookup k := by
  have hb : (k == "parent") = false := by simpa using h
  simp only [folderMembers, List.lookup, hb]

theorem decFolderFields_cons_folders (v : JVal) (rest : List (String × JVal)) (i : Int) (t : String) (p : Option Folder) (fs : Option (List (Option Folder))) (bs : Option (List (Option Bookmark))) (n : Int)
    (e : Option UnmarshalTypeError) :
    decFolderFields (("folders", v) :: rest) (Folder.mk i t p fs bs n) e =
      decFolderFields rest (Folder.mk i t p (decFolderSlice v fs e).1 bs n) (decFolderSlice v fs e).2 := by
  have kf0 : keyIs "folders" "id" = false := by decide
  have kf1 : keyIs "folders" "title" = false := by decide
  have kf2 : keyIs "folders" "parent" = false := by decide
  have kt : keyIs "folders" "folders" = true := by decide
  rw [decFolderFields]
  simp only [kf0, kf1, kf2, kt, if_true, if_false, Bool.false_eq_true]

theorem lookup_folderMembers_folders (k : String) (h : k ≠ "folders") (i : Int) (t : String) (p : Option Folder) (bs : Option (List (Option Bookmark))) (n : Int)
    (x y : Option (List (Option Folder))) :
    (folderMembers (Folder.mk i t p x bs n)).lookup k =
      (folderMembers (Folder.mk i t p y bs n)).lookup k := by
  have hb : (k == "folders") = false := by simpa using h
  simp only [folderMembers, List.lookup, hb]

theorem decFolderFields_cons_bookmarks (v : JVal) (rest : List (String × JVal)) (i : Int) (t : String) (p : Option Folder) (fs : Option (List (Option Folder))) (bs : Option (List (Option Bookmark))) (n : Int)
    (e : Option UnmarshalTypeError) :
    decFolderFields (("bookmarks", v) :: rest) (Folder.mk i t p fs bs n) e =
      decFolderFields rest (Folder.mk i t p fs (decBookmarkSlice v bs e).1 n) (decBookmarkSlice v bs e).2 := by
  have kf0 : keyIs "bookmarks" "id" = false := by decide
  have kf1 : keyIs "bookmarks" "title" = false := by decide
  have kf2 : keyIs "bookmarks" "parent" = false := by decide
  have kf3 : keyIs "bookmarks" "folders" = false := by decide
  have kt : keyIs "bookmarks" "bookmarks" = true := by decide
  rw [decFolderFields]
  simp only [kf0, kf1, kf2, kf3, kt, if_true, if_false, Bool.false_eq_true]

theorem lookup_folderMembers_bookmarks (k : String) (h : k ≠ "bookmarks") (i : Int) (t : String) (p : Option Folder) (fs : Option (List (Option Folder))) (n : Int)
    (x y : Option (List (Option Bookmark))) :
    (folderMembers (Folder.mk i t p fs x n)).lookup k =
      (folderMembers (Folder.mk i t p fs y n)).lookup k := by
  have hb : (k == "bookmarks") = false := by simpa using h
  simp only [folderMembers, List.lookup, hb]

theorem decFolderFields_cons_nbchildrenfolders (v : JVal) (rest : List (String × JVal)) (i : Int) (t : String) (p : Option Folder) (fs : Option (List (Option Folder))) (bs : Option (List (Option Bookmark))) (n : Int)
    (e : Option UnmarshalTypeError) :
    decFolderFields (("nbchildrenfolders", v) :: rest) (Folder.mk i t p fs bs n) e =
      decFolderFields rest (Folder.mk i t p fs bs (decInt v n e).1) (decInt v n e).2 := by
  have kf0 : keyIs "nbchildrenfolders" "id" = false := by decide
  have kf1 : keyIs "nbchildrenfolders" "title" = false := by decide
  have kf2 : keyIs "nbchildrenfolders" "parent" = false := by decide
  have kf3 : keyIs "nbchildrenfolders" "folders" = false := by decide
  have kf4 : keyIs "nbchildrenfolders" "bookmarks" = false := by decide
  have kt : keyIs "nbchildrenfolders" "nbchildrenfolders" = true := by decide
  rw [decFolderFields]
  simp only [kf0, kf1, kf2, kf3, kf4, kt, if_true, if_false, Bool.false_eq_true]

theorem lookup_folderMembers_nbchildrenfolders (k : String) (h : k ≠ "nbchildrenfolders") (i : Int) (t : String) (p : Option Folder) (fs : Option (List (Option Folder))) (bs : Option (List (Option Bookmark)))
    (x y : Int) :
    (folderMembers (Folder.mk i t p fs bs x)).lookup k =
      (folderMembers (Folder.mk i t p fs bs y)).lookup k := by
  have hb : (k == "nbchildrenfolders") = false := by simpa using h
  simp only [folderMembers, List.lookup, hb]

theorem lookup_decFolderFields : ∀ (rest : List (String × JVal)), validFolderMembers rest = true →
    ∀ (k : String), k ∉ keysOf rest → ∀ (f : Folder) (e : Option UnmarshalTypeError),
      (folderMembers (decFolderFields rest f e).1).lookup k = (folderMembers f).lookup k
  | [], _, k, _, f, e => by rw [decFolderFields]
  | (k1, v1) :: rest, hv, k, hk, Folder.mk i t p fs bs n, e => by
    rw [validFolderMembers, Bool.and_eq_true] at hv
    obtain ⟨hk1, hrest⟩ := hv
    simp only [keysOf, List.map_cons, List.mem_cons, not_or] at hk
    have ih := lookup_decFolderFields rest hrest k hk.2
    by_cases h0 : k1 = "id"
    · subst h0
      rw [decFolderFields_cons_id, ih]
      exact lookup_folderMembers_id k hk.1 ..
    · simp only [h0, if_false] at hk1
      by_cases h1 : k1 = "title"
      · subst h1
        rw [decFolderFields_cons_title, ih]
        exact lookup_folderMembers_title k hk.1 ..
      · simp only [h1, if_false] at hk1
        by_cases h2 : k1 = "parent"
        · subst h2
          rw [decFolderFields_cons_parent, ih]
          exact lookup_folderMembers_parent k hk.1 ..
        · simp only [h2, if_false] at hk1
          by_cases h3 : k1 = "folders"
          · subst h3
            rw [decFolderFields_cons_folders, ih]
            exact lookup_folderMembers_folders k hk.1 ..
          · simp only [h3, if_false] at hk1
            by_cases h4 : k1 = "bookmarks"
            · subst h4
              rw [decFolderFields_cons_bookmarks, ih]
              exact lookup_folderMembers_bookmarks k hk.1 ..
            · simp only [h4, if_false] at hk1
              by_cases h5 : k1 = "nbchildrenfolders"
              · subst h5
                rw [decFolderFields_cons_nbchildrenfolders, ih]
                exact lookup_folderMembers_nbchildrenfolders k hk.1 ..
              · simp only [h5, if_false] at hk1
                exact absurd hk1 (by decide)

theorem decBookmarkFields_cons_id (v : JVal) (rest : List (String × JVal)) (i : Int) (t : String) (u : String) (fav : String) (st : Bool) (fo : Option Folder) (tags : Option (List (Option Tag)))
    (e : Option UnmarshalTypeError) :
    decBookmarkFields (("id", v) :: rest) (Bookmark.mk i t u fav st fo tags) e =
      decBookmarkFields rest (Bookmark.mk (decInt v i e).1 t u fav st fo tags) (decInt v i e).2 := by
  have kt : keyIs "id" "id" = true := by decide
  rw [decBookmarkFields]
  simp only [kt, if_true, if_false, Bool.false_eq_true]

theorem lookup_bookmarkMembers_id (k : String) (h : k ≠ "id") (t : String) (u : String) (fav : String) (st : Bool) (fo : Option Folder) (tags : Option (List (Option Tag)))
    (x y : Int) :
    (bookmarkMembers (Bookmark.mk x t u fav st fo tags)).lookup k =
      (bookmarkMembers (Bookmark.mk y t u fav st fo tags)).lookup k := by
  have hb : (k == "id") = false := by simpa using h
  simp only [bookmarkMembers, List.lookup, hb]

theorem decBookmarkFields_cons_title (v : JVal) (rest : List (String × JVal)) (i : Int) (t : String) (u : String) (fav : String) (st : Bool) (fo : Option Folder) (tags : Option (List (Option Tag)))
    (e : Option UnmarshalTypeError) :
    decBookmarkFields (("title", v) :: rest) (Bookmark.mk i t u fav st fo tags) e =
      decBookmarkFields rest (Bookmark.mk i (decString v t e).1 u fav st fo tags) (decString v t e).2 := by
  have kf0 : keyIs "title" "id" = false := by decide
  have kt : keyIs "title" "title" = true := by decide
  rw [decBookmarkFields]
  simp only [kf0, kt, if_true, if_false, Bool.false_eq_true]

theorem lookup_bookmarkMembers_title (k : String) (h : k ≠ "title") (i : Int) (u : String) (fav : String) (st : Bool) (fo : Option Folder) (tags : Option (List (Option Tag)))
    (x y : String) :
    (bookmarkMembers (Bookmark.mk i x u fav st fo tags)).lookup k =
      (bookmarkMembers (Bookmark.mk i y u fav st fo tags)).lookup k := by
  have hb : (k == "title") = false := by simpa using h
  simp only [bookmarkMembers, List.lookup, hb]

theorem decBookmarkFields_cons_url (v : JVal) (rest : List (String × JVal)) (i : Int) (t : String) (u : String) (fav : String) (st : Bool) (fo : Option Folder) (tags : Option (List (Option Tag)))
    (e : Option UnmarshalTypeError) :
    decBookmarkFields (("url", v) :: rest) (Bookmark.mk i t u fav st fo tags) e =
      decBookmarkFields rest (Bookmark.mk i t (decString v u e).1 fav st fo tags) (decString v u e).2 := by
  have kf0 : keyIs "url" "id" = false := by decide
  have kf1 : keyIs "url" "title" = false := by decide
  have kt : keyIs "url" "url" = true := by decide
  rw [decBookmarkFields]
  simp only [kf0, kf1, kt, if_true, if_false, Bool.false_eq_true]

theorem lookup_bookmarkMembers_url (k : String) (h : k ≠ "url") (i : Int) (t : String) (fav : String) (st : Bool) (fo : Option Folder) (tags : Option (List (Option Tag)))
    (x y : String) :
    (bookmarkMembers (Bookmark.mk i t x fav st fo tags)).lookup k =
      (bookmarkMembers (Bookmark.mk i t y fav st fo tags)).lookup k := by
  have hb : (k == "url") = false := by simpa using h
  simp only [bookmarkMembers, List.lookup, hb]

theorem decBookmarkFields_cons_favicon (v : JVal) (rest : List (String × JVal)) (i : Int) (t : String) (u : String) (fav : String) (st : Bool) (fo : Option Folder) (tags : Option (List (Option Tag)))
    (e : Option UnmarshalTypeError) :
    decBookmarkFields (("favicon", v) :: rest) (Bookmark.mk i t u fav st fo tags) e =
      decBookmarkFields rest (Bookmark.mk i t u (decString v fav e).1 st fo tags) (decString v fav e).2 := by
  have kf0 : keyIs "favicon" "id" = false := by decide
  have kf1 : keyIs "favicon" "title" = false := by decide
  have kf2 : keyIs "favicon" "url" = false := by decide
  have kt : keyIs "favicon" "favicon" = true := by decide
  rw [decBookmarkFields]
  simp only [kf0, kf1, kf2, kt, if_true, if_false, Bool.false_eq_true]

theorem lookup_bookmarkMembers_favicon (k : String) (h : k ≠ "favicon") (i : Int) (t : String) (u : String) (st : Bool) (fo : Option Folder) (tags : Option (List (Option Tag)))
    (x y : String) :
    (bookmarkMembers (Bookmark.mk i t u x st fo tags)).lookup k =
      (bookmarkMembers (Bookmark.mk i t u y st fo tags)).lookup k := by
  have hb : (k == "favicon") = false := by simpa using h
  simp only [bookmarkMembers, List.lookup, hb]

theorem decBookmarkFields_cons_starred (v : JVal) (rest : List (String × JVal)) (i : Int) (t : String) (u : String) (fav : String) (st : Bool) (fo : Option Folder) (tags : Option (List (Option Tag)))
    (e : Option UnmarshalTypeError) :
    decBookmarkFields (("starred", v) :: rest) (Bookmark.mk i t u fav st fo tags) e =
      decBookmarkFields rest (Bookmark.mk i t u fav (decBool v st e).1 fo tags) (decBool v st e).2 := by
  have kf0 : keyIs "starred" "id" = false := by decide
  have kf1 : keyIs "starred" "title" = false := by decide
  have kf2 : keyIs "starred" "url" = false := by decide
  have kf3 : keyIs "starred" "favicon" = false := by decide
  have kt : keyIs "starred" "starred" = true := by decide
  rw [decBookmarkFields]
  simp only [kf0, kf1, kf2, kf3, kt, if_true, if_false, Bool.false_eq_true]

theorem lookup_bookmarkMembers_starred (k : String) (h : k ≠ "starred") (i : Int) (t : String) (u : String) (fav : String) (fo : Option Folder) (tags : Option (List (Option Tag)))
    (x y : Bool) :
    (bookmarkMembers (Bookmark.mk i t u fav x fo tags)).lookup k =
      (bookmarkMembers (Bookmark.mk i t u fav y fo tags)).lookup k := by
  have hb : (k == "starred") = false := by simpa using h
  simp only [bookmarkMembers, List.lookup, hb]

theorem decBookmarkFields_cons_folder (v : JVal) (rest : List (String × JVal)) (i : Int) (t : String) (u : String) (fav : String) (st : Bool) (fo : Option Folder) (tags : Option (List (Option Tag)))
    (e : Option UnmarshalTypeError) :
    decBookmarkFields (("folder", v) :: rest) (Bookmark.mk i t u fav st fo tags) e =
      decBookmarkFields rest (Bookmark.mk i t u fav st (decFolderPtr v fo e).1 tags) (decFolderPtr v fo e).2 := by
  have kf0 : keyIs "folder" "id" = false := by decide
  have kf1 : keyIs "folder" "title" = false := by decide
  have kf2 : keyIs "folder" "url" = false := by decide
  have kf3 : keyIs "folder" "favicon" = false := by decide
  have kf4 : keyIs "folder" "starred" = false := by decide
  have kt : keyIs "folder" "folder" = true := by decide
  rw [decBookmarkFields]
  simp only [kf0, kf1, kf2, kf3, kf4, kt, if_true, if_false, Bool.false_eq_true]

theorem lookup_bookmarkMembers_folder (k : String) (h : k ≠ "folder") (i : Int) (t : String) (u : String) (fav : String) (st : Bool) (tags : Option (List (Option Tag)))
    (x y : Option Folder) :
    (bookmarkMembers (Bookmark.mk i t u fav st x tags)).lookup k =
      (bookmarkMembers (Bookmark.mk i t u fav st y tags)).lookup k := by
  have hb : (k == "folder") = false := by simpa using h
  simp only [bookmarkMembers, List.lookup, hb]

theorem decBookmarkFields_cons_tags (v : JVal) (rest : List (String × JVal)) (i : Int) (t : String) (u : String) (fav : String) (st : Bool) (fo : Option Folder) (tags : Option (List (Option Tag)))
    (e : Option UnmarshalTypeError) :
    decBookmarkFields (("tags", v) :: rest) (Bookmark.mk i t u fav st fo tags) e =
      decBookmarkFields rest (Bookmark.mk i t u fav st fo (decTagSlice v tags e).1) (decTagSlice v tags e).2 := by
  have kf0 : keyIs "tags" "id" = false := by decide
  have kf1 : keyIs "tags" "title" = false := by decide
  have kf2 : keyIs "tags" "url" = false := by decide
  have kf3 : keyIs "tags" "favicon" = false := by decide
  have kf4 : keyIs "tags" "starred" = false := by decide
  have kf5 : keyIs "tags" "folder" = false := by decide
  have kt : keyIs "tags" "tags" = true := by decide
  rw [decBookmarkFields]
  simp only [kf0, kf1, kf2, kf3, kf4, kf5, kt, if_true, if_false, Bool.false_eq_true]

theorem lookup_bookmarkMembers_tags (k : String) (h : k ≠ "tags") (i : Int) (t : String) (u : String) (fav : String) (st : Bool) (fo : Option Folder)
    (x y : Option (List (Option Tag))) :
    (bookmarkMembers (Bookmark.mk i t u fav st fo x)).lookup k =
      (bookmarkMembers (Bookmark.mk i t u fav st fo y)).lookup k := by
  have hb : (k == "tags") = false := by simpa using h
  simp only [bookmarkMembers, List.lookup, hb]

theorem lookup_decBookmarkFields : ∀ (rest : List (String × JVal)), validBookmarkMembers rest = true →
    ∀ (k : String), k ∉ keysOf rest → ∀ (f : Bookmark) (e : Option UnmarshalTypeError),
      (bookmarkMembers (decBookmarkFields rest f e).1).lookup k = (bookmarkMembers f).lookup k
  | [], _, k, _, f, e => by rw [decBookmarkFields]
  | (k1, v1) :: rest, hv, k, hk, Bookmark.mk i t u fav st fo tags, e => by
    rw [validBookmarkMembers, Bool.and_eq_true] at hv
    obtain ⟨hk1, hrest⟩ := hv
    simp only [keysOf, List.map_cons, List.mem_cons, not_or] at hk
    have ih := lookup_decBookmarkFields rest hrest k hk.2
    by_cases h0 : k1 = "id"
    · subst h0
      rw [decBookmarkFields_cons_id, ih]
      exact lookup_bookmarkMembers_id k hk.1 ..
    · simp only [h0, if_false] at hk1
      by_cases h1 : k1 = "title"
      · subst h1
        rw [decBookmarkFields_cons_title, ih]
        exact lookup_bookmarkMembers_title k hk.1 ..
      · simp only [h1, if_false] at hk1
        by_cases h2 : k1 = "url"
        · subst h2
          rw [decBookmarkFields_cons_url, ih]
          exact lookup_bookmarkMembers_url k hk.1 ..
        · simp only [h2, if_false] at hk1
          by_cases h3 : k1 = "favicon"
          · subst h3
            rw [decBookmarkFields_cons_favicon, ih]
            exact lookup_bookmarkMembers_favicon k hk.1 ..
          · simp only [h3, if_false] at hk1
            by_cases h4 : k1 = "starred"
            · subst h4
              rw [decBookmarkFields_cons_starred, ih]
              exact lookup_bookmarkMembers_starred k hk.1 ..
            · simp only [h4, if_false] at hk1
              by_cases h5 : k1 = "folder"
              · subst h5
                rw [decBookmarkFields_cons_folder, ih]
                exact lookup_bookmarkMembers_folder k hk.1 ..
              · simp only [h5, if_false] at hk1
                by_cases h6 : k1 = "tags"
                · subst h6
                  rw [decBookmarkFields_cons_tags, ih]
                  exact lookup_bookmarkMembers_tags k hk.1 ..
                · simp only [h6, if_false] at hk1
                  exact absurd hk1 (by decide)

mutual
theorem jsonEqMembers_decFolderFields : ∀ (kvs : List (String × JVal)), validFolderMembers kvs = true →
    (keysOf kvs).Nodup → ∀ (f : Folder) (e : Option UnmarshalTypeError),
      jsonEqMembers kvs (folderMembers (decFolderFields kvs f e).1) = true
  | [], _, _, f, e => by rw [jsonEqMembers]
  | (k, v) :: rest, hv, hnd, Folder.mk i t p fs bs n, e => by
    rw [validFolderMembers, Bool.and_eq_true] at hv
    obtain ⟨hk, hrest⟩ := hv
    simp only [keysOf, List.map_cons, List.nodup_cons] at hnd
    have ih := jsonEqMembers_decFolderFields rest hrest hnd.2
    have hpre := lookup_decFolderFields rest hrest k hnd.1
    by_cases h0 : k = "id"
    · subst h0
      simp only [if_true, if_false, reduceCtorEq, String.reduceEq] at hk
      have hd := decInt_valid v hk i e
      rw [decFolderFields_cons_id, hd, jsonEqMembers, hpre]
      have hl : (folderMembers (Folder.mk (decInt v 0 none).1 t p fs bs n)).lookup "id" =
          some (JVal.num (decInt v 0 none).1) := rfl
      rw [hl]
      simp only [Bool.and_eq_true]
      exact ⟨jsonEq_int v hk, ih _ _⟩
    · simp only [h0, if_false] at hk
      by_cases h1 : k = "title"
      · subst h1
        simp only [if_true, if_false, reduceCtorEq, String.reduceEq] at hk
        have hd := decString_valid v hk t e
        rw [decFolderFields_cons_title, hd, jsonEqMembers, hpre]
        have hl : (folderMembers (Folder.mk i (decString v "" none).1 p fs bs n)).lookup "title" =
            some (JVal.str (decString v "" none).1) := rfl
        rw [hl]
        simp only [Bool.and_eq_true]
        exact ⟨jsonEq_string v hk, ih _ _⟩
      · simp only [h1, if_false] at hk
        by_cases h2 : k = "parent"
        · subst h2
          simp only [if_true, if_false, reduceCtorEq, String.reduceEq] at hk
          have hd := decFolderPtr_valid v hk p e
          rw [decFolderFields_cons_parent, hd, jsonEqMembers, hpre]
          have hl : (folderMembers (Folder.mk i t (decFolderPtr v none none).1 fs bs n)).lookup "parent" =
              some (marshalFolderPtr (decFolderPtr v none none).1) := rfl
          rw [hl]
          simp only [Bool.and_eq_true]
          exact ⟨jsonEq_decFolderPtr v hk, ih _ _⟩
        · simp only [h2, if_false] at hk
          by_cases h3 : k = "folders"
          · subst h3
            simp only [if_true, if_false, reduceCtorEq, String.reduceEq] at hk
            have hd := decFolderSlice_valid v hk fs e
            rw [decFolderFields_cons_folders, hd, jsonEqMembers, hpre]
            have hl : (folderMembers (Folder.mk i t p (decFolderSlice v none none).1 bs n)).lookup "folders" =
                some (marshalFolderSlice (decFolderSlice v none none).1) := rfl
            rw [hl]
            simp only [Bool.and_eq_true]
            exact ⟨jsonEq_decFolderSlice v hk, ih _ _⟩
          · simp only [h3, if_false] at hk
            by_cases h4 : k = "bookmarks"
            · subst h4
              simp only [if_true, if_false, reduceCtorEq, String.reduceEq] at hk
              have hd := decBookmarkSlice_valid v hk bs e
              rw [decFolderFields_cons_bookmarks, hd, jsonEqMembers, hpre]
              have hl : (folderMembers (Folder.mk i t p fs (decBookmarkSlice v none none).1 n)).lookup "bookmarks" =
                  some (marshalBookmarkSlice (decBookmarkSlice v none none).1) := rfl
              rw [hl]
              simp only [Bool.and_eq_true]
              exact ⟨jsonEq_decBookmarkSlice v hk, ih _ _⟩
            · simp only [h4, if_false] at hk
              by_cases h5 : k = "nbchildrenfolders"
              · subst h5
                simp only [if_true, if_false, reduceCtorEq, String.reduceEq] at hk
                have hd := decInt_valid v hk n e
                rw [decFolderFields_cons_nbchildrenfolders, hd, jsonEqMembers, hpre]
                have hl : (folderMembers (Folder.mk i t p fs bs (decInt v 0 none).1)).lookup "nbchildrenfolders" =
                    some (JVal.num (decInt v 0 none).1) := rfl
                rw [hl]
                simp only [Bool.and_eq_true]
                exact ⟨jsonEq_int v hk, ih _ _⟩
              · simp only [h5, if_false] at hk
                exact absurd hk (by decide)
theorem jsonEq_decFolderPtr : ∀ (v : JVal), validFolderPtr v = true →
    jsonEq v (marshalFolderPtr (decFolderPtr v none none).1) = true
  | .null, _ => by
    rw [decFolderPtr]
    rfl
  | .obj kvs, h => by
    rw [validFolderPtr, Bool.and_eq_true] at h
    obtain ⟨hk, hm⟩ := h
    have hq := jsonEqMembers_decFolderFields kvs hm (hasKeys_nodup _ _ hk) Folder.zero none
    have hlen := hasKeys_length _ _ hk
    rw [decFolderPtr]
    simp only [Option.getD_none, marshalFolderPtr, marshalFolder_eq]
    rw [jsonEq]
    simp only [Bool.and_eq_true, decide_eq_true_eq, beq_iff_eq]
    refine ⟨⟨hasKeys_nodup _ _ hk, ?_⟩, hq⟩
    rw [hlen, folderMembers_length]
    rfl
  | .bool _, h => by simp [validFolderPtr] at h
  | .num _, h => by simp [validFolderPtr] at h
  | .frac _, h => by simp [validFolderPtr] at h
  | .str _, h => by simp [validFolderPtr] at h
  | .arr _, h => by simp [validFolderPtr] at h
theorem jsonEq_decFolderElems : ∀ (xs : List JVal), validFolderElems xs = true →
    jsonEqList xs (marshalFolderList (decFolderElems xs [] none).1) = true
  | [], _ => by
    rw [decFolderElems]
    rfl
  | x :: rest, h => by
    rw [validFolderElems, Bool.and_eq_true] at h
    have hx := jsonEq_decFolderPtr x h.1
    have ih := jsonEq_decFolderElems rest h.2
    have hd := decFolderPtr_valid x h.1 none none
    rw [decFolderElems]
    simp only [List.head?_nil, List.tail_nil]
    have hj : (none : Option (Option Folder)).join = none := rfl
    rw [hj, hd]
    simp only
    rw [marshalFolderList_cons, jsonEqList]
    simp only [Bool.and_eq_true]
    exact ⟨hx, ih⟩
theorem jsonEq_decFolderSlice : ∀ (v : JVal), validFolderSlice v = true →
    jsonEq v (marshalFolderSlice (decFolderSlice v none none).1) = true
  | .null, _ => by
    rw [decFolderSlice]
    rfl
  | .arr xs, h => by
    rw [validFolderSlice] at h
    rw [decFolderSlice]
    simp only [Option.getD_none, marshalFolderSlice]
    rw [jsonEq]
    exact jsonEq_decFolderElems xs h
  | .bool _, h => by simp [validFolderSlice] at h
  | .num _, h => by simp [validFolderSlice] at h
  | .frac _, h => by simp [validFolderSlice] at h
  | .str _, h => by simp [validFolderSlice] at h
  | .obj _, h => by simp [validFolderSlice] at h
theorem jsonEqMembers_decBookmarkFields : ∀ (kvs : List (String × JVal)), validBookmarkMembers kvs = true →
    (keysOf kvs).Nodup → ∀ (f : Bookmark) (e : Option UnmarshalTypeError),
      jsonEqMembers kvs (bookmarkMembers (decBookmarkFields kvs f e).1) = true
  | [], _, _, f, e => by rw [jsonEqMembers]
  | (k, v) :: rest, hv, hnd, Bookmark.mk i t u fav st fo tags, e => by
    rw [validBookmarkMembers, Bool.and_eq_true] at hv
    obtain ⟨hk, hrest⟩ := hv
    simp only [keysOf, List.map_cons, List.nodup_cons] at hnd
    have ih := jsonEqMembers_decBookmarkFields rest hrest hnd.2
    have hpre := lookup_decBookmarkFields rest hrest k hnd.1
    by_cases h0 : k = "id"
    · subst h0
      simp only [if_true, if_false, reduceCtorEq, String.reduceEq] at hk
      have hd := decInt_valid v hk i e
      rw [decBookmarkFields_cons_id, hd, jsonEqMembers, hpre]
      have hl : (bookmarkMembers (Bookmark.mk (decInt v 0 none).1 t u fav st fo tags)).lookup "id" =
          some (JVal.num (decInt v 0 none).1) := rfl
      rw [hl]
      simp only [Bool.and_eq_true]
      exact ⟨jsonEq_int v hk, ih _ _⟩
    · simp only [h0, if_false] at hk
      by_cases h1 : k = "title"
      · subst h1
        simp only [if_true, if_false, reduceCtorEq, String.reduceEq] at hk
        have hd := decString_valid v hk t e
        rw [decBookmarkFields_cons_title, hd, jsonEqMembers, hpre]
        have hl : (bookmarkMembers (Bookmark.mk i (decString v "" none).1 u fav st fo tags)).lookup "title" =
            some (JVal.str (decString v "" none).1) := rfl
        rw [hl]
        simp only [Bool.and_eq_true]
        exact ⟨jsonEq_string v hk, ih _ _⟩
      · simp only [h1, if_false] at hk
        by_cases h2 : k = "url"
        · subst h2
          simp only [if_true, if_false, reduceCtorEq, String.reduceEq] at hk
          have hd := decString_valid v hk u e
          rw [decBookmarkFields_cons_url, hd, jsonEqMembers, hpre]
          have hl : (bookmarkMembers (Bookmark.mk i t (decString v "" none).1 fav st fo tags)).lookup "url" =
              some (JVal.str (decString v "" none).1) := rfl
          rw [hl]
          simp only [Bool.and_eq_true]
          exact ⟨jsonEq_string v hk, ih _ _⟩
        · simp only [h2, if_false] at hk
          by_cases h3 : k = "favicon"
          · subst h3
            simp only [if_true, if_false, reduceCtorEq, String.reduceEq] at hk
            have hd := decString_valid v hk fav e
            rw [decBookmarkFields_cons_favicon, hd, jsonEqMembers, hpre]
            have hl : (bookmarkMembers (Bookmark.mk i t u (decString v "" none).1 st fo tags)).lookup "favicon" =
                some (JVal.str (decString v "" none).1) := rfl
            rw [hl]
            simp only [Bool.and_eq_true]
            exact ⟨jsonEq_string v hk, ih _ _⟩
          · simp only [h3, if_false] at hk
            by_cases h4 : k = "starred"
            · subst h4
              simp only [if_true, if_false, reduceCtorEq, String.reduceEq] at hk
              have hd := decBool_valid v hk st e
              rw [decBookmarkFields_cons_starred, hd, jsonEqMembers, hpre]
              have hl : (bookmarkMembers (Bookmark.mk i t u fav (decBool v false none).1 fo tags)).lookup "starred" =
                  some (JVal.bool (decBool v false none).1) := rfl
              rw [hl]
              simp only [Bool.and_eq_true]
              exact ⟨jsonEq_bool v hk, ih _ _⟩
            · simp only [h4, if_false] at hk
              by_cases h5 : k = "folder"
              · subst h5
                simp only [if_true, if_false, reduceCtorEq, String.reduceEq] at hk
                have hd := decFolderPtr_valid v hk fo e
                rw [decBookmarkFields_cons_folder, hd, jsonEqMembers, hpre]
                have hl : (bookmarkMembers (Bookmark.mk i t u fav st (decFolderPtr v none none).1 tags)).lookup "folder" =
                    some (marshalFolderPtr (decFolderPtr v none none).1) := rfl
                rw [hl]
                simp only [Bool.and_eq_true]
                exact ⟨jsonEq_decFolderPtr v hk, ih _ _⟩
              · simp only [h5, if_false] at hk
                by_cases h6 : k = "tags"
                · subst h6
                  simp only [if_true, if_false, reduceCtorEq, String.reduceEq] at hk
                  have hd := decTagSlice_valid v hk tags e
                  rw [decBookmarkFields_cons_tags, hd, jsonEqMembers, hpre]
                  have hl : (bookmarkMembers (Bookmark.mk i t u fav st fo (decTagSlice v none none).1)).lookup "tags" =
                      some (marshalTagSlice (decTagSlice v none none).1) := rfl
                  rw [hl]
                  simp only [Bool.and_eq_true]
                  exact ⟨jsonEq_decTagSlice v hk, ih _ _⟩
                · simp only [h6, if_false] at hk
                  exact absurd hk (by decide)
theorem jsonEq_decBookmarkPtr : ∀ (v : JVal), validBookmarkPtr v = true →
    jsonEq v (marshalBookmarkPtr (decBookmarkPtr v none none).1) = true
  | .null, _ => by
    rw [decBookmarkPtr]
    rfl
  | .obj kvs, h => by
    rw [validBookmarkPtr, Bool.and_eq_true] at h
    obtain ⟨hk, hm⟩ := h
    have hq := jsonEqMembers_decBookmarkFields kvs hm (hasKeys_nodup _ _ hk) Bookmark.zero none
    have hlen := hasKeys_length _ _ hk
    rw [decBookmarkPtr]
    simp only [Option.getD_none, marshalBookmarkPtr, marshalBookmark_eq]
    rw [jsonEq]
    simp only [Bool.and_eq_true, decide_eq_true_eq, beq_iff_eq]
    refine ⟨⟨hasKeys_nodup _ _ hk, ?_⟩, hq⟩
    rw [hlen, bookmarkMembers_length]
    rfl
  | .bool _, h => by simp [validBookmarkPtr] at h
  | .num _, h => by simp [validBookmarkPtr] at h
  | .frac _, h => by simp [validBookmarkPtr] at h
  | .str _, h => by simp [validBookmarkPtr] at h
  | .arr _, h => by simp [validBookmarkPtr] at h
theorem jsonEq_decBookmarkElems : ∀ (xs : List JVal), validBookmarkElems xs = true →
    jsonEqList xs (marshalBookmarkList (decBookmarkElems xs [] none).1) = true
  | [], _ => by
    rw [decBookmarkElems]
    rfl
  | x :: rest, h => by
    rw [validBookmarkElems, Bool.and_eq_true] at h
    have hx := jsonEq_decBookmarkPtr x h.1
    have ih := jsonEq_decBookmarkElems rest h.2
    have hd := decBookmarkPtr_valid x h.1 none none
    rw [decBookmarkElems]
    simp only [List.head?_nil, List.tail_nil]
    have hj : (none : Option (Option Bookmark)).join = none := rfl
    rw [hj, hd]
    simp only
    rw [marshalBookmarkList_cons, jsonEqList]
    simp only [Bool.and_eq_true]
    exact ⟨hx, ih⟩
theorem jsonEq_decBookmarkSlice : ∀ (v : JVal), validBookmarkSlice v = true →
    jsonEq v (marshalBookmarkSlice (decBookmarkSlice v none none).1) = true
  | .null, _ => by
    rw [decBookmarkSlice]
    rfl
  | .arr xs, h => by
    rw [validBookmarkSlice] at h
    rw [decBookmarkSlice]
    simp only [Option.getD_none, marshalBookmarkSlice]
    rw [jsonEq]
    exact jsonEq_decBookmarkElems xs h
  | .bool _, h => by simp [validBookmarkSlice] at h
  | .num _, h => by simp [validBookmarkSlice] at h
  | .frac _, h => by simp [validBookmarkSlice] at h
  | .str _, h => by simp [validBookmarkSlice] at h
  | .obj _, h => by simp [validBookmarkSlice] at h
end

/-- C7: for every valid Folder payload, decoding it into a zero-valued `Folder`
succeeds and serializing the result gives a document equal to the payload as a
JSON value: the same members with equal values in every object, the same
elements in every array. -/
theorem marshal_unmarshal_roundtrip (v : JVal) (h : validFolder v = true) :
    (Unmarshal (.json v) Folder.zero).2 = none ∧
      jsonEq v (marshalFolder (Unmarshal (.json v) Folder.zero).1) = true := by
  have hdec := decFolder_valid v h Folder.zero
  refine ⟨by simp only [Unmarshal]; rw [hdec]; rfl, ?_⟩
  cases v with
  | obj kvs =>
    have hp : validFolderPtr (.obj kvs) = true := by
      rw [validFolderPtr]
      simpa [validFolder] using h
    have key := jsonEq_decFolderPtr (.obj kvs) hp
    rw [decFolderPtr] at key
    simpa [Unmarshal, decFolder, marshalFolderPtr] using key
  | null => simp [validFolder] at h
  | bool _ => simp [validFolder] at h
  | num _ => simp [validFolder] at h
  | frac _ => simp [validFolder] at h
  | str _ => simp [validFolder] at h
  | arr _ => simp [validFolder] at h

theorem marshal_unmarshal_roundtrip_witness :
    (Unmarshal (.json samplePayload) Folder.zero).2 = none ∧
      jsonEq samplePayload (marshalFolder (Unmarshal (.json samplePayload) Folder.zero).1)
        = true :=
  marshal_unmarshal_roundtrip samplePayload (by decide)

/-! ## C9: the URL of `createFolder` -/

theorem createFolderURL_toList (serverURL folderName : String) (parentId : Int) :
    (createFolderURL serverURL folderName parentId).toList =
      (serverURL.toList ++ "/addFolder/".toList) ++
        '?' :: (("folderName".toList ++ '=' :: folderName.toList) ++
          '&' :: ("parentId".toList ++ '=' :: fmtInt parentId)) := by
  simp [createFolderURL, Sprintf, SprintfChars]

theorem unreserved_digitByte (d : Nat) (h : d < 10) : unreserved (digitByte d) = true := by
  have key : ∀ i : Fin 10, unreserved (digitByte i.val) = true := by decide
  exact key ⟨d, h⟩

theorem unreserved_fmtUint : ∀ (fuel u : Nat) (acc : List Char), u < fuel →
    (∀ c ∈ acc, unreserved c = true) → ∀ c ∈ fmtUint u acc, unreserved c = true := by
  intro fuel
  induction fuel with
  | zero => intro u acc h; omega
  | succ fuel ih =>
    intro u acc h hacc c hc
    rw [fmtUint] at hc
    by_cases h10 : 10 ≤ u
    · simp only [h10, dite_true] at hc
      refine ih (u / 10) _ (by omega) ?_ c hc
      intro c' hc'
      simp only [List.mem_cons] at hc'
      rcases hc' with rfl | hc'
      · exact unreserved_digitByte _ (by omega)
      · exact hacc c' hc'
    · simp only [h10, dite_false, List.mem_cons] at hc
      rcases hc with rfl | hc
      · exact unreserved_digitByte _ (by omega)
      · exact hacc c hc

theorem unreserved_fmtInt (n : Int) : ∀ c ∈ fmtInt n, unreserved c = true := by
  intro c hc
  have hu : ∀ c ∈ fmtUint n.natAbs [], unreserved c = true :=
    unreserved_fmtUint (n.natAbs + 1) n.natAbs [] (by omega) (by simp)
  unfold fmtInt at hc
  split at hc
  · simp only [List.mem_cons] at hc
    rcases hc with rfl | hc
    · decide
    · exact hu c hc
  · exact hu c hc

/-- An unreserved character is none of the characters with a meaning in a
query. -/
theorem unreserved_plain (c : Char) (h : unreserved c = true) :
    c ≠ '#' ∧ c ≠ '?' ∧ c ≠ '&' ∧ c ≠ '=' ∧ c ≠ '%' ∧ c ≠ '+' := by
  refine ⟨?_, ?_, ?_, ?_, ?_, ?_⟩ <;> (rintro rfl; revert h; decide)

theorem takeWhile_all (p : Char → Bool) : ∀ (l : List Char), (∀ c ∈ l, p c = true) →
    l.takeWhile p = l
  | [], _ => rfl
  | c :: rest, h => by
    have hc := h c (List.mem_cons_self _ _)
    rw [List.takeWhile_cons, hc, if_pos rfl,
      takeWhile_all p rest (fun c' hc' => h c' (List.mem_cons_of_mem _ hc'))]

theorem takeWhile_append_stop (p : Char → Bool) (x : Char) (b : List Char) (hx : p x = false) :
    ∀ (a : List Char), (∀ c ∈ a, p c = true) → (a ++ x :: b).takeWhile p = a
  | [], _ => by simp [List.takeWhile_cons, hx]
  | c :: rest, h => by
    have hc := h c (List.mem_cons_self _ _)
    rw [List.cons_append, List.takeWhile_cons, hc, if_pos rfl,
      takeWhile_append_stop p x b hx rest (fun c' hc' => h c' (List.mem_cons_of_mem _ hc'))]

theorem dropWhile_append_stop (p : Char → Bool) (x : Char) (b : List Char) (hx : p x = false) :
    ∀ (a : List Char), (∀ c ∈ a, p c = true) → (a ++ x :: b).dropWhile p = x :: b
  | [], _ => by simp [List.dropWhile_cons, hx]
  | c :: rest, h => by
    have hc := h c (List.mem_cons_self _ _)
    rw [List.cons_append, List.dropWhile_cons, hc]
    simp only [if_true]
    exact dropWhile_append_stop p x b hx rest (fun c' hc' => h c' (List.mem_cons_of_mem _ hc'))

theorem splitOn_plain (sep : Char) : ∀ (l : List Char), (∀ c ∈ l, c ≠ sep) → splitOn sep l = [l]
  | [], _ => rfl
  | c :: rest, h => by
    have hc := h c (List.mem_cons_self _ _)
    rw [splitOn, if_neg hc,
      splitOn_plain sep rest (fun c' hc' => h c' (List.mem_cons_of_mem _ hc'))]

theorem splitOn_append (sep : Char) (b : List Char) : ∀ (a : List Char), (∀ c ∈ a, c ≠ sep) →
    splitOn sep (a ++ sep :: b) = a :: splitOn sep b
  | [], _ => by simp [splitOn]
  | c :: rest, h => by
    have hc := h c (List.mem_cons_self _ _)
    rw [List.cons_append, splitOn, if_neg hc,
      splitOn_append sep b rest (fun c' hc' => h c' (List.mem_cons_of_mem _ hc'))]

theorem unescape_plain : ∀ (l : List Char), (∀ c ∈ l, c ≠ '+' ∧ c ≠ '%') → unescape l = some l
  | [], _ => rfl
  | c :: rest, h => by
    have hc := h c (List.mem_cons_self _ _)
    have ih := unescape_plain rest (fun c' hc' => h c' (List.mem_cons_of_mem _ hc'))
    conv => lhs; unfold unescape
    simp only [hc.1, hc.2, if_false, ih, Option.map_some']

theorem queryOf_createFolderURL (serverURL folderName : String) (parentId : Int)
    (hS : ∀ c ∈ serverURL.toList, c ≠ '?' ∧ c ≠ '#')
    (hN : ∀ c ∈ folderName.toList, unreserved c = true) :
    queryOf (createFolderURL serverURL folderName parentId).toList =
      ("folderName".toList ++ '=' :: folderName.toList) ++
        '&' :: ("parentId".toList ++ '=' :: fmtInt parentId) := by
  have hD := unreserved_fmtInt parentId
  rw [createFolderURL_toList, queryOf, takeWhile_all]
  · rw [dropWhile_append_stop _ '?' _ (by decide)]
    · rfl
    · intro c hc
      simp only [List.mem_append] at hc
      rcases hc with hc | hc
      · simpa using (hS c hc).1
      · revert c
        decide
  · intro c hc
    simp only [List.mem_append, List.mem_cons] at hc
    have lit : ∀ l : List Char, (∀ c ∈ l, (c != '#') = true) → c ∈ l → (c != '#') = true :=
      fun l hl hc => hl c hc
    rcases hc with (hc | hc) | rfl | ((hc | rfl | hc) | rfl | hc | rfl | hc)
    · simpa using (hS c hc).2
    · exact lit _ (by decide) hc
    · decide
    · exact lit _ (by decide) hc
    · decide
    · simpa using (unreserved_plain c (hN c hc)).1
    · decide
    · exact lit _ (by decide) hc
    · decide
    · simpa using (unreserved_plain c (hD c hc)).1

theorem pairOf_named (name value : List Char) (h : ∀ c ∈ name, (c != '=') = true) :
    pairOf (name ++ '=' :: value) = (name, value) := by
  unfold pairOf
  rw [takeWhile_append_stop _ '=' _ (by decide) name h,
    dropWhile_append_stop _ '=' _ (by decide) name h]
  rfl

theorem queryParam_createFolderURL (serverURL folderName : String) (parentId : Int)
    (hS : ∀ c ∈ serverURL.toList, c ≠ '?' ∧ c ≠ '#')
    (hN : ∀ c ∈ folderName.toList, unreserved c = true) :
    queryParam (createFolderURL serverURL folderName parentId) "folderName" = some folderName ∧
      queryParam (createFolderURL serverURL folderName parentId) "parentId" =
        some (toString parentId) := by
  have hD := unreserved_fmtInt parentId
  have hq := queryOf_createFolderURL serverURL folderName parentId hS hN
  have hsplit : splitOn '&' (queryOf (createFolderURL serverURL folderName parentId).toList) =
      [("folderName".toList ++ '=' :: folderName.toList),
        ("parentId".toList ++ '=' :: fmtInt parentId)] := by
    rw [hq, splitOn_append, splitOn_plain]
    · intro c hc
      simp only [List.mem_append, List.mem_cons] at hc
      rcases hc with hc | rfl | hc
      · revert c
        decide
      · decide
      · exact (unreserved_plain c (hD c hc)).2.2.1
    · intro c hc
      simp only [List.mem_append, List.mem_cons] at hc
      rcases hc with hc | rfl | hc
      · revert c
        decide
      · decide
      · exact (unreserved_plain c (hN c hc)).2.2.1
  have hu1 : unescape folderName.toList = some folderName.toList :=
    unescape_plain _ (fun c hc =>
      ⟨(unreserved_plain c (hN c hc)).2.2.2.2.2, (unreserved_plain c (hN c hc)).2.2.2.2.1⟩)
  have hu2 : unescape (fmtInt parentId) = some (fmtInt parentId) :=
    unescape_plain _ (fun c hc =>
      ⟨(unreserved_plain c (hD c hc)).2.2.2.2.2, (unreserved_plain c (hD c hc)).2.2.2.2.1⟩)
  have k1 : unescape "folderName".toList = some "folderName".toList := by decide
  have k2 : unescape "parentId".toList = some "parentId".toList := by decide
  have ne : ("folderName".toList == "parentId".toList) = false := by decide
  unfold queryParam
  rw [hsplit]
  simp only [List.map_cons, List.map_nil]
  rw [pairOf_named _ _ (by decide), pairOf_named _ _ (by decide)]
  refine ⟨?_, ?_⟩
  · simp only [List.find?_cons, k1, beq_self_eq_true, hu1, Option.map_some']
    rfl
  · simp only [List.find?_cons, k1, k2, Option.some_beq_some, ne, beq_self_eq_true, hu2,
      Option.map_some', fmtInt_eq_toString]

/-- C9, refuted as stated: for the folder name `a&b` the URL is
`.../addFolder/?folderName=a&b&parentId=3`, built as the claim says, and the
`folderName` parameter of its query is `a`, not the name. -/
theorem ampersand_cuts_name :
    createFolderURL "http://localhost:8081" "a&b" 3 =
        "http://localhost:8081/addFolder/?folderName=a&b&parentId=3" ∧
      queryParam "http://localhost:8081/addFolder/?folderName=a&b&parentId=3" "folderName" =
        some "a" ∧
      queryParam (createFolderURL "http://localhost:8081" "a&b" 3) "folderName" ≠ some "a&b" := by
  have h1 : createFolderURL "http://localhost:8081" "a&b" 3 =
      "http://localhost:8081/addFolder/?folderName=a&b&parentId=3" := by
    rw [createFolderURL_eq]
    decide
  refine ⟨h1, by decide, ?_⟩
  rw [h1]
  decide

/-- C9, amended: for every server URL, folder name and parent id, negative ones
included, `createFolder` asks `http.NewRequest` for a `GET` of the URL
`serverURL ++ "/addFolder/?folderName=" ++ name ++ "&parentId=" ++` the decimal
parent id, the name put in as it is, and sends that request when the URL is
accepted. When the server URL holds no `?` and no `#` and the name is made of
unreserved URL characters, the query of this URL has the name as `folderName`
and the decimal parent id as `parentId`. -/
theorem createFolder_request (w : World) (folderName : String) (parentId : Int) (s : State) :
    createFolderURL s.serverURL folderName parentId =
        s.serverURL ++ "/addFolder/?folderName=" ++ folderName ++ "&parentId=" ++
          toString parentId ∧
      (createFolder w folderName parentId s).trace =
        s.trace ++ Event.createFolder folderName parentId ::
          (match w.urlError (createFolderURL s.serverURL folderName parentId) with
           | some _ => []
           | none => [Event.send ⟨"GET", createFolderURL s.serverURL folderName parentId,
              [authHeader s]⟩]) ∧
      (s.serverURL.toList.all (fun c => c != '?' && c != '#') = true →
        folderName.toList.all unreserved = true →
        queryParam (createFolderURL s.serverURL folderName parentId) "folderName" =
            some folderName ∧
          queryParam (createFolderURL s.serverURL folderName parentId) "parentId" =
            some (toString parentId)) := by
  refine ⟨createFolderURL_eq _ _ _, ?_, ?_⟩
  · rw [createFolder_trace, createFolderURL_eq]
    rfl
  · intro hserver hname
    have hS : ∀ c ∈ s.serverURL.toList, c ≠ '?' ∧ c ≠ '#' := by
      intro c hc
      have := List.all_eq_true.mp hserver c hc
      simpa using this
    have hN : ∀ c ∈ folderName.toList, unreserved c = true := List.all_eq_true.mp hname
    exact queryParam_createFolderURL s.serverURL folderName parentId hS hN

theorem createFolder_request_witness :
    (createFolderURL (connected twoLevel).serverURL "my folder" (-3) =
        (connected twoLevel).serverURL ++ "/addFolder/?folderName=" ++ "my folder" ++
          "&parentId=" ++ toString (-3 : Int) ∧
      (createFolder (unreachable "offline") "my folder" (-3) (connected twoLevel)).trace =
        (connected twoLevel).trace ++ Event.createFolder "my folder" (-3) ::
          (match (unreachable "offline").urlError
              (createFolderURL (connected twoLevel).serverURL "my folder" (-3)) with
           | some _ => []
           | none => [Event.send ⟨"GET",
              createFolderURL (connected twoLevel).serverURL "my folder" (-3),
              [authHeader (connected twoLevel)]⟩])) ∧
      (connected twoLevel).serverURL.toList.all (fun c => c != '?' && c != '#') = true ∧
      "work".toList.all unreserved = true ∧
      queryParam (createFolderURL (connected twoLevel).serverURL "work" (-3)) "folderName" =
        some "work" ∧
      queryParam (createFolderURL (connected twoLevel).serverURL "work" (-3)) "parentId" =
        some (toString (-3 : Int)) :=
  ⟨⟨(createFolder_request (unreachable "offline") "my folder" (-3) (connected twoLevel)).1,
      (createFolder_request (unreachable "offline") "my folder" (-3) (connected twoLevel)).2.1⟩,
    by decide, by decide,
    (createFolder_request (unreachable "offline") "work" (-3) (connected twoLevel)).2.2
      (by decide) (by decide)⟩

/-! ## C10: the `Authorization` header -/

theorem dropWhile_of_all (q : Char → Bool) (v : List Char) :
    ∀ (u : List Char), (∀ c ∈ u, q c = true) → (u ++ v).dropWhile q = v.dropWhile q
  | [], _ => rfl
  | c :: rest, h => by
    have hc := h c (List.mem_cons_self _ _)
    rw [List.cons_append, List.dropWhile_cons, hc]
    simp only [if_true]
    exact dropWhile_of_all q v rest (fun c' hc' => h c' (List.mem_cons_of_mem _ hc'))

theorem dropWhile_of_none (q : Char → Bool) (v : List Char) (h : ∀ c ∈ v, q c = false) :
    v.dropWhile q = v := by
  cases v with
  | nil => rfl
  | cons c rest =>
    have hc := h c (List.mem_cons_self _ _)
    rw [List.dropWhile_cons, hc]
    simp

/-- Trimming a text that none of whose characters is trimmed, followed by
characters that all are, gives the text. -/
theorem trim_padded (q : Char → Bool) (a b : List Char) (ha : ∀ c ∈ a, q c = false)
    (hb : ∀ c ∈ b, q c = true) :
    (((a ++ b).dropWhile q).reverse.dropWhile q).reverse = a := by
  cases a with
  | nil =>
    have hnil : b.dropWhile q = [] := by
      have := dropWhile_of_all q [] b hb
      simpa using this
    simp [hnil]
  | cons x rest =>
    have h1 : ((x :: rest) ++ b).dropWhile q = (x :: rest) ++ b := by
      rw [List.cons_append, List.dropWhile_cons, ha x (List.mem_cons_self _ _)]
      simp
    rw [h1, List.reverse_append,
      dropWhile_of_all q _ b.reverse (fun c hc => hb c (List.mem_reverse.mp hc)),
      dropWhile_of_none q _ (fun c hc => ha c (List.mem_reverse.mp hc)), List.reverse_reverse]

theorem entered_of_noNul (buf : String)
    (h : buf.toList.all (fun c => c != Char.ofNat 0) = true) : entered buf = buf := by
  unfold entered
  rw [takeWhile_all _ _ (fun c hc => List.all_eq_true.mp h c hc)]
  rfl

theorem trimNul_padded (buf : String) (h : padded buf = true) : trimNul buf = entered buf := by
  unfold trimNul trimFunc entered
  unfold padded at h
  have key := trim_padded (fun c => decide (c = Char.ofNat 0))
    (buf.toList.takeWhile (fun c => c != Char.ofNat 0))
    (buf.toList.dropWhile (fun c => c != Char.ofNat 0))
    (fun c hc => by
      have := List.mem_takeWhile_imp hc
      simpa using this)
    (fun c hc => by
      have := List.all_eq_true.mp h c hc
      simpa using this)
  rw [List.takeWhile_append_dropWhile] at key
  rw [key]

theorem clickConnect_trace (w : World) (s : State) :
    (clickConnect w s).trace =
      s.trace ++ Event.getRemoteBookmarks (trimNul s.composeServerURL) ::
        (match w.urlError (TrimSpace (trimNul s.composeServerURL) ++ "/getTree/") with
         | some _ => []
         | none => [Event.send ⟨"GET", TrimSpace (trimNul s.composeServerURL) ++ "/getTree/",
            [("Authorization", "Basic " ++ basicAuth (trimNul s.composeServerLogin)
              (trimNul s.composeServerPassword))]⟩]) := by
  simp only [clickConnect, getRemoteBookmarks_trace, getTreeRequest, authHeader]

/-- C10, refuted as stated: the request that `init` sends carries the encoding
of the two 512-byte buffers, the text `login`, the text `password` and the NUL
bytes behind them, and not that of the login and the password. -/
theorem init_sends_padded_buffers :
    (init (unreachable "offline")).trace =
        [Event.getRemoteBookmarks "http://localhost:8081",
          Event.send (getTreeRequest "http://localhost:8081" initGlobals)] ∧
      entered initGlobals.composeServerLogin = "login" ∧
      entered initGlobals.composeServerPassword = "password" ∧
      (getTreeRequest "http://localhost:8081" initGlobals).Header ≠
        [("Authorization", "Basic " ++ basicAuth "login" "password")] ∧
      "Basic " ++ basicAuth "login" "password" = "Basic bG9naW46cGFzc3dvcmQ=" ∧
      ((getTreeRequest "http://localhost:8081" initGlobals).Header.map
        (fun h => h.2.toList.take 20)) = ["Basic bG9naW4AAAAAAA".toList] := by
  refine ⟨?_, by decide, by decide, by decide, by decide, by decide⟩
  simp [init, getRemoteBookmarks_trace, unreachable, initGlobals]

/-- C10, amended: `basicAuth` is the standard padded base64 encoding of the
bytes of `username ++ ":" ++ password` (standard decoding gives these bytes
back), and each of the two operations sends at most one request, a `GET` whose
only header is `Authorization: Basic ` followed by that encoding of the login
and password buffers as they are, NUL bytes included. This is the encoding of
the entered login and password when the two buffers hold no NUL byte; and the
request that a click on "connect" sends carries the encoding of the entered
login and password when each buffer holds its text followed by NUL bytes
only. -/
theorem basicAuth_standard_base64 (username password : String) (w : World) (op : Op)
    (s : State) :
    stdDecode (basicAuth username password).toList
        = some (bytesOf (username ++ ":" ++ password)) ∧
      (op.request s).Method = "GET" ∧
      (op.request s).Header = [("Authorization",
        "Basic " ++ basicAuth s.composeServerLogin s.composeServerPassword)] ∧
      (op.run w s).trace = op.history s ++
        (match w.urlError (op.request s).URL with
         | some _ => []
         | none => [Event.send (op.request s)]) ∧
      (s.composeServerLogin.toList.all (fun c => c != Char.ofNat 0) = true →
        s.composeServerPassword.toList.all (fun c => c != Char.ofNat 0) = true →
        (op.request s).Header = [("Authorization",
          "Basic " ++ basicAuth (entered s.composeServerLogin)
            (entered s.composeServerPassword))]) ∧
      (padded s.composeServerLogin = true → padded s.composeServerPassword = true →
        (clickConnect w s).trace =
          s.trace ++ Event.getRemoteBookmarks (trimNul s.composeServerURL) ::
            (match w.urlError (TrimSpace (trimNul s.composeServerURL) ++ "/getTree/") with
             | some _ => []
             | none => [Event.send ⟨"GET", TrimSpace (trimNul s.composeServerURL) ++ "/getTree/",
                [("Authorization", "Basic " ++ basicAuth (entered s.composeServerLogin)
                  (entered s.composeServerPassword))]⟩])) := by
  refine ⟨?_, ?_, ?_, ?_, ?_, ?_⟩
  · exact stdDecode_Encode _
  · cases op <;> rfl
  · cases op <;> rfl
  · cases op with
    | getRemoteBookmarks url =>
      simp only [Op.run, Op.history, Op.request, getRemoteBookmarks_trace,
        List.append_assoc, List.singleton_append]
    | createFolder folderName parentId =>
      simp only [Op.run, Op.history, Op.request, createFolder_trace,
        List.append_assoc, List.singleton_append]
  · intro hl hp
    rw [entered_of_noNul _ hl, entered_of_noNul _ hp]
    cases op <;> rfl
  · intro hl hp
    rw [clickConnect_trace, trimNul_padded _ hl, trimNul_padded _ hp]

theorem basicAuth_standard_base64_witness :
    ((connected twoLevel).composeServerLogin.toList.all (fun c => c != Char.ofNat 0) = false ∧
      padded credentialsTyped.composeServerLogin = true ∧
      padded credentialsTyped.composeServerPassword = true ∧
      entered credentialsTyped.composeServerLogin = "bob" ∧
      entered credentialsTyped.composeServerPassword = "secret") ∧
      (clickConnect (unreachable "offline") credentialsTyped).trace =
        credentialsTyped.trace ++
          Event.getRemoteBookmarks (trimNul credentialsTyped.composeServerURL) ::
            (match (unreachable "offline").urlError
                (TrimSpace (trimNul credentialsTyped.composeServerURL) ++ "/getTree/") with
             | some _ => []
             | none => [Event.send ⟨"GET",
                TrimSpace (trimNul credentialsTyped.composeServerURL) ++ "/getTree/",
                [("Authorization", "Basic " ++ basicAuth (entered credentialsTyped.composeServerLogin)
                  (entered credentialsTyped.composeServerPassword))]⟩]) ∧
      ((Op.createFolder "work" 1).request (clickConnect (unreachable "offline")
          credentialsTyped)).Header =
        [("Authorization", "Basic " ++
          basicAuth (entered (clickConnect (unreachable "offline")
              credentialsTyped).composeServerLogin)
            (entered (clickConnect (unreachable "offline")
              credentialsTyped).composeServerPassword))] :=
  ⟨by decide,
    (basicAuth_standard_base64 "bob" "secret" (unreachable "offline")
      (Op.getRemoteBookmarks "http://localhost:8081") credentialsTyped).2.2.2.2.2
      (by decide) (by decide),
    (basicAuth_standard_base64 "bob" "secret" (unreachable "offline")
      (Op.createFolder "work" 1)
      (clickConnect (unreachable "offline") credentialsTyped)).2.2.2.2.1
      (by decide) (by decide)⟩

end Gobkm
